import Mathlib

/-!
The asset operations manager and the validation service of dkg.js.

A shallow embedding of `src/services/validation-service.js` and
`src/managers/asset-operations-manager.js`.

JavaScript values are an explicit datatype, a thrown exception is the `error`
side of `Except`, and the calls the manager makes to its collaborators (node
API service, blockchain service, step hooks) are recorded in a trace together
with the answer each call received.
-/

namespace DKG

/-! ## JavaScript values -/

/-- JavaScript numbers as far as this code inspects them: `NaN` or an integer. -/
inductive JSNum where
  | nan
  | int (i : Int)
deriving DecidableEq, Repr

/-- JavaScript values: the primitives, arrays and plain objects (JSON data). -/
inductive JSVal where
  | undefined
  | null
  | bool (b : Bool)
  | num (n : JSNum)
  | str (s : String)
  | arr (elems : List JSVal)
  | obj (fields : List (String × JSVal))

/-- A thrown value: `Error(message)` of the program, or a `TypeError` of the engine. -/
inductive JSError where
  | error (message : String)
  | typeError (message : String)
deriving DecidableEq, Repr

/-- The `message` property of a thrown error. -/
def JSError.msg : JSError → String
  | .error m => m
  | .typeError m => m

/-- The outcome of evaluating a JavaScript expression that may throw. -/
abbrev JSResult (α : Type) := Except JSError α

/-- The `typeof` operator. -/
def typeOf : JSVal → String
  | .undefined => "undefined"
  | .null => "object"
  | .bool _ => "boolean"
  | .num _ => "number"
  | .str _ => "string"
  | .arr _ => "object"
  | .obj _ => "object"

/-- The test `v == null`: true of `null` and `undefined` only. -/
def isNullish : JSVal → Bool
  | .undefined => true
  | .null => true
  | _ => false

/-- ToBoolean: the truthiness of a value in `if`, `!`, `&&` and `?:`. -/
def truthy : JSVal → Bool
  | .undefined => false
  | .null => false
  | .bool b => b
  | .num .nan => false
  | .num (.int i) => i != 0
  | .str s => s != ""
  | .arr _ => true
  | .obj _ => true

/-- Lookup of an own property in the field list of a plain object. -/
def lookupField (k : String) : List (String × JSVal) → JSVal
  | [] => .undefined
  | (k', v) :: fs => if k' = k then v else lookupField k fs

/-- The property read `v.k` on a value that is not `null`/`undefined`: own
properties of plain objects, `length` of arrays and strings, `undefined`
otherwise. -/
def getProp (v : JSVal) (k : String) : JSVal :=
  match v with
  | .obj fs => lookupField k fs
  | .arr es => if k = "length" then .num (.int es.length) else .undefined
  | .str s => if k = "length" then .num (.int s.length) else .undefined
  | _ => .undefined

/-- The property read `v.k`, which throws a `TypeError` on `null`/`undefined`. -/
def getPropE (v : JSVal) (k : String) : JSResult JSVal :=
  match v with
  | .undefined =>
    .error (.typeError ("Cannot read properties of undefined (reading '" ++ k ++ "')"))
  | .null => .error (.typeError ("Cannot read properties of null (reading '" ++ k ++ "')"))
  | _ => .ok (getProp v k)

/-- The optional read `v?.k`. -/
def getPropOpt (v : JSVal) (k : String) : JSVal :=
  if isNullish v then .undefined else getProp v k

/-- Assignment `o.k = v` on the field list of a plain object: an existing key keeps
its position, a new key is appended. -/
def setField (k : String) (v : JSVal) : List (String × JSVal) → List (String × JSVal)
  | [] => [(k, v)]
  | (k', v') :: fs => if k' = k then (k, v) :: fs else (k', v') :: setField k v fs

/-- The object `{...o, k: v}`; spreading a value without own enumerable
properties contributes nothing. -/
def spreadWith (o : JSVal) (k : String) (v : JSVal) : JSVal :=
  match o with
  | .obj fs => .obj (setField k v fs)
  | _ => .obj [(k, v)]

/-- Strict equality `v === s` against a string. -/
def strictEqStr (v : JSVal) (s : String) : Bool :=
  match v with
  | .str t => t == s
  | _ => false

/-- Strict equality `v === true`. -/
def isTrue : JSVal → Bool
  | .bool true => true
  | _ => false

/-! ## Strings -/

/-- `String.prototype.split` with a separator of one character, on character lists. -/
def splitOnChar (sep : Char) : List Char → List (List Char)
  | [] => [[]]
  | c :: cs =>
    if c = sep then [] :: splitOnChar sep cs
    else
      match splitOnChar sep cs with
      | [] => [[c]]
      | seg :: rest => (c :: seg) :: rest

/-- The call `s.split(sep)` for a separator of one character. -/
def jsSplit (s : String) (sep : Char) : List String :=
  (splitOnChar sep s.toList).map String.mk

/-- Substring containment on character lists. -/
def includesChars (p : List Char) : List Char → Bool
  | [] => p.isPrefixOf []
  | c :: cs => p.isPrefixOf (c :: cs) || includesChars p cs

/-- The call `s.includes(p)`. -/
def jsIncludes (s p : String) : Bool := includesChars p.toList s.toList

/-- The call `s.startsWith(p)`. -/
def jsStartsWith (s p : String) : Bool := p.toList.isPrefixOf s.toList

/-- White space skipped by `parseInt` (StrWhiteSpaceChar). -/
def isJSWhitespace (c : Char) : Bool :=
  c.val = 0x20 || c.val = 0x09 || c.val = 0x0A || c.val = 0x0B || c.val = 0x0C || c.val = 0x0D ||
  c.val = 0xA0 || c.val = 0x1680 || (0x2000 ≤ c.val && c.val ≤ 0x200A) || c.val = 0x2028 ||
  c.val = 0x2029 || c.val = 0x202F || c.val = 0x205F || c.val = 0x3000 || c.val = 0xFEFF

/-- The value of the longest prefix of decimal digits, `none` when there is none. -/
def parseDigits : List Char → Option Nat → Option Nat
  | [], acc => acc
  | c :: cs, acc =>
    if c.isDigit then parseDigits cs (some (acc.getD 0 * 10 + (c.toNat - 48)))
    else acc

/-- The call `parseInt(s, 10)` on a string: skip white space, read a sign, read digits. -/
def parseIntChars (cs : List Char) : JSNum :=
  match cs.dropWhile isJSWhitespace with
  | '-' :: ds =>
    match parseDigits ds none with
    | some n => .int (-(n : Int))
    | none => .nan
  | '+' :: ds =>
    match parseDigits ds none with
    | some n => .int n
    | none => .nan
  | ds =>
    match parseDigits ds none with
    | some n => .int n
    | none => .nan

/-- The call `parseInt(v, 10)`. The argument is first converted to a string: an
integer prints as its digits, `NaN`, booleans, `null`, `undefined` and plain
objects print as text without a leading digit, and an array prints as its
elements joined by commas, so that its reading is that of its first element.
Numbers are read as exact integers: a number of 22 digits or more, which prints
in exponent form, and the rounding of a long digit string to a double are
outside of what is modelled. -/
def parseInt : JSVal → JSNum
  | .str s => parseIntChars s.toList
  | .num n => n
  | .arr (e :: _) => parseInt e
  | _ => .nan

/-! ## Constants

`src/constants.js` is not among the sources. The names are those the two source
files import; the values are stand-ins, and what is proved uses of them only
that the members of one group are different strings. -/

/-- Modelled from the spec: `OPERATIONS.GET` of the missing `constants.js`, the
name of the GET operation of the set `{LOCAL_STORE, PUBLISH, GET, QUERY}`. -/
def OPERATIONS_GET : String := "get"

/-- Modelled from the spec: `OPERATIONS.LOCAL_STORE` of the missing `constants.js`. -/
def OPERATIONS_LOCAL_STORE : String := "local-store"

/-- Modelled from the spec: `OPERATIONS.PUBLISH` of the missing `constants.js`. -/
def OPERATIONS_PUBLISH : String := "publish"

/-- Modelled from the spec: `OPERATIONS.QUERY` of the missing `constants.js`. -/
def OPERATIONS_QUERY : String := "query"

/-- Modelled from the spec: `OPERATION_STATUSES.FAILED` of the missing
`constants.js`, the failed status of the set `{PENDING, COMPLETED, FAILED}`. -/
def OPERATION_STATUSES_FAILED : String := "FAILED"

/-- Modelled from the spec: `CONTENT_TYPES` of the missing `constants.js`, the
content type filter `{PUBLIC, PRIVATE, ALL}`. -/
def CONTENT_TYPES_PUBLIC : String := "public"

/-- Modelled from the spec: `CONTENT_TYPES.PRIVATE` of the missing `constants.js`. -/
def CONTENT_TYPES_PRIVATE : String := "private"

/-- Modelled from the spec: `CONTENT_TYPES.ALL` of the missing `constants.js`. -/
def CONTENT_TYPES_ALL : String := "all"

/-- Modelled from the spec: `GET_OUTPUT_FORMATS.N_QUADS` of the missing
`constants.js`, one of the output formats `{JSON_LD, N_QUADS}`. -/
def GET_OUTPUT_FORMATS_N_QUADS : String := "n-quads"

/-- Modelled from the spec: `GET_OUTPUT_FORMATS.JSON_LD` of the missing `constants.js`. -/
def GET_OUTPUT_FORMATS_JSON_LD : String := "json-ld"

/-- Modelled from the spec: `Object.values(GET_OUTPUT_FORMATS)`. -/
def GET_OUTPUT_FORMATS_values : List String :=
  [GET_OUTPUT_FORMATS_N_QUADS, GET_OUTPUT_FORMATS_JSON_LD]

/-- Modelled from the spec: `ASSERTION_STATES.LATEST` of the missing
`constants.js`, the state that requests the latest version. -/
def ASSERTION_STATES_LATEST : String := "latest"

/-- Modelled from the spec: `QUERY_TYPES.CONSTRUCT` of the missing `constants.js`,
the type of a graph-construct query. -/
def QUERY_TYPES_CONSTRUCT : String := "CONSTRUCT"

/-- Modelled from the spec: `Object.values(QUERY_TYPES)`. -/
def QUERY_TYPES_values : List String := [QUERY_TYPES_CONSTRUCT, "SELECT"]

/-- Modelled from the spec: `PRIVATE_ASSERTION_PREDICATE` of the missing
`constants.js`, the reserved predicate of the linking triple. -/
def PRIVATE_ASSERTION_PREDICATE : String :=
  "https://ontology.origintrail.io/dkg/1.0#privateAssertionID"

/-! ## `ValidationService` (src/services/validation-service.js)

`nodeSupported` is imported from the missing `utilities.js`; its value is the
parameter `nodeSupported` of the validators that reach it. -/

namespace ValidationService

/-- Method `validateRequiredParam`. -/
def validateRequiredParam (paramName : String) (param : JSVal) : JSResult Unit :=
  if isNullish param then .error (.error (paramName ++ " is missing.")) else .ok ()

/-- Method `validateParamType`. -/
def validateParamType (paramName : String) (param : JSVal) (type : String) : JSResult Unit :=
  let parameter := if type = "number" then JSVal.num (parseInt param) else param
  if typeOf parameter ≠ type then
    .error (.error (paramName ++ " must be of type " ++ type ++ "."))
  else .ok ()

/-- Method `validateQueryString`. -/
def validateQueryString (queryString : JSVal) : JSResult Unit := do
  validateRequiredParam "queryString" queryString
  validateParamType "queryString" queryString "string"

/-- Method `validateQueryType`. -/
def validateQueryType (queryType : JSVal) : JSResult Unit := do
  validateRequiredParam "queryType" queryType
  if !(QUERY_TYPES_values.any (strictEqStr queryType)) then
    .error (.error ("Invalid query Type: available query types: " ++
      ",".intercalate QUERY_TYPES_values))
  else .ok ()

/-- The element `segments[i]` of an array of strings: `none` stands for `undefined`. -/
def segmentAt (segments : List String) (i : Nat) : Option String := segments.get? i

/-- The sum `a + b` of two array elements that are strings or `undefined`. -/
def addSegments : Option String → Option String → JSVal
  | some a, some b => .str (a ++ b)
  | some a, none => .str (a ++ "undefined")
  | none, some b => .str ("undefined" ++ b)
  | none, none => .num .nan

/-- The element `segments[i]` as a value. -/
def segmentVal : Option String → JSVal
  | some a => .str a
  | none => .undefined

/-- Method `validateUAL`. -/
def validateUAL (ual : JSVal) : JSResult Unit := do
  validateRequiredParam "UAL" ual
  validateParamType "UAL" ual "string"
  match ual with
  | .str s =>
    let segments := jsSplit s ':'
    let argsString :=
      if segments.length = 3 then segmentVal (segmentAt segments 2)
      else addSegments (segmentAt segments 2) (segmentAt segments 3)
    match argsString with
    | .str a =>
      let args := jsSplit a '/'
      if !(args.length == 3) then .error (.error "Invalid UAL.") else .ok ()
    | _ => .error (.typeError "argsString.split is not a function")
  | _ => .error (.typeError "ual.split is not a function")

/-- Method `validateContentType`. -/
def validateContentType (obj : JSVal) : JSResult Unit :=
  if !(truthy obj && typeOf obj == "object") then .error (.error "Content must be an object")
  else .ok ()

/-- The call `Object.keys(v)` on a value that is not `null`/`undefined`: the own
property names of a plain object, the indices of an array or of a string,
nothing for a number or a boolean. -/
def objectKeys : JSVal → List String
  | .obj fs => fs.map fun f => f.1
  | .arr es => (List.range es.length).map fun i => toString i
  | .str s => (List.range s.length).map fun i => toString i
  | _ => []

/-- What `validateContent` uses and the sources do not define: the constant
`MAX_FILE_SIZE` of the missing `constants.js`, the byte length of
`JSON.stringify(content)`, and the text of `MAX_FILE_SIZE / (1024 * 1024)`. -/
structure ContentLimits where
  MAX_FILE_SIZE : Nat
  byteLength : JSVal → Nat
  limitInMB : String

/-- Method `validateContent`. -/
def validateContent (L : ContentLimits) (content : JSVal) : JSResult Unit := do
  validateRequiredParam "content" content
  let keys := objectKeys content
  if !(keys.length == 1 && (keys.contains "public" || keys.contains "private")) &&
      !(keys.length == 2 && (keys.contains "public" || keys.contains "private")) then
    .error (.error "content keys can only be \"public\", \"private\" or both.")
  else if !(truthy (getProp content "public")) && !(truthy (getProp content "private")) then
    .error (.error "Public or private content must be defined")
  else if L.byteLength content > L.MAX_FILE_SIZE then
    .error (.error ("File size limit is " ++ L.limitInMB ++ "MB."))
  else .ok ()

/-- Method `validateEndpoint`. -/
def validateEndpoint (endpoint : JSVal) : JSResult Unit := do
  validateRequiredParam "endpoint" endpoint
  validateParamType "endpoint" endpoint "string"
  match endpoint with
  | .str e =>
    if !(jsStartsWith e "http") && !(jsStartsWith e "ws") then
      .error (.error "Endpoint should start with either \"http\" or \"ws\"")
    else .ok ()
  | _ => .error (.typeError "endpoint.startsWith is not a function")

/-- Method `validatePort`. -/
def validatePort (port : JSVal) : JSResult Unit := do
  validateRequiredParam "port" port
  validateParamType "port" port "number"

/-- Method `validateMaxNumberOfRetries`. -/
def validateMaxNumberOfRetries (maxNumberOfRetries : JSVal) : JSResult Unit := do
  validateRequiredParam "maxNumberOfRetries" maxNumberOfRetries
  validateParamType "maxNumberOfRetries" maxNumberOfRetries "number"

/-- Method `validateFrequency`. -/
def validateFrequency (frequency : JSVal) : JSResult Unit := do
  validateRequiredParam "frequency" frequency
  validateParamType "frequency" frequency "number"

/-- Method `validateEpochsNum`. -/
def validateEpochsNum (epochsNum : JSVal) : JSResult Unit := do
  validateRequiredParam "epochsNum" epochsNum
  validateParamType "epochsNum" epochsNum "number"

/-- Method `validateHashFunctionId`. -/
def validateHashFunctionId (hashFunctionId : JSVal) : JSResult Unit := do
  validateRequiredParam "hashFunctionId" hashFunctionId
  validateParamType "hashFunctionId" hashFunctionId "number"

/-- Method `validateScoreFunctionId`. -/
def validateScoreFunctionId (scoreFunctionId : JSVal) : JSResult Unit := do
  validateRequiredParam "scoreFunctionId" scoreFunctionId
  validateParamType "scoreFunctionId" scoreFunctionId "number"

/-- Method `validateImmutable`. -/
def validateImmutable (immutable : JSVal) : JSResult Unit := do
  validateRequiredParam "immutable" immutable
  validateParamType "immutable" immutable "boolean"

/-- Method `validateTokenAmount`. -/
def validateTokenAmount (tokenAmount : JSVal) : JSResult Unit :=
  if isNullish tokenAmount then .ok ()
  else validateParamType "tokenAmount" tokenAmount "number"

/-- Method `validateAuthToken`. -/
def validateAuthToken (authToken : JSVal) : JSResult Unit :=
  if isNullish authToken then .ok ()
  else validateParamType "authToken" authToken "string"

/-- Method `validateValidate`. -/
def validateValidate (validate : JSVal) : JSResult Unit := do
  validateRequiredParam "validate" validate
  validateParamType "validate" validate "boolean"

/-- Method `validateOutputFormat`. -/
def validateOutputFormat (outputFormat : JSVal) : JSResult Unit := do
  validateRequiredParam "outputFormat" outputFormat
  if !(GET_OUTPUT_FORMATS_values.any (strictEqStr outputFormat)) then
    .error (.error ("Invalid query Type: available query types: " ++
      ",".intercalate GET_OUTPUT_FORMATS_values))
  else .ok ()

/-- Method `validateBlockchain(blockchain, operation)`. -/
def validateBlockchain (nodeSupported : Bool) (blockchain operation : JSVal) : JSResult Unit := do
  validateRequiredParam "blockchain" blockchain
  validateRequiredParam "blockchain name" (getProp blockchain "name")
  validateRequiredParam "blockchain hub contract" (getProp blockchain "hubContract")
  if nodeSupported then
    validateRequiredParam "blockchain rpc" (getProp blockchain "rpc")
    if !(strictEqStr operation OPERATIONS_GET) then
      validateRequiredParam "blockchain public key" (getProp blockchain "publicKey")
      validateRequiredParam "blockchain private key" (getProp blockchain "privateKey")

/-- Method `validateNewOwner`. -/
def validateNewOwner (newOwner : JSVal) : JSResult Unit := do
  validateRequiredParam "newOwner" newOwner
  validateParamType "newOwner" newOwner "string"

/-- Method `validateAssetCreate`: eleven parameters, `validateBlockchain` is
called with one argument, so its `operation` is `undefined`. -/
def validateAssetCreate (nodeSupported : Bool)
    (blockchain endpoint port maxNumberOfRetries frequency epochsNum hashFunctionId
      scoreFunctionId immutable tokenAmount authToken : JSVal) : JSResult Unit := do
  validateBlockchain nodeSupported blockchain .undefined
  validateEndpoint endpoint
  validatePort port
  validateMaxNumberOfRetries maxNumberOfRetries
  validateFrequency frequency
  validateEpochsNum epochsNum
  validateHashFunctionId hashFunctionId
  validateScoreFunctionId scoreFunctionId
  validateImmutable immutable
  validateTokenAmount tokenAmount
  validateAuthToken authToken

/-- Method `validateAssetGet`: ten parameters, `validateBlockchain` is called
with one argument, so its `operation` is `undefined`. -/
def validateAssetGet (nodeSupported : Bool)
    (UAL blockchain endpoint port maxNumberOfRetries frequency hashFunctionId validate
      outputFormat authToken : JSVal) : JSResult Unit := do
  validateUAL UAL
  validateBlockchain nodeSupported blockchain .undefined
  validateEndpoint endpoint
  validatePort port
  validateMaxNumberOfRetries maxNumberOfRetries
  validateFrequency frequency
  validateHashFunctionId hashFunctionId
  validateValidate validate
  validateOutputFormat outputFormat
  validateAuthToken authToken

/-- Method `validateAssetTransfer`. -/
def validateAssetTransfer (nodeSupported : Bool) (UAL newOwner blockchain : JSVal) :
    JSResult Unit := do
  validateUAL UAL
  validateNewOwner newOwner
  validateBlockchain nodeSupported blockchain .undefined

/-- Method `validateAssetGetOwner`. -/
def validateAssetGetOwner (nodeSupported : Bool) (UAL blockchain : JSVal) : JSResult Unit := do
  validateUAL UAL
  validateBlockchain nodeSupported blockchain .undefined

end ValidationService

/-! ## More JavaScript operations used by the manager -/

/-- Modelled from the spec: `OPERATIONS_STEP_STATUS.CREATE_ASSET_COMPLETED` of the
missing `constants.js`, the status reported to the completion hook. -/
def OPERATIONS_STEP_STATUS_CREATE_ASSET_COMPLETED : String := "CREATE_ASSET_COMPLETED"

/-- The positional parameter `i` of a call with the argument list `args`: a
parameter without argument is `undefined`, an argument without parameter is
dropped. -/
def arg (args : List JSVal) (i : Nat) : JSVal := args.getD i .undefined

/-- Destructuring `const { ... } = v` throws a `TypeError` on `null`/`undefined`. -/
def destructure (v : JSVal) : JSResult JSVal :=
  if isNullish v then .error (.typeError "Cannot destructure undefined") else .ok v

mutual
/-- ToString of a value. -/
def toStringJS : JSVal → String
  | .undefined => "undefined"
  | .null => "null"
  | .bool b => if b then "true" else "false"
  | .num .nan => "NaN"
  | .num (.int i) => toString i
  | .str s => s
  | .arr es => joinElems "," es
  | .obj _ => "[object Object]"
/-- The elements of an array joined by `sep`: `null` and `undefined` print as the
empty string. -/
def joinElems (sep : String) : List JSVal → String
  | [] => ""
  | [e] => if isNullish e then "" else toStringJS e
  | e :: e' :: es => (if isNullish e then "" else toStringJS e) ++ sep ++ joinElems sep (e' :: es)
end

/-- The call `v.join(sep)`, defined on arrays, where `who` is the text of the
expression `v` in the source. -/
def jsJoin (who : String) (v : JSVal) (sep : String) : JSResult String :=
  match v with
  | .arr es => .ok (joinElems sep es)
  | .undefined => .error (.typeError "Cannot read properties of undefined (reading 'join')")
  | .null => .error (.typeError "Cannot read properties of null (reading 'join')")
  | _ => .error (.typeError (who ++ ".join is not a function"))

/-- The call `element.includes(p)` of the filter callback: substring test on a
string, membership test on an array, a `TypeError` on everything else. -/
def elementIncludes (p : String) : JSVal → JSResult Bool
  | .str s => .ok (jsIncludes s p)
  | .arr es => .ok (es.any fun e => strictEqStr e p)
  | .undefined => .error (.typeError "Cannot read properties of undefined (reading 'includes')")
  | .null => .error (.typeError "Cannot read properties of null (reading 'includes')")
  | _ => .error (.typeError "element.includes is not a function")

/-- The elements kept by `filter((element) => element.includes(p))`, in order;
the first callback that throws ends the filter. -/
def filterIncludes (p : String) : List JSVal → JSResult (List JSVal)
  | [] => .ok []
  | e :: es =>
    match elementIncludes p e with
    | .error err => .error err
    | .ok keep =>
      match filterIncludes p es with
      | .error err => .error err
      | .ok rest => .ok (if keep then e :: rest else rest)

/-- The expression `publicAssertion.filter((element) => element.includes(p))[0]`
of line 305, for the value `v` of the variable `publicAssertion`. -/
def firstIncluding (p : String) (v : JSVal) : JSResult JSVal :=
  match v with
  | .arr es =>
    match filterIncludes p es with
    | .error err => .error err
    | .ok kept => .ok (kept.headD .undefined)
  | .undefined => .error (.typeError "Cannot read properties of undefined (reading 'filter')")
  | .null => .error (.typeError "Cannot read properties of null (reading 'filter')")
  | _ => .error (.typeError "publicAssertion.filter is not a function")

/-- Line terminators, which `.` of a regular expression does not match. -/
def isLineTerminator (c : Char) : Bool :=
  c.val = 0x0A || c.val = 0x0D || c.val = 0x2028 || c.val = 0x2029

/-- After an opening quote: the characters up to the next quote, if it comes
before any line terminator. -/
def quotedBody : List Char → Option (List Char)
  | [] => none
  | c :: cs =>
    if c = '"' then some []
    else if isLineTerminator c then none
    else (quotedBody cs).map fun r => c :: r

/-- The first capture group of the leftmost match of `/"(.*?)"/`. -/
def firstQuoted : List Char → Option (List Char)
  | [] => none
  | c :: cs =>
    if c = '"' then
      match quotedBody cs with
      | some r => some r
      | none => firstQuoted cs
    else firstQuoted cs

/-- The expression `v.match(/"(.*?)"/)[1]`. -/
def matchQuoted (v : JSVal) : JSResult String :=
  match v with
  | .str s =>
    match firstQuoted s.toList with
    | some r => .ok (String.mk r)
    | none => .error (.typeError "Cannot read properties of null (reading '1')")
  | .undefined => .error (.typeError "Cannot read properties of undefined (reading 'match')")
  | .null => .error (.typeError "Cannot read properties of null (reading 'match')")
  | _ => .error (.typeError "privateAssertionLinkTriple.match is not a function")

/-! ## Collaborators of the manager -/

/-- The methods of the collaborators with side effects: the blockchain service,
the node API service and the step hooks. -/
inductive Method where
  | getContractAddress
  | createAsset
  | getLatestAssertionId
  | transferAsset
  | getAssetOwner
  | getBidSuggestion
  | localStore
  | getOperationResult
  | publish
  | get
  | query
  | afterHook
deriving DecidableEq, Repr

/-- A call to a collaborator: the method and its argument list. -/
structure Call where
  method : Method
  args : List JSVal

/-- A call together with the answer it received: a value, or a thrown error. -/
structure Event where
  call : Call
  answer : JSResult JSVal

/-- The collaborators with side effects: the answer to a call may depend on
every call made before it. -/
abbrev Env := List Event → Call → JSResult JSVal

/-- The injected validation service, as the manager calls it: each method
receives the argument list of the call. -/
structure ValidationGate where
  validateObjectType : List JSVal → JSResult Unit
  validateAssetCreate : List JSVal → JSResult Unit
  validateAssetGet : List JSVal → JSResult Unit
  validateAssetTransfer : List JSVal → JSResult Unit
  validateAssetGetOwner : List JSVal → JSResult Unit

/-- Everything the manager imports or is given that is not under `src/`:
`assertion-tools`, `jsonld`, `utilities.js`, the input service, one constant,
the validation service and the collaborators with side effects.

`calculateRoot` of `assertion-tools` sorts the array it is given in place before
it computes the root: `calculateRoot` is the value returned, `rootOrder` is the
order in which the call leaves the elements of the array, a rearrangement of
them. `deriveUAL` throws a `TypeError` when the chain name or the contract is
not a string. -/
structure Services where
  formatAssertion : JSVal → JSResult JSVal
  calculateRoot : JSVal → JSResult String
  rootOrder : List JSVal → List JSVal
  rootOrder_perm : ∀ l, (rootOrder l).Perm l
  getAssertionSizeInBytes : JSVal → JSVal
  getAssertionTriplesNumber : JSVal → JSVal
  getAssertionChunksNumber : JSVal → JSVal
  fromRDF : String → JSResult JSVal
  toNQuads : JSVal → String → JSResult JSVal
  isEmptyObject : JSVal → Bool
  deriveUAL : JSVal → JSVal → JSVal → JSResult JSVal
  resolveUAL : JSVal → JSResult JSVal
  getOperationStatusObject : JSVal → JSVal → JSVal
  getAssetCreateArguments : JSVal → JSResult JSVal
  getAssetGetArguments : JSVal → JSResult JSVal
  getBlockchain : JSVal → JSResult JSVal
  DEFAULT_GET_LOCAL_STORE_RESULT_FREQUENCY : JSVal
  validationService : ValidationGate
  env : Env

/-- The value of an array variable after `calculateRoot` was called on it: the
elements in the order the call leaves them. -/
def Services.rootSorted (S : Services) : JSVal → JSVal
  | .arr es => .arr (S.rootOrder es)
  | v => v

/-- The value of an operation result after `calculateRoot` was called on the
array `r.data.assertion`: the result holds the same array, now reordered. -/
def Services.rootSortedResult (S : Services) (r : JSVal) : JSVal :=
  match r with
  | .obj rfs =>
    match lookupField "data" rfs with
    | .obj dfs =>
      match lookupField "assertion" dfs with
      | .arr es =>
        .obj (setField "data" (.obj (setField "assertion" (.arr (S.rootOrder es)) dfs)) rfs)
      | _ => r
    | _ => r
  | _ => r

/-- The `ValidationService` of `src/services/validation-service.js` in the place
of the injected validation service: a call binds its arguments to the
parameters by position, and a method the class does not have is `undefined`,
so that calling it throws a `TypeError`. -/
def wiredValidationService (nodeSupported : Bool) : ValidationGate where
  validateObjectType := fun _ =>
    .error (.typeError "this.validationService.validateObjectType is not a function")
  validateAssetCreate := fun a =>
    ValidationService.validateAssetCreate nodeSupported (arg a 0) (arg a 1) (arg a 2) (arg a 3)
      (arg a 4) (arg a 5) (arg a 6) (arg a 7) (arg a 8) (arg a 9) (arg a 10)
  validateAssetGet := fun a =>
    ValidationService.validateAssetGet nodeSupported (arg a 0) (arg a 1) (arg a 2) (arg a 3)
      (arg a 4) (arg a 5) (arg a 6) (arg a 7) (arg a 8) (arg a 9)
  validateAssetTransfer := fun a =>
    ValidationService.validateAssetTransfer nodeSupported (arg a 0) (arg a 1) (arg a 2)
  validateAssetGetOwner := fun a =>
    ValidationService.validateAssetGetOwner nodeSupported (arg a 0) (arg a 1)

/-- The result of running a method of the manager: the calls made, in order, and
the value returned or the error thrown. -/
structure Outcome (α : Type) where
  trace : List Event
  result : JSResult α

/-- A computation of the manager: from the calls made so far to an outcome. -/
def Run (α : Type) : Type := List Event → Outcome α

/-- A computation that returns a value without calling anything. -/
def Run.pure {α : Type} (a : α) : Run α := fun t => ⟨t, .ok a⟩

/-- Sequencing: a thrown error ends the computation, the trace is kept. -/
def Run.bind {α β : Type} (m : Run α) (f : α → Run β) : Run β := fun t =>
  match m t with
  | ⟨t', .ok a⟩ => f a t'
  | ⟨t', .error e⟩ => ⟨t', .error e⟩

instance : Monad Run where
  pure := Run.pure
  bind := Run.bind

/-- A step that calls no collaborator with side effects. -/
def Run.lift {α : Type} (r : JSResult α) : Run α := fun t => ⟨t, r⟩

/-- A call to a collaborator: the call and its answer are appended to the trace. -/
def Run.call (env : Env) (m : Method) (args : List JSVal) : Run JSVal := fun t =>
  ⟨t ++ [⟨⟨m, args⟩, env t ⟨m, args⟩⟩], env t ⟨m, args⟩⟩

/-! ## `AssetOperationsManager` (src/managers/asset-operations-manager.js) -/

namespace AssetOperationsManager

/-- Lines 33-40 of `create`: a content whose `public` and `private` are both
falsy is wrapped as `{ public: content }`. -/
def normalizeContent (content : JSVal) : JSResult JSVal := do
  let pub ← getPropE content "public"
  if !(truthy pub) then
    let priv ← getPropE content "private"
    if !(truthy priv) then .ok (.obj [("public", content)]) else .ok content
  else .ok content

/-- The test `jsonContent.private && !isEmptyObject(jsonContent.private)` of
lines 73 and 82. -/
def privateSupplied (S : Services) (jsonContent : JSVal) : Bool :=
  truthy (getProp jsonContent "private") && !(S.isEmptyObject (getProp jsonContent "private"))

/-- The test `jsonContent.public && !isEmptyObject(jsonContent.public)` of line 79. -/
def publicSupplied (S : Services) (jsonContent : JSVal) : Bool :=
  truthy (getProp jsonContent "public") && !(S.isEmptyObject (getProp jsonContent "public"))

/-- Lines 77-88 of `create`: the graph that is canonicalized into the public
assertion. -/
def publicGraph (S : Services) (jsonContent privateAssertionId : JSVal) : JSVal :=
  .obj [("@graph", .arr [
    if publicSupplied S jsonContent then getProp jsonContent "public" else .null,
    if privateSupplied S jsonContent then .obj [(PRIVATE_ASSERTION_PREDICATE, privateAssertionId)]
    else .null])]

/-- The assertions computed by lines 71-90 of `create`: the arrays are recorded as
`formatAssertion` returned them. The calls of `calculateRoot` of lines 75 and 90
reorder them in place, so the later lines read `S.rootSorted` of them. -/
structure Assertions where
  privateAssertion : JSVal
  privateAssertionId : JSVal
  publicGraph : JSVal
  publicAssertion : JSVal
  publicAssertionId : String

/-- Lines 71-90 of `create`: the private assertion and its id when private content
is supplied, then the public graph, the public assertion and its id. -/
def computeAssertions (S : Services) (jsonContent : JSVal) : JSResult Assertions := do
  let (privateAssertion, privateAssertionId) ←
    (if privateSupplied S jsonContent then do
      let privateAssertion ← S.formatAssertion (getProp jsonContent "private")
      let privateAssertionId ← S.calculateRoot privateAssertion
      pure (privateAssertion, JSVal.str privateAssertionId)
    else pure (JSVal.undefined, JSVal.undefined) : JSResult (JSVal × JSVal))
  let graph := publicGraph S jsonContent privateAssertionId
  let publicAssertion ← S.formatAssertion graph
  let publicAssertionId ← S.calculateRoot publicAssertion
  pure ⟨privateAssertion, privateAssertionId, graph, publicAssertion, publicAssertionId⟩

/-- The fourth argument of `getBidSuggestion`:
`blockchain.name.startsWith('otp') ? 'otp' : blockchain.name`. -/
def chainTag (blockchain : JSVal) : JSResult JSVal := do
  let name ← getPropE blockchain "name"
  match name with
  | .str n => .ok (if jsStartsWith n "otp" then .str "otp" else name)
  | .undefined =>
    .error (.typeError "Cannot read properties of undefined (reading 'startsWith')")
  | .null => .error (.typeError "Cannot read properties of null (reading 'startsWith')")
  | _ => .error (.typeError "blockchain.name.startsWith is not a function")

/-- Lines 97-109 of `create`: `tokenAmount ?? (await getBidSuggestion(...))`. -/
def tokenAmountInWei (S : Services)
    (tokenAmount endpoint port authToken blockchain epochsNum contentAssetStorageAddress
      hashFunctionId : JSVal) (a : Assertions) : Run JSVal :=
  if isNullish tokenAmount then do
    let tag ← Run.lift (chainTag blockchain)
    Run.call S.env .getBidSuggestion
      [endpoint, port, authToken, tag, epochsNum,
        S.getAssertionSizeInBytes (S.rootSorted a.publicAssertion),
        contentAssetStorageAddress, .str a.publicAssertionId, hashFunctionId]
  else pure tokenAmount

/-- The argument `assertions` of `localStore` (lines 126-144): the public
assertion, and the private one when `privateAssertion?.length` is truthy. -/
def storedAssertions (S : Services) (name contract tokenId : JSVal) (a : Assertions) : JSVal :=
  .arr ([JSVal.obj [("blockchain", name), ("contract", contract), ("tokenId", tokenId),
      ("assertionId", .str a.publicAssertionId),
      ("assertion", S.rootSorted a.publicAssertion)]] ++
    (if truthy (getPropOpt (S.rootSorted a.privateAssertion) "length") then
      [JSVal.obj [("blockchain", name), ("contract", contract), ("tokenId", tokenId),
        ("assertionId", a.privateAssertionId),
        ("assertion", S.rootSorted a.privateAssertion)]]
    else []))

/-- Lines 171-205 of `create`: publish, poll, completion hook, result. The return
value of the hook is not used. -/
def publishSteps (S : Services)
    (endpoint port authToken maxNumberOfRetries frequency hashFunctionId name
      contentAssetStorageAddress tokenId UAL : JSVal) (a : Assertions) : Run JSVal := do
  let operationId ← Run.call S.env .publish
    [endpoint, port, authToken, .str a.publicAssertionId, S.rootSorted a.publicAssertion, name,
      contentAssetStorageAddress, tokenId, hashFunctionId]
  let operationResult ← Run.call S.env .getOperationResult
    [endpoint, port, authToken, .str OPERATIONS_PUBLISH, maxNumberOfRetries, frequency,
      operationId]
  let _ ← Run.call S.env .afterHook
    [.obj [("status", .str OPERATIONS_STEP_STATUS_CREATE_ASSET_COMPLETED),
      ("data", .obj [("operationId", operationId), ("operationResult", operationResult)])]]
  pure (.obj [("UAL", UAL), ("publicAssertionId", .str a.publicAssertionId),
    ("operation", S.getOperationStatusObject operationResult operationId)])

/-- The first argument of `createAsset` (lines 112-121). -/
def createAssetParams (S : Services) (epochsNum scoreFunctionId immutable amount : JSVal)
    (a : Assertions) : JSVal :=
  .obj [("publicAssertionId", .str a.publicAssertionId),
    ("assertionSize", S.getAssertionSizeInBytes (S.rootSorted a.publicAssertion)),
    ("triplesNumber", S.getAssertionTriplesNumber (S.rootSorted a.publicAssertion)),
    ("chunksNumber", S.getAssertionChunksNumber (S.rootSorted a.publicAssertion)),
    ("epochsNum", epochsNum),
    ("tokenAmount", amount),
    ("scoreFunctionId", if isNullish scoreFunctionId then .num (.int 1) else scoreFunctionId),
    ("immutable_", immutable)]

/-- Lines 111-205 of `create`: mint the asset, store the assertions on the node
and poll, then either return at once when the status is `FAILED` or publish.
The step hooks are the collaborator behind `afterHook`; the `stepHooks`
argument of `createAsset` is not part of the recorded argument list. -/
def mintStorePublish (S : Services)
    (blockchain endpoint port authToken maxNumberOfRetries frequency epochsNum hashFunctionId
      scoreFunctionId immutable contentAssetStorageAddress amount : JSVal) (a : Assertions) :
    Run JSVal := do
  let tokenId ← Run.call S.env .createAsset
    [createAssetParams S epochsNum scoreFunctionId immutable amount a, blockchain]
  let name ← Run.lift (getPropE blockchain "name")
  let operationId ← Run.call S.env .localStore
    [endpoint, port, authToken, storedAssertions S name contentAssetStorageAddress tokenId a]
  let operationResult ← Run.call S.env .getOperationResult
    [endpoint, port, authToken, .str OPERATIONS_LOCAL_STORE, maxNumberOfRetries,
      S.DEFAULT_GET_LOCAL_STORE_RESULT_FREQUENCY, operationId]
  let UAL ← Run.lift (S.deriveUAL name contentAssetStorageAddress tokenId)
  let status ← Run.lift (getPropE operationResult "status")
  if strictEqStr status OPERATION_STATUSES_FAILED then
    pure (.obj [("UAL", UAL), ("assertionId", .str a.publicAssertionId),
      ("operation", S.getOperationStatusObject operationResult operationId)])
  else
    publishSteps S endpoint port authToken maxNumberOfRetries frequency hashFunctionId name
      contentAssetStorageAddress tokenId UAL a

/-- Method `create(content, options, stepHooks)`. -/
def create (S : Services) (content options : JSVal) : Run JSVal := do
  Run.lift (S.validationService.validateObjectType [content])
  let jsonContent ← Run.lift (normalizeContent content)
  let o ← Run.lift (S.getAssetCreateArguments options >>= destructure)
  let blockchain := getProp o "blockchain"
  let endpoint := getProp o "endpoint"
  let port := getProp o "port"
  let maxNumberOfRetries := getProp o "maxNumberOfRetries"
  let frequency := getProp o "frequency"
  let epochsNum := getProp o "epochsNum"
  let hashFunctionId := getProp o "hashFunctionId"
  let scoreFunctionId := getProp o "scoreFunctionId"
  let immutable := getProp o "immutable"
  let tokenAmount := getProp o "tokenAmount"
  let authToken := getProp o "authToken"
  Run.lift (S.validationService.validateAssetCreate
    [jsonContent, blockchain, endpoint, port, maxNumberOfRetries, frequency, epochsNum,
      hashFunctionId, scoreFunctionId, immutable, tokenAmount, authToken])
  let a ← Run.lift (computeAssertions S jsonContent)
  let contentAssetStorageAddress ← Run.call S.env .getContractAddress
    [.str "ContentAssetStorage", blockchain]
  let amount ← tokenAmountInWei S tokenAmount endpoint port authToken blockchain epochsNum
    contentAssetStorageAddress hashFunctionId a
  mintStorePublish S blockchain endpoint port authToken maxNumberOfRetries frequency epochsNum
    hashFunctionId scoreFunctionId immutable contentAssetStorageAddress amount a

/-- Lines 276-302 of `get`, and lines 350-365 for the private assertion: the
conversion of the assertion inside `try`/`catch`, where `who` is the name of
the variable. The result is the new value of the variable `publicAssertion` and
the new value of `getPublicOperationResult`. -/
def convertAssertion (S : Services) (who : String)
    (outputFormat assertion operationResult : JSVal) : JSVal × JSVal :=
  let converted : JSResult JSVal :=
    if !(strictEqStr outputFormat GET_OUTPUT_FORMATS_N_QUADS) then
      jsJoin who assertion "\n" >>= S.fromRDF
    else
      (jsJoin who assertion "\n").map JSVal.str
  match converted with
  | .ok v => (v, operationResult)
  | .error e =>
    (assertion, spreadWith operationResult "data"
      (.obj [("errorType", .str "DKG_CLIENT_ERROR"), ("errorMessage", .str e.msg)]))

/-- The query of lines 313-322 for a private assertion id. -/
def privateQueryString (privateAssertionId : String) : String :=
  "\n                    CONSTRUCT \x7b ?s ?p ?o \x7d\n                    WHERE \x7b\n                        \x7b\n                            GRAPH <assertion:" ++ privateAssertionId ++ ">\n                            \x7b\n                                ?s ?p ?o .\n                            \x7d\n                        \x7d\n                    \x7d"

/-- The error thrown by the integrity checks of `get`. -/
def rootMismatch : JSError := .error "Calculated root hashes don't match!"

/-- The content object under construction in `get`: the properties of
`contentObj.operation`, and the properties of `contentObj` after `operation`. -/
structure ContentObj where
  operation : List (String × JSVal)
  sections : List (String × JSVal)

/-- The value of the content object. -/
def ContentObj.toJS (c : ContentObj) : JSVal :=
  .obj (("operation", .obj c.operation) :: c.sections)

/-- Lines 342-374 of `get`: from the result of the QUERY operation to the private
section of the content object. No collaborator is called. The array returned
by `toNQuads` is a new one; when `validate` is `true` the call of
`calculateRoot` reorders it before it is converted. -/
def privateSection (S : Services) (validate outputFormat : JSVal) (privateAssertionId : String)
    (queryPrivateOperationId queryPrivateOperationResult : JSVal) (c : ContentObj) :
    JSResult ContentObj := do
  let privateAssertionNQuads ← getPropE queryPrivateOperationResult "data"
  let privateAssertion ← S.toNQuads privateAssertionNQuads "application/n-quads"
  let privateAssertion ←
    (if isTrue validate then do
      let root ← S.calculateRoot privateAssertion
      if root != privateAssertionId then .error rootMismatch
      else pure (S.rootSorted privateAssertion)
    else pure privateAssertion : JSResult JSVal)
  let r := convertAssertion S "privateAssertion" outputFormat privateAssertion
    queryPrivateOperationResult
  pure ⟨c.operation ++
      [("queryPrivate", S.getOperationStatusObject r.2 queryPrivateOperationId)],
    c.sections ++ [("private", r.1), ("privateAssertionId", .str privateAssertionId)]⟩

/-- Lines 375-382 of `get`: no linking triple was found. -/
def noPrivateSection (UAL contentType : JSVal) (c : ContentObj) : ContentObj :=
  if strictEqStr contentType CONTENT_TYPES_PRIVATE then
    ⟨c.operation ++
        [("queryPrivate", .obj [("data", .obj [("errorType", .str "DKG_CLIENT_ERROR"),
          ("errorMessage", .str ("Node doesn't have private data of " ++ toStringJS UAL))])])],
      c.sections⟩
  else c

/-- Lines 304-383 of `get`: the scan for the linking triple and the private
section. `publicAssertion` is the value the variable holds at line 305. -/
def privateSteps (S : Services)
    (UAL endpoint port authToken maxNumberOfRetries frequency contentType validate outputFormat
      publicAssertion : JSVal) (c : ContentObj) : Run ContentObj := do
  let privateAssertionLinkTriple ←
    Run.lift (firstIncluding PRIVATE_ASSERTION_PREDICATE publicAssertion)
  if truthy privateAssertionLinkTriple then do
    let privateAssertionId ← Run.lift (matchQuoted privateAssertionLinkTriple)
    let queryPrivateOperationId ← Run.call S.env .query
      [endpoint, port, authToken, .str (privateQueryString privateAssertionId),
        .str QUERY_TYPES_CONSTRUCT]
    let queryPrivateOperationResult ← Run.call S.env .getOperationResult
      [endpoint, port, authToken, .str OPERATIONS_QUERY, maxNumberOfRetries, frequency,
        queryPrivateOperationId]
    Run.lift (privateSection S validate outputFormat privateAssertionId queryPrivateOperationId
      queryPrivateOperationResult c)
  else pure (noPrivateSection UAL contentType c)

/-- The values held after lines 243-274 of `get`. -/
structure Fetched where
  publicAssertionId : JSVal
  getPublicOperationId : JSVal
  getPublicOperationResult : JSVal
  publicAssertion : JSVal

/-- The values held once `calculateRoot(publicAssertion)` has returned: the array
is reordered, in the variable `publicAssertion` and in the operation result
that holds it. -/
def Fetched.rooted (S : Services) (f : Fetched) : Fetched :=
  ⟨f.publicAssertionId, f.getPublicOperationId, S.rootSortedResult f.getPublicOperationResult,
    S.rootSorted f.publicAssertion⟩

/-- Lines 243-258 of `get`: when the state is the latest one, read the on-chain
assertion id and submit the GET operation; otherwise both variables stay
`undefined`. -/
def submitGet (S : Services)
    (UAL blockchain endpoint port authToken state hashFunctionId tokenId : JSVal) :
    Run (JSVal × JSVal) :=
  if strictEqStr state ASSERTION_STATES_LATEST then do
    let publicAssertionId ← Run.call S.env .getLatestAssertionId [tokenId, blockchain]
    let getPublicOperationId ← Run.call S.env .get
      [endpoint, port, authToken, UAL, hashFunctionId]
    pure (publicAssertionId, getPublicOperationId)
  else pure (JSVal.undefined, JSVal.undefined)

/-- Lines 260-274 of `get`: poll the GET operation, take the assertion out of
the result, and check its root when `validate` is `true`; the check leaves the
array reordered. -/
def pollPublic (S : Services)
    (endpoint port authToken maxNumberOfRetries frequency validate publicAssertionId
      getPublicOperationId : JSVal) : Run Fetched := do
  let getPublicOperationResult ← Run.call S.env .getOperationResult
    [endpoint, port, authToken, .str OPERATIONS_GET, maxNumberOfRetries, frequency,
      getPublicOperationId]
  let data ← Run.lift (getPropE getPublicOperationResult "data")
  let publicAssertion ← Run.lift (getPropE data "assertion")
  let f : Fetched :=
    ⟨publicAssertionId, getPublicOperationId, getPublicOperationResult, publicAssertion⟩
  if isTrue validate then do
    let root ← Run.lift (S.calculateRoot publicAssertion)
    if !(strictEqStr publicAssertionId root) then Run.lift (.error rootMismatch)
    else pure (f.rooted S)
  else pure f

/-- Lines 243-274 of `get`. -/
def fetchPublic (S : Services)
    (UAL blockchain endpoint port authToken maxNumberOfRetries frequency state validate
      hashFunctionId tokenId : JSVal) : Run Fetched := do
  let ids ← submitGet S UAL blockchain endpoint port authToken state hashFunctionId tokenId
  pollPublic S endpoint port authToken maxNumberOfRetries frequency validate ids.1 ids.2

/-- Lines 276-302 of `get`: the public section. The first component is the value
of the variable `publicAssertion` after these lines: when the content type is
not PRIVATE, the variable is overwritten with the converted assertion. -/
def publicSection (S : Services) (contentType outputFormat : JSVal) (f : Fetched) :
    JSVal × ContentObj :=
  if !(strictEqStr contentType CONTENT_TYPES_PRIVATE) then
    let r := convertAssertion S "publicAssertion" outputFormat f.publicAssertion
      f.getPublicOperationResult
    (r.1, ⟨[("publicGet", S.getOperationStatusObject r.2 f.getPublicOperationId)],
      [("public", r.1), ("publicAssertionId", f.publicAssertionId)]⟩)
  else (f.publicAssertion, ⟨[], []⟩)

/-- Lines 276-385 of `get`: the public section, the private section, the result. -/
def assembleContent (S : Services)
    (UAL endpoint port authToken maxNumberOfRetries frequency contentType validate
      outputFormat : JSVal) (f : Fetched) : Run JSVal :=
  let p := publicSection S contentType outputFormat f
  if !(strictEqStr contentType CONTENT_TYPES_PUBLIC) then do
    let c ← privateSteps S UAL endpoint port authToken maxNumberOfRetries frequency contentType
      validate outputFormat p.1 p.2
    pure c.toJS
  else pure p.2.toJS

/-- Method `get(UAL, options)`. -/
def get (S : Services) (UAL options : JSVal) : Run JSVal := do
  let o ← Run.lift (S.getAssetGetArguments options >>= destructure)
  let blockchain := getProp o "blockchain"
  let endpoint := getProp o "endpoint"
  let port := getProp o "port"
  let maxNumberOfRetries := getProp o "maxNumberOfRetries"
  let frequency := getProp o "frequency"
  let state := getProp o "state"
  let contentType := getProp o "contentType"
  let validate := getProp o "validate"
  let outputFormat := getProp o "outputFormat"
  let authToken := getProp o "authToken"
  let hashFunctionId := getProp o "hashFunctionId"
  Run.lift (S.validationService.validateAssetGet
    [UAL, blockchain, endpoint, port, maxNumberOfRetries, frequency, state, contentType,
      hashFunctionId, validate, outputFormat, authToken])
  let resolved ← Run.lift (S.resolveUAL UAL >>= destructure)
  let tokenId := getProp resolved "tokenId"
  let f ← fetchPublic S UAL blockchain endpoint port authToken maxNumberOfRetries frequency state
    validate hashFunctionId tokenId
  assembleContent S UAL endpoint port authToken maxNumberOfRetries frequency contentType validate
    outputFormat f

/-- Method `transfer(UAL, newOwner, options)`. -/
def transfer (S : Services) (UAL newOwner options : JSVal) : Run JSVal := do
  let blockchain ← Run.lift (S.getBlockchain options)
  Run.lift (S.validationService.validateAssetTransfer [UAL, newOwner, blockchain])
  let resolved ← Run.lift (S.resolveUAL UAL >>= destructure)
  let tokenId := getProp resolved "tokenId"
  let _ ← Run.call S.env .transferAsset [tokenId, newOwner, blockchain]
  let owner ← Run.call S.env .getAssetOwner [tokenId, blockchain]
  pure (.obj [("UAL", UAL), ("owner", owner),
    ("operation", S.getOperationStatusObject (.obj [("status", .str "COMPLETED")]) .null)])

/-- Method `getOwner(UAL, options)`. -/
def getOwner (S : Services) (UAL options : JSVal) : Run JSVal := do
  let blockchain ← Run.lift (S.getBlockchain options)
  Run.lift (S.validationService.validateAssetGetOwner [UAL, blockchain])
  let resolved ← Run.lift (S.resolveUAL UAL >>= destructure)
  let tokenId := getProp resolved "tokenId"
  let owner ← Run.call S.env .getAssetOwner [tokenId, blockchain]
  pure (.obj [("UAL", UAL), ("owner", owner),
    ("operation", S.getOperationStatusObject
      (.obj [("data", .obj []), ("status", .str "COMPLETED")]) .null)])

end AssetOperationsManager

end DKG

namespace DKG

/-! ## Observations on a trace -/

/-- The status delivered by the poll of the LOCAL_STORE operation, when the event
is such a poll and its answer has a readable `status`. -/
def Event.localStoreStatus (e : Event) : Option JSVal :=
  if e.call.method = .getOperationResult ∧
      strictEqStr (arg e.call.args 3) OPERATIONS_LOCAL_STORE = true then
    match e.answer with
    | .ok r =>
      match getPropE r "status" with
      | .ok s => some s
      | .error _ => none
    | .error _ => none
  else none

/-- The event is a poll of a PUBLISH operation. -/
def Event.isPublishPoll (e : Event) : Bool :=
  decide (e.call.method = .getOperationResult) &&
    strictEqStr (arg e.call.args 3) OPERATIONS_PUBLISH

/-- The event is neither a publish call, nor a poll of a PUBLISH operation, nor an
answered poll of the LOCAL_STORE operation. -/
def Event.beforeStore (e : Event) : Prop :=
  e.call.method ≠ .publish ∧ e.isPublishPoll = false ∧ e.localStoreStatus = none

/-- The event is one of the calls `create` makes after `createAsset`: to `localStore`,
`getOperationResult`, `publish` or the completion hook. -/
def Event.afterMint (e : Event) : Prop :=
  e.call.method = .localStore ∨ e.call.method = .getOperationResult ∨
    e.call.method = .publish ∨ e.call.method = .afterHook

/-- The computation appends to the trace only events that satisfy `P`. -/
def Run.addsOnly {α : Type} (P : Event → Prop) (m : Run α) : Prop :=
  ∀ t, ∃ l, (m t).trace = t ++ l ∧ ∀ e ∈ l, P e

/-- The assertion delivered by the event, when it is a poll of the GET operation
answered with a result whose `data.assertion` can be read. -/
def Event.delivered (e : Event) : Option JSVal :=
  if e.call.method = .getOperationResult ∧
      strictEqStr (arg e.call.args 3) OPERATIONS_GET = true then
    match e.answer with
    | .ok r =>
      match getPropE r "data" >>= fun d => getPropE d "assertion" with
      | .ok pa => some pa
      | .error _ => none
    | .error _ => none
  else none

/-- The assertion delivered by the GET operation in a run, if any. -/
def deliveredAssertion (t : List Event) : Option JSVal := t.findSome? Event.delivered

/-- The assertion id answered by the event, when it is an answered read of the
latest on-chain assertion id. -/
def Event.chainId (e : Event) : Option JSVal :=
  if e.call.method = .getLatestAssertionId then
    match e.answer with
    | .ok v => some v
    | .error _ => none
  else none

/-- The on-chain assertion id read in a run; `undefined` when none was read, as
the variable `publicAssertionId` of `get`. -/
def onChainId (t : List Event) : JSVal := (t.findSome? Event.chainId).getD .undefined

/-- The outcome of the integrity check of lines 272-274 on fetched values. -/
def AssetOperationsManager.integrityResult (S : Services) (validate : JSVal) (f : Fetched) : JSResult Fetched :=
  if isTrue validate then
    match S.calculateRoot f.publicAssertion with
    | .ok root =>
      if strictEqStr f.publicAssertionId root then .ok (f.rooted S) else .error rootMismatch
    | .error e => .error e
  else .ok f

/-- The statement is a string that contains the linking predicate. -/
def isLinkStatement (x : JSVal) : Bool :=
  match x with
  | .str s => jsIncludes s PRIVATE_ASSERTION_PREDICATE
  | _ => false

/-- The event is a query call, or the poll of a QUERY operation. -/
def Event.isQueryStep (e : Event) : Prop :=
  e.call.method = .query ∨
    (e.call.method = .getOperationResult ∧
      strictEqStr (arg e.call.args 3) OPERATIONS_QUERY = true)

mutual
/-- The number of properties named `p` in a value, at any depth: in the public
graph built by `create`, the number of statements whose predicate is `p`. -/
def linkCount (p : String) : JSVal → Nat
  | .arr es => linkCountElems p es
  | .obj fs => linkCountFields p fs
  | _ => 0
/-- The number of properties named `p` in the elements of an array. -/
def linkCountElems (p : String) : List JSVal → Nat
  | [] => 0
  | e :: es => linkCount p e + linkCountElems p es
/-- The number of properties named `p` in the fields of an object. -/
def linkCountFields (p : String) : List (String × JSVal) → Nat
  | [] => 0
  | (k, v) :: fs => (if k = p then 1 else 0) + linkCount p v + linkCountFields p fs
end

/-- The object has an own property named `k`. -/
def hasKey (k : String) (fs : List (String × JSVal)) : Bool :=
  fs.any fun f => f.1 == k

/-! ## A sample world, used to evaluate the definitions on concrete runs -/

/-- A blockchain object with every field `validateBlockchain` reads. -/
def sampleBlockchain : JSVal :=
  .obj [("name", .str "otp"), ("hubContract", .str "0xhub"), ("rpc", .str "http://rpc"),
    ("publicKey", .str "0xpub"), ("privateKey", .str "0xpriv")]

/-- A blockchain object with `name`, `hubContract` and `rpc`, without keys. -/
def readOnlyBlockchain : JSVal :=
  .obj [("name", .str "otp"), ("hubContract", .str "0xhub"), ("rpc", .str "http://rpc")]

/-- A UAL of three segments whose argument part has three parts. -/
def sampleUAL : JSVal := .str "did:dkg:otp/0x1/1"

/-- A validation service that accepts every call. -/
def acceptAll : ValidationGate where
  validateObjectType := fun _ => .ok ()
  validateAssetCreate := fun _ => .ok ()
  validateAssetGet := fun _ => .ok ()
  validateAssetTransfer := fun _ => .ok ()
  validateAssetGetOwner := fun _ => .ok ()

/-- Collaborators that answer every call: `chainId` is the on-chain assertion id,
`getResult` the result of polling a GET operation, `otherResult` the result of
polling any other operation. -/
def sampleEnv (chainId getResult otherResult : JSVal) : Env := fun _ c =>
  match c.method with
  | .getContractAddress => .ok (.str "0xstorage")
  | .createAsset => .ok (.str "7")
  | .getLatestAssertionId => .ok chainId
  | .transferAsset => .ok .undefined
  | .getAssetOwner => .ok (.str "0xowner")
  | .getBidSuggestion => .ok (.str "100")
  | .localStore => .ok (.str "op-store")
  | .getOperationResult =>
    if strictEqStr (arg c.args 3) OPERATIONS_GET then .ok getResult else .ok otherResult
  | .publish => .ok (.str "op-publish")
  | .get => .ok (.str "op-get")
  | .query => .ok (.str "op-query")
  | .afterHook => .ok .undefined

/-- The statements a sample node is canonicalized into: one per property. -/
def sampleStatements : JSVal → List JSVal
  | .obj fs => fs.map fun f => JSVal.str ("_:b <" ++ f.1 ++ "> " ++ toStringJS f.2 ++ " .")
  | _ => []

/-- The order of two strings by the codes of their characters. -/
def codeLe : List Char → List Char → Bool
  | [], _ => true
  | _ :: _, [] => false
  | a :: as, b :: bs =>
    if a.toNat < b.toNat then true
    else if b.toNat < a.toNat then false
    else codeLe as bs

/-- The elements sorted by the codes of the characters of their texts. -/
def sampleRootOrder (l : List JSVal) : List JSVal :=
  l.insertionSort fun a b => codeLe (toStringJS a).toList (toStringJS b).toList = true

/-- The text of a chain name or contract in a UAL; a `TypeError` when it is not a
string. -/
def sampleLower (who : String) : JSVal → JSResult String
  | .str s => .ok s
  | .undefined =>
    .error (.typeError "Cannot read properties of undefined (reading 'toLowerCase')")
  | .null => .error (.typeError "Cannot read properties of null (reading 'toLowerCase')")
  | _ => .error (.typeError (who ++ ".toLowerCase is not a function"))

/-- Stand-ins for the imported functions: a graph is canonicalized to one
statement per property of each node of `@graph`, `calculateRoot` sorts the
statements and returns them joined by `|`, a UAL is made of the chain name and
the contract, which have to be strings, and the token id, options are returned
as given. -/
def sampleServices (gate : ValidationGate) (env : Env) : Services where
  formatAssertion := fun g =>
    match getProp g "@graph" with
    | .arr es => .ok (.arr (es.map sampleStatements).flatten)
    | _ => .ok (.arr (sampleStatements g))
  calculateRoot := fun a =>
    match a with
    | .arr es => .ok (joinElems "|" (sampleRootOrder es))
    | _ => .error (.typeError "assertion.sort is not a function")
  rootOrder := sampleRootOrder
  rootOrder_perm := fun l => List.perm_insertionSort _ l
  getAssertionSizeInBytes := fun a => getProp a "length"
  getAssertionTriplesNumber := fun a => getProp a "length"
  getAssertionChunksNumber := fun a => getProp a "length"
  fromRDF := fun s => .ok (.arr [.obj [("@id", .str s)]])
  toNQuads := fun v _ => .ok v
  isEmptyObject := fun v =>
    match v with
    | .obj [] => true
    | _ => false
  deriveUAL := fun b c t => do
    let chain ← sampleLower "blockchain" b
    let contract ← sampleLower "contract" c
    pure (.str ("did:dkg:" ++ chain ++ "/" ++ contract ++ "/" ++ toStringJS t))
  resolveUAL := fun _ =>
    .ok (.obj [("blockchain", .str "otp"), ("contract", .str "0x1"), ("tokenId", .str "1")])
  getOperationStatusObject := fun r id =>
    .obj [("operationId", id), ("status", getProp r "status"), ("data", getProp r "data")]
  getAssetCreateArguments := fun o => .ok o
  getAssetGetArguments := fun o => .ok o
  getBlockchain := fun o => .ok (getProp o "blockchain")
  DEFAULT_GET_LOCAL_STORE_RESULT_FREQUENCY := .str "0.5"
  validationService := gate
  env := env

/-- Options of a `create` call. -/
def sampleCreateOptions : JSVal :=
  .obj [("blockchain", sampleBlockchain), ("endpoint", .str "http://localhost"),
    ("port", .num (.int 8900)), ("maxNumberOfRetries", .num (.int 5)),
    ("frequency", .num (.int 5)), ("epochsNum", .num (.int 2)),
    ("hashFunctionId", .num (.int 1)), ("scoreFunctionId", .num (.int 1)),
    ("immutable", .bool false)]

/-- Options of a `create` call on a given blockchain object with a given
`tokenAmount`. -/
def sampleCreateOptionsFor (blockchain tokenAmount : JSVal) : JSVal :=
  .obj [("blockchain", blockchain), ("endpoint", .str "http://localhost"),
    ("port", .num (.int 8900)), ("maxNumberOfRetries", .num (.int 5)),
    ("frequency", .num (.int 5)), ("epochsNum", .num (.int 2)),
    ("hashFunctionId", .num (.int 1)), ("scoreFunctionId", .num (.int 1)),
    ("immutable", .bool false), ("tokenAmount", tokenAmount)]

/-- A blockchain object whose `name` is the number 5. -/
def numberNamedBlockchain : JSVal :=
  .obj [("name", .num (.int 5)), ("hubContract", .str "0xhub"), ("rpc", .str "http://rpc"),
    ("publicKey", .str "0xpub"), ("privateKey", .str "0xpriv")]

/-- Options of a `get` call, for a content type, a `validate` flag and an output
format. -/
def sampleGetOptions (contentType validate outputFormat : JSVal) : JSVal :=
  .obj [("blockchain", sampleBlockchain), ("endpoint", .str "http://localhost"),
    ("port", .num (.int 8900)), ("maxNumberOfRetries", .num (.int 5)),
    ("frequency", .num (.int 5)), ("state", .str ASSERTION_STATES_LATEST),
    ("contentType", contentType), ("validate", validate), ("outputFormat", outputFormat),
    ("hashFunctionId", .num (.int 1))]

/-- A content with a public and a private part. -/
def sampleContent : JSVal :=
  .obj [("public", .obj [("name", .str "x")]), ("private", .obj [("secret", .str "y")])]

/-- The assertions computed for `sampleContent` with the stand-ins: the arrays as
canonicalized, the id of the public assertion over its sorted statements. -/
def sampleAssertions : AssetOperationsManager.Assertions where
  privateAssertion := .arr [.str "_:b <secret> y ."]
  privateAssertionId := .str "_:b <secret> y ."
  publicGraph := .obj [("@graph", .arr [.obj [("name", .str "x")],
    .obj [(PRIVATE_ASSERTION_PREDICATE, .str "_:b <secret> y .")]])]
  publicAssertion := .arr [.str "_:b <name> x .",
    .str "_:b <https://ontology.origintrail.io/dkg/1.0#privateAssertionID> _:b <secret> y . ."]
  publicAssertionId := "_:b <https://ontology.origintrail.io/dkg/1.0#privateAssertionID> _:b <secret> y . .|_:b <name> x ."

/-- A statement that links the private assertion `0xpriv`. -/
def sampleLinkStatement : String :=
  "_:b <https://ontology.origintrail.io/dkg/1.0#privateAssertionID> \"0xpriv\" ."

/-- A statement that links the private assertion `id`. -/
def sampleLinkTo (id : String) : String :=
  "_:b <https://ontology.origintrail.io/dkg/1.0#privateAssertionID> \"" ++ id ++ "\" ."

/-- The result of a GET operation that delivers the given statements. -/
def sampleGetResult (stmts : List JSVal) : JSVal :=
  .obj [("status", .str "COMPLETED"), ("data", .obj [("assertion", .arr stmts)])]

/-- Stand-ins for the size limit of `validateContent`: 2621440 bytes, and the
length of a value taken as 16 bytes per property, element or primitive. -/
def sampleLimits : ValidationService.ContentLimits where
  MAX_FILE_SIZE := 2621440
  byteLength := fun v =>
    match v with
    | .obj fs => 16 * (fs.length + 1)
    | .arr es => 16 * (es.length + 1)
    | _ => 16
  limitInMB := "2.5"

/-- The result of a QUERY operation whose data are the given statements. -/
def sampleQueryResult (stmts : List JSVal) : JSVal :=
  .obj [("status", .str "COMPLETED"), ("data", .arr stmts)]

end DKG

namespace DKG

open ValidationService

/-! ## Properties of the validation service -/

theorem validateRequiredParam_ok_iff (n : String) (v : JSVal) :
    validateRequiredParam n v = .ok () ↔ isNullish v = false := by
  unfold validateRequiredParam
  cases h : isNullish v <;> simp

theorem validateParamType_number (n : String) (v : JSVal) :
    validateParamType n v "number" = .ok () := by
  simp [validateParamType, typeOf]

theorem numeric_validator_ok_iff (n : String) (v : JSVal) :
    (validateRequiredParam n v >>= fun _ => validateParamType n v "number") = .ok () ↔
      isNullish v = false := by
  unfold validateRequiredParam
  cases h : isNullish v <;> simp [validateParamType_number, bind, Except.bind]

/-- Every value other than `null` and `undefined` passes `validatePort`, whatever
`parseInt` reads in it. -/
theorem validatePort_ok_iff (v : JSVal) : validatePort v = .ok () ↔ isNullish v = false :=
  numeric_validator_ok_iff "port" v

theorem splitOnChar_length (sep : Char) (cs : List Char) :
    (splitOnChar sep cs).length = cs.count sep + 1 := by
  induction cs with
  | nil => simp [splitOnChar]
  | cons c cs ih =>
    unfold splitOnChar
    by_cases h : c = sep
    · subst h
      simp [ih]
    · have h' : ¬ (c == sep) = true := by simpa using h
      cases hs : splitOnChar sep cs with
      | nil => simp [hs] at ih
      | cons seg rest =>
        rw [hs] at ih
        simp only [List.length_cons] at ih
        simp [h, List.count_cons, h', ih]

/-- C8 (counterexample): a string of five colon-separated segments is accepted. -/
theorem validateUAL_accepts_five_segments :
    (jsSplit "did:dkg:otp/0x1/1:x:y" ':').length = 5 ∧
      validateUAL (.str "did:dkg:otp/0x1/1:x:y") = .ok () :=
  ⟨rfl, rfl⟩

/-- The values `validateUAL` accepts: the strings that split on ':' into at least
three segments and whose argument part, the third segment followed by the
fourth when there is one, splits on '/' into exactly three parts. -/
theorem validateUAL_ok_iff (ual : JSVal) :
    validateUAL ual = .ok () ↔
      ∃ s, ual = .str s ∧ ∃ s0 s1 s2 rest, jsSplit s ':' = s0 :: s1 :: s2 :: rest ∧
        (jsSplit (s2 ++ rest.headD "") '/').length = 3 := by
  cases ual with
  | str s =>
    simp only [validateUAL, validateRequiredParam, validateParamType, isNullish, typeOf, bind,
      Except.bind]
    simp only [JSVal.str.injEq, exists_eq_left']
    generalize jsSplit s ':' = segs
    rcases segs with _ | ⟨a, _ | ⟨b, _ | ⟨c, _ | ⟨d, rest⟩⟩⟩⟩
    · simp [segmentAt, addSegments]
    · simp [segmentAt, addSegments]
    · simp [segmentAt, addSegments]
    · simp only [segmentAt, segmentVal, List.length_cons, List.length_nil, List.get?_cons_succ,
        List.get?_cons_zero, if_true, Nat.reduceAdd]
      constructor
      · intro h
        exact ⟨a, b, c, [], rfl, by simpa using h⟩
      · rintro ⟨s0, s1, s2, r, h, hl⟩
        simp only [List.cons.injEq] at h
        obtain ⟨-, -, rfl, rfl⟩ := h
        simpa using hl
    · simp only [segmentAt, addSegments, List.length_cons, List.get?_cons_succ,
        List.get?_cons_zero]
      constructor
      · intro h
        exact ⟨a, b, c, d :: rest, rfl, by simpa using h⟩
      · rintro ⟨s0, s1, s2, r, h, hl⟩
        simp only [List.cons.injEq] at h
        obtain ⟨-, -, rfl, rfl⟩ := h
        simpa using hl
  | undefined => simp [validateUAL, validateRequiredParam, isNullish, bind, Except.bind]
  | null => simp [validateUAL, validateRequiredParam, isNullish, bind, Except.bind]
  | bool b =>
    simp [validateUAL, validateRequiredParam, validateParamType, typeOf, isNullish, bind,
      Except.bind]
  | num n =>
    simp [validateUAL, validateRequiredParam, validateParamType, typeOf, isNullish, bind,
      Except.bind]
  | arr es =>
    simp [validateUAL, validateRequiredParam, validateParamType, typeOf, isNullish, bind,
      Except.bind]
  | obj fs =>
    simp [validateUAL, validateRequiredParam, validateParamType, typeOf, isNullish, bind,
      Except.bind]

/-- C8 (amended): `validateUAL` succeeds exactly on the strings that split on ':'
into at least three segments and whose argument part, the third segment
followed by the fourth when there is one, splits on '/' into exactly three
parts; segments after the fourth are not looked at. Every other value is
rejected: `null` and `undefined` with "UAL is missing.", every other value that
is not a string with "UAL must be of type string.", a string of fewer than
three segments with a `TypeError` (its argument part is not a string), and a
string of at least three segments whose argument part does not split into
three parts with "Invalid UAL.". -/
theorem validateUAL_spec (ual : JSVal) :
    (validateUAL ual = .ok () ↔
      ∃ s, ual = .str s ∧ ∃ s0 s1 s2 rest, jsSplit s ':' = s0 :: s1 :: s2 :: rest ∧
        (jsSplit (s2 ++ rest.headD "") '/').length = 3) ∧
    (isNullish ual = true → validateUAL ual = .error (.error "UAL is missing.")) ∧
    (isNullish ual = false → (∀ s, ual ≠ .str s) →
      validateUAL ual = .error (.error "UAL must be of type string.")) ∧
    (∀ s, ual = .str s → (jsSplit s ':').length < 3 →
      validateUAL ual = .error (.typeError "argsString.split is not a function")) ∧
    (∀ s s0 s1 s2 rest, ual = .str s → jsSplit s ':' = s0 :: s1 :: s2 :: rest →
      (jsSplit (s2 ++ rest.headD "") '/').length ≠ 3 →
      validateUAL ual = .error (.error "Invalid UAL.")) := by
  refine ⟨validateUAL_ok_iff ual, ?_, ?_, ?_, ?_⟩
  · intro h
    simp [validateUAL, validateRequiredParam, h, bind, Except.bind]
  · intro h hs
    cases ual with
    | str s => exact absurd rfl (hs s)
    | undefined => simp [isNullish] at h
    | null => simp [isNullish] at h
    | bool b =>
      simp [validateUAL, validateRequiredParam, validateParamType, typeOf, isNullish, bind,
        Except.bind]
    | num n =>
      simp [validateUAL, validateRequiredParam, validateParamType, typeOf, isNullish, bind,
        Except.bind]
    | arr es =>
      simp [validateUAL, validateRequiredParam, validateParamType, typeOf, isNullish, bind,
        Except.bind]
    | obj fs =>
      simp [validateUAL, validateRequiredParam, validateParamType, typeOf, isNullish, bind,
        Except.bind]
  · rintro s rfl hlen
    simp only [validateUAL, validateRequiredParam, validateParamType, isNullish, typeOf, bind,
      Except.bind]
    generalize jsSplit s ':' = segs at hlen
    rcases segs with _ | ⟨a, _ | ⟨b, _ | ⟨c, rest⟩⟩⟩
    · simp [segmentAt, addSegments]
    · simp [segmentAt, addSegments]
    · simp [segmentAt, addSegments]
    · simp at hlen
      omega
  · rintro s s0 s1 s2 rest rfl hsplit hparts
    simp only [validateUAL, validateRequiredParam, validateParamType, isNullish, typeOf, bind,
      Except.bind]
    rw [hsplit]
    cases rest with
    | nil =>
      simp only [List.headD_nil, String.append_empty] at hparts
      simp [segmentAt, segmentVal, hparts]
    | cons d rest =>
      simp only [List.headD_cons] at hparts
      simp [segmentAt, addSegments, hparts]

/-- C8 (witness): "did:dkg" has two segments and is rejected with the
`TypeError`; "a:b:c" has three segments and an argument part of one part, and
is rejected with "Invalid UAL.". -/
theorem validateUAL_spec_witness :
    ((jsSplit "did:dkg" ':').length < 3 ∧
      validateUAL (.str "did:dkg") =
        .error (.typeError "argsString.split is not a function")) ∧
    (jsSplit "a:b:c" ':' = ["a", "b", "c"] ∧ (jsSplit ("c" ++ "") '/').length ≠ 3 ∧
      validateUAL (.str "a:b:c") = .error (.error "Invalid UAL.")) :=
  ⟨⟨by decide, (validateUAL_spec (.str "did:dkg")).2.2.2.1 "did:dkg" rfl (by decide)⟩,
    ⟨rfl, by decide,
      (validateUAL_spec (.str "a:b:c")).2.2.2.2 "a:b:c" "a" "b" "c" [] rfl rfl (by decide)⟩⟩

/-- C9: the string "abc" has no numeric reading (`parseInt` gives `NaN`), and each
of the six numeric validators accepts it: `typeof NaN` is `number`, so the type
check after `parseInt` never fails. -/
theorem numeric_validators_accept_abc :
    parseInt (.str "abc") = .nan ∧
      validatePort (.str "abc") = .ok () ∧
      validateMaxNumberOfRetries (.str "abc") = .ok () ∧
      validateFrequency (.str "abc") = .ok () ∧
      validateEpochsNum (.str "abc") = .ok () ∧
      validateHashFunctionId (.str "abc") = .ok () ∧
      validateScoreFunctionId (.str "abc") = .ok () :=
  ⟨rfl, rfl, rfl, rfl, rfl, rfl, rfl⟩

/-- With `operation` left `undefined`, `validateBlockchain` in a signing context
asks for the public key of a blockchain object that has name, hub contract and
rpc. -/
theorem validateBlockchain_without_operation (b : JSVal)
    (hn : isNullish (getProp b "name") = false)
    (hh : isNullish (getProp b "hubContract") = false)
    (hr : isNullish (getProp b "rpc") = false)
    (hk : isNullish (getProp b "publicKey") = true) (hb : isNullish b = false) :
    validateBlockchain true b .undefined = .error (.error "blockchain public key is missing.") := by
  simp [validateBlockchain, validateRequiredParam, hn, hh, hr, hk, hb, bind, Except.bind,
    strictEqStr]

/-- C10: in a signing context (`nodeSupported()` true) `validateAssetGet` rejects
an otherwise valid input whose blockchain object has name, hub contract and rpc
but no keys, exactly as `validateAssetCreate` and `validateAssetTransfer` do:
it calls `validateBlockchain` without the `operation` argument, and the
exemption in `validateBlockchain` applies only when `operation` is
`OPERATIONS.GET`. -/
theorem validateAssetGet_rejects_missing_keys :
    validateAssetGet true sampleUAL readOnlyBlockchain (.str "http://localhost")
        (.num (.int 8900)) (.num (.int 5)) (.num (.int 5)) (.num (.int 1)) (.bool true)
        (.str GET_OUTPUT_FORMATS_JSON_LD) .undefined
      = .error (.error "blockchain public key is missing.") ∧
    validateAssetGet true sampleUAL sampleBlockchain (.str "http://localhost")
        (.num (.int 8900)) (.num (.int 5)) (.num (.int 5)) (.num (.int 1)) (.bool true)
        (.str GET_OUTPUT_FORMATS_JSON_LD) .undefined
      = .ok () ∧
    validateBlockchain true readOnlyBlockchain (.str OPERATIONS_GET) = .ok () ∧
    validateAssetCreate true readOnlyBlockchain (.str "http://localhost")
        (.num (.int 8900)) (.num (.int 5)) (.num (.int 5)) (.num (.int 2)) (.num (.int 1))
        (.num (.int 1)) (.bool false) .undefined .undefined
      = .error (.error "blockchain public key is missing.") ∧
    validateAssetTransfer true sampleUAL (.str "0xowner") readOnlyBlockchain
      = .error (.error "blockchain public key is missing.") :=
  ⟨rfl, rfl, rfl, rfl, rfl⟩

/-- C7: wired to `ValidationService`, the calls of the manager do not check each
field against its own rule. For `get`, the twelve arguments of the call are
bound to the ten parameters of `validateAssetGet` by position, so `state` is
checked as `hashFunctionId`, `contentType` as `validate`, `hashFunctionId` as
`outputFormat` and `validate` as `authToken`: a call whose every field passes
its own validator is rejected, and a call whose `validate` is not a boolean is
accepted. For `create`, `validateObjectType` is not a method of the class, and
`validateAssetCreate` receives the content where it expects the blockchain. -/
theorem wired_validation_misplaces_fields :
    (validateUAL sampleUAL = .ok () ∧ validateBlockchain true sampleBlockchain .undefined = .ok () ∧
      validateEndpoint (.str "http://localhost") = .ok () ∧
      validatePort (.num (.int 8900)) = .ok () ∧
      validateMaxNumberOfRetries (.num (.int 5)) = .ok () ∧
      validateFrequency (.num (.int 5)) = .ok () ∧
      validateHashFunctionId (.num (.int 1)) = .ok () ∧
      validateValidate (.bool true) = .ok () ∧
      validateOutputFormat (.str GET_OUTPUT_FORMATS_JSON_LD) = .ok () ∧
      validateAuthToken .undefined = .ok ()) ∧
    (wiredValidationService true).validateAssetGet
        [sampleUAL, sampleBlockchain, .str "http://localhost", .num (.int 8900), .num (.int 5),
          .num (.int 5), .str ASSERTION_STATES_LATEST, .str CONTENT_TYPES_ALL, .num (.int 1), .bool true, .str GET_OUTPUT_FORMATS_JSON_LD,
          .undefined]
      = .error (.error "validate must be of type boolean.") ∧
    (validateValidate (.str "yes") = .error (.error "validate must be of type boolean.") ∧
      (wiredValidationService true).validateAssetGet
        [sampleUAL, sampleBlockchain, .str "http://localhost", .num (.int 8900), .num (.int 5),
          .num (.int 5), .str ASSERTION_STATES_LATEST, .bool true, .str GET_OUTPUT_FORMATS_JSON_LD, .str "yes", .str GET_OUTPUT_FORMATS_JSON_LD,
          .undefined]
      = .ok ()) ∧
    (wiredValidationService true).validateObjectType [.obj [("public", .obj [("name", .str "x")])]]
      = .error (.typeError "this.validationService.validateObjectType is not a function") ∧
    (wiredValidationService true).validateAssetCreate
        [.obj [("public", .obj [("name", .str "x")])], sampleBlockchain, .str "http://localhost",
          .num (.int 8900), .num (.int 5), .num (.int 5), .num (.int 2), .num (.int 1),
          .num (.int 1), .bool false, .undefined, .undefined]
      = .error (.error "blockchain name is missing.") :=
  ⟨⟨rfl, rfl, rfl, rfl, rfl, rfl, rfl, rfl, rfl, rfl⟩, rfl, ⟨rfl, rfl⟩, rfl, rfl⟩

end DKG

namespace DKG

open AssetOperationsManager

/-! ## The computation monad -/

theorem Run.bind_apply {α β : Type} (m : Run α) (f : α → Run β) (t : List Event) :
    (m >>= f) t =
      match m t with
      | ⟨t', .ok a⟩ => f a t'
      | ⟨t', .error e⟩ => ⟨t', .error e⟩ := rfl

@[simp] theorem Run.lift_ok_bind {α β : Type} (a : α) (f : α → Run β) (t : List Event) :
    (Run.lift (.ok a) >>= f) t = f a t := rfl

@[simp] theorem Run.lift_error_bind {α β : Type} (e : JSError) (f : α → Run β)
    (t : List Event) :
    (Run.lift (.error e : JSResult α) >>= f) t = ⟨t, .error e⟩ := rfl

@[simp] theorem Run.pure_apply {α : Type} (a : α) (t : List Event) :
    (pure a : Run α) t = ⟨t, .ok a⟩ := rfl

@[simp] theorem Run.lift_apply {α : Type} (r : JSResult α) (t : List Event) :
    Run.lift r t = ⟨t, r⟩ := rfl

theorem Run.call_bind {β : Type} (env : Env) (m : Method) (args : List JSVal)
    (f : JSVal → Run β) (t : List Event) :
    (Run.call env m args >>= f) t =
      match env t ⟨m, args⟩ with
      | .ok a => f a (t ++ [⟨⟨m, args⟩, .ok a⟩])
      | .error e => ⟨t ++ [⟨⟨m, args⟩, .error e⟩], .error e⟩ := by
  show Run.bind _ _ _ = _
  unfold Run.bind Run.call
  cases h : env t ⟨m, args⟩ <;> simp

theorem Run.call_apply (env : Env) (m : Method) (args : List JSVal) (t : List Event) :
    Run.call env m args t = ⟨t ++ [⟨⟨m, args⟩, env t ⟨m, args⟩⟩], env t ⟨m, args⟩⟩ := rfl

end DKG

namespace DKG
open AssetOperationsManager

/-! ## Properties of `create` -/

theorem Run.bind_eq_of_ok {α β : Type} {m : Run α} {f : α → Run β} {t t' : List Event} {a : α}
    (h : m t = ⟨t', .ok a⟩) : (m >>= f) t = f a t' := by
  rw [Run.bind_apply, h]

theorem Run.bind_eq_of_error {α β : Type} {m : Run α} {f : α → Run β} {t t' : List Event}
    {e : JSError} (h : m t = ⟨t', .error e⟩) : (m >>= f) t = ⟨t', .error e⟩ := by
  rw [Run.bind_apply, h]

theorem tokenAmountInWei_trace (S : Services)
    (tokenAmount endpoint port authToken blockchain epochsNum address hashFunctionId : JSVal)
    (a : Assertions) (t : List Event) :
    ∃ l, (tokenAmountInWei S tokenAmount endpoint port authToken blockchain epochsNum address
        hashFunctionId a t).trace = t ++ l ∧ ∀ e ∈ l, e.call.method = .getBidSuggestion := by
  unfold tokenAmountInWei
  split
  · cases h : chainTag blockchain with
    | error e => exact ⟨[], by simp [h]⟩
    | ok tag =>
      simp only [h, Run.lift_ok_bind, Run.call_apply]
      exact ⟨_, rfl, by simp⟩
  · refine ⟨[], ?_, by simp⟩
    rw [List.append_nil]
    rfl

theorem publishSteps_trace (S : Services)
    (endpoint port authToken maxNumberOfRetries frequency hashFunctionId name address tokenId
      UAL : JSVal) (a : Assertions) (t : List Event) :
    ∃ ans rest, (publishSteps S endpoint port authToken maxNumberOfRetries frequency
        hashFunctionId name address tokenId UAL a t).trace =
          t ++ ⟨⟨.publish, [endpoint, port, authToken, .str a.publicAssertionId,
            S.rootSorted a.publicAssertion, name, address, tokenId, hashFunctionId]⟩, ans⟩ ::
            rest ∧
      ∀ e ∈ rest, e.localStoreStatus = none := by
  unfold publishSteps
  rw [Run.call_bind]
  generalize S.env t _ = q1
  cases q1 with
  | error e => exact ⟨_, [], rfl, by simp⟩
  | ok operationId =>
    simp only []
    rw [Run.call_bind]
    generalize S.env _ _ = q2
    cases q2 with
    | error e =>
      refine ⟨_, [_], by simp only [List.append_assoc]; rfl, ?_⟩
      simp [Event.localStoreStatus, arg, strictEqStr, OPERATIONS_PUBLISH, OPERATIONS_LOCAL_STORE]
    | ok operationResult =>
      simp only []
      rw [Run.call_bind]
      generalize S.env _ _ = q3
      cases q3 with
      | error e =>
        refine ⟨_, [_, _], by simp only [List.append_assoc]; rfl, ?_⟩
        simp [Event.localStoreStatus, arg, strictEqStr, OPERATIONS_PUBLISH,
          OPERATIONS_LOCAL_STORE]
      | ok u =>
        refine ⟨_, [_, _], by simp only [Run.pure_apply, List.append_assoc]; rfl, ?_⟩
        simp [Event.localStoreStatus, arg, strictEqStr, OPERATIONS_PUBLISH,
          OPERATIONS_LOCAL_STORE]

theorem Event.beforeStore_of_method {e : Event} (h1 : e.call.method ≠ .publish)
    (h2 : e.call.method ≠ .getOperationResult) : e.beforeStore := by
  refine ⟨h1, ?_, ?_⟩
  · simp [Event.isPublishPoll, h2]
  · simp [Event.localStoreStatus, h2]

theorem Event.beforeStore_append {t : List Event} {x : Event} (ht : ∀ e ∈ t, e.beforeStore)
    (hx : x.beforeStore) : ∀ e ∈ t ++ [x], e.beforeStore := by
  intro e he
  simp only [List.mem_append, List.mem_singleton] at he
  rcases he with he | rfl
  · exact ht e he
  · exact hx

theorem mintStorePublish_shape (S : Services)
    (blockchain endpoint port authToken maxNumberOfRetries frequency epochsNum hashFunctionId
      scoreFunctionId immutable address amount : JSVal) (a : Assertions) (t : List Event)
    (ht : ∀ e ∈ t, e.beforeStore) :
    (∀ e ∈ (mintStorePublish S blockchain endpoint port authToken maxNumberOfRetries frequency
        epochsNum hashFunctionId scoreFunctionId immutable address amount a t).trace,
        e.beforeStore) ∨
    ∃ pre opId pargs r s name tokenId,
      (∀ e ∈ pre, e.beforeStore) ∧
      (∀ e ∈ t, e ∈ pre) ∧
      (∃ margs, (⟨⟨.createAsset, margs⟩, .ok tokenId⟩ : Event) ∈ pre) ∧
      (∃ largs, (⟨⟨.localStore, largs⟩, .ok opId⟩ : Event) ∈ pre) ∧
      getPropE blockchain "name" = .ok name ∧
      strictEqStr (arg pargs 3) OPERATIONS_LOCAL_STORE = true ∧
      getPropE r "status" = .ok s ∧
      ((∃ err, S.deriveUAL name address tokenId = .error err ∧
          mintStorePublish S blockchain endpoint port authToken maxNumberOfRetries frequency
              epochsNum hashFunctionId scoreFunctionId immutable address amount a t =
            ⟨pre ++ [⟨⟨.getOperationResult, pargs⟩, .ok r⟩], .error err⟩) ∨
       ∃ ual, S.deriveUAL name address tokenId = .ok ual ∧
        ((strictEqStr s OPERATION_STATUSES_FAILED = true ∧
          mintStorePublish S blockchain endpoint port authToken maxNumberOfRetries frequency
              epochsNum hashFunctionId scoreFunctionId immutable address amount a t =
            ⟨pre ++ [⟨⟨.getOperationResult, pargs⟩, .ok r⟩],
              .ok (.obj [("UAL", ual),
                ("assertionId", .str a.publicAssertionId),
                ("operation", S.getOperationStatusObject r opId)])⟩) ∨
         (strictEqStr s OPERATION_STATUSES_FAILED = false ∧
          ∃ ans rest,
            (mintStorePublish S blockchain endpoint port authToken maxNumberOfRetries frequency
              epochsNum hashFunctionId scoreFunctionId immutable address amount a t).trace =
              pre ++ ⟨⟨.getOperationResult, pargs⟩, .ok r⟩ ::
                ⟨⟨.publish, [endpoint, port, authToken, .str a.publicAssertionId,
                  S.rootSorted a.publicAssertion, name, address, tokenId, hashFunctionId]⟩,
                  ans⟩ :: rest ∧
            ∀ e ∈ rest, e.localStoreStatus = none))) := by
  generalize hout : mintStorePublish S blockchain endpoint port authToken maxNumberOfRetries
    frequency epochsNum hashFunctionId scoreFunctionId immutable address amount a t = out
  unfold mintStorePublish at hout
  rw [Run.call_bind] at hout
  generalize S.env _ _ = q1 at hout
  cases q1 with
  | error e =>
    subst hout
    left
    intro e he
    simp only [List.mem_append, List.mem_singleton] at he
    rcases he with he | rfl
    · exact ht e he
    · exact Event.beforeStore_of_method (by simp) (by simp)
  | ok tokenId =>
    simp only [] at hout
    generalize hx1 : (⟨⟨Method.createAsset, _⟩, _⟩ : Event) = x1 at hout
    have hb1 : x1.beforeStore := by
      subst hx1
      exact Event.beforeStore_of_method (by simp) (by simp)
    have ht1 := Event.beforeStore_append ht hb1
    have hm1 : ∃ margs, (⟨⟨.createAsset, margs⟩, .ok tokenId⟩ : Event) ∈ t ++ [x1] :=
      ⟨_, by rw [← hx1]; exact List.mem_append_right _ (List.mem_singleton.mpr rfl)⟩
    have hsub1 : ∀ e ∈ t, e ∈ t ++ [x1] := fun e he => List.mem_append_left _ he
    generalize t ++ [x1] = t1 at hout ht1 hm1 hsub1
    cases hn : getPropE blockchain "name" with
    | error e =>
      rw [hn] at hout
      simp only [Run.lift_error_bind] at hout
      subst hout
      exact Or.inl ht1
    | ok name =>
      rw [hn] at hout
      simp only [Run.lift_ok_bind] at hout
      rw [Run.call_bind] at hout
      generalize S.env _ _ = q2 at hout
      cases q2 with
      | error e =>
        subst hout
        exact Or.inl (Event.beforeStore_append ht1
          (Event.beforeStore_of_method (by simp) (by simp)))
      | ok opId =>
        simp only [] at hout
        generalize hx2 : (⟨⟨Method.localStore, _⟩, _⟩ : Event) = x2 at hout
        have hb2 : x2.beforeStore := by
          subst hx2
          exact Event.beforeStore_of_method (by simp) (by simp)
        have ht2 := Event.beforeStore_append ht1 hb2
        have hm2 : ∃ largs, (⟨⟨.localStore, largs⟩, .ok opId⟩ : Event) ∈ t1 ++ [x2] :=
          ⟨_, by rw [← hx2]; exact List.mem_append_right _ (List.mem_singleton.mpr rfl)⟩
        have hm1' : ∃ margs, (⟨⟨.createAsset, margs⟩, .ok tokenId⟩ : Event) ∈ t1 ++ [x2] :=
          hm1.imp fun _ h => List.mem_append_left _ h
        have hsub2 : ∀ e ∈ t, e ∈ t1 ++ [x2] := fun e he =>
          List.mem_append_left _ (hsub1 e he)
        generalize t1 ++ [x2] = t2 at hout ht2 hm2 hm1' hsub2
        rw [Run.call_bind] at hout
        generalize hargs : ([endpoint, port, authToken, JSVal.str OPERATIONS_LOCAL_STORE,
          maxNumberOfRetries, S.DEFAULT_GET_LOCAL_STORE_RESULT_FREQUENCY, opId] : List JSVal)
          = pargs at hout
        have hp : strictEqStr (arg pargs 3) OPERATIONS_LOCAL_STORE = true := by
          subst hargs
          simp [arg, strictEqStr]
        have hpp : ∀ ans, (⟨⟨.getOperationResult, pargs⟩, ans⟩ : Event).isPublishPoll = false := by
          intro ans
          subst hargs
          simp [Event.isPublishPoll, arg, strictEqStr, OPERATIONS_PUBLISH,
            OPERATIONS_LOCAL_STORE]
        generalize S.env _ _ = q3 at hout
        cases q3 with
        | error e =>
          subst hout
          exact Or.inl (Event.beforeStore_append ht2
            ⟨by simp, hpp _, by simp [Event.localStoreStatus]⟩)
        | ok r =>
          simp only [] at hout
          cases hs : getPropE r "status" with
          | error e =>
            have hall : ∀ e ∈ t2 ++ [(⟨⟨.getOperationResult, pargs⟩, .ok r⟩ : Event)],
                e.beforeStore :=
              Event.beforeStore_append ht2
                ⟨by simp, hpp _, by simp [Event.localStoreStatus, hs]⟩
            cases hu : S.deriveUAL name address tokenId with
            | error e2 =>
              rw [hu] at hout
              simp only [Run.lift_error_bind] at hout
              subst hout
              exact Or.inl hall
            | ok ual =>
              rw [hu, hs] at hout
              simp only [Run.lift_ok_bind, Run.lift_error_bind] at hout
              subst hout
              exact Or.inl hall
          | ok s =>
            refine Or.inr ⟨t2, opId, pargs, r, s, name, tokenId, ht2, hsub2, hm1', hm2, rfl, hp,
              hs, ?_⟩
            cases hu : S.deriveUAL name address tokenId with
            | error e2 =>
              rw [hu] at hout
              simp only [Run.lift_error_bind] at hout
              exact Or.inl ⟨e2, rfl, hout.symm⟩
            | ok ual =>
              rw [hu, hs] at hout
              simp only [Run.lift_ok_bind] at hout
              refine Or.inr ⟨ual, rfl, ?_⟩
              cases hf : strictEqStr s OPERATION_STATUSES_FAILED with
              | true =>
                rw [hf] at hout
                simp only [if_true, Run.pure_apply] at hout
                exact Or.inl ⟨rfl, hout.symm⟩
              | false =>
                rw [hf] at hout
                simp only [Bool.false_eq_true, if_false] at hout
                refine Or.inr ⟨rfl, ?_⟩
                obtain ⟨ans, rest, htr, hrest⟩ :=
                  publishSteps_trace S endpoint port authToken maxNumberOfRetries frequency
                    hashFunctionId name address tokenId ual a
                    (t2 ++ [⟨⟨.getOperationResult, pargs⟩, .ok r⟩])
                rw [hout] at htr
                exact ⟨ans, rest, by rw [htr, List.append_assoc]; rfl, hrest⟩

theorem create_shape (S : Services) (content options o : JSVal)
    (ho : (S.getAssetCreateArguments options >>= destructure) = .ok o) :
    (∀ e ∈ (create S content options []).trace, e.beforeStore) ∨
    ∃ jsonContent a pre opId pargs r s name address tokenId,
      normalizeContent content = .ok jsonContent ∧
      computeAssertions S jsonContent = .ok a ∧
      (∀ e ∈ pre, e.beforeStore) ∧
      (⟨⟨.getContractAddress, [.str "ContentAssetStorage", getProp o "blockchain"]⟩,
        .ok address⟩ : Event) ∈ pre ∧
      (∃ margs, (⟨⟨.createAsset, margs⟩, .ok tokenId⟩ : Event) ∈ pre) ∧
      (∃ largs, (⟨⟨.localStore, largs⟩, .ok opId⟩ : Event) ∈ pre) ∧
      getPropE (getProp o "blockchain") "name" = .ok name ∧
      strictEqStr (arg pargs 3) OPERATIONS_LOCAL_STORE = true ∧
      getPropE r "status" = .ok s ∧
      ((∃ err, S.deriveUAL name address tokenId = .error err ∧
          create S content options [] =
            ⟨pre ++ [⟨⟨.getOperationResult, pargs⟩, .ok r⟩], .error err⟩) ∨
       ∃ ual, S.deriveUAL name address tokenId = .ok ual ∧
        ((strictEqStr s OPERATION_STATUSES_FAILED = true ∧
          create S content options [] =
            ⟨pre ++ [⟨⟨.getOperationResult, pargs⟩, .ok r⟩],
              .ok (.obj [("UAL", ual),
                ("assertionId", .str a.publicAssertionId),
                ("operation", S.getOperationStatusObject r opId)])⟩) ∨
         (strictEqStr s OPERATION_STATUSES_FAILED = false ∧
          ∃ ans rest, (create S content options []).trace =
              pre ++ ⟨⟨.getOperationResult, pargs⟩, .ok r⟩ ::
                ⟨⟨.publish, [getProp o "endpoint", getProp o "port", getProp o "authToken",
                  .str a.publicAssertionId, S.rootSorted a.publicAssertion, name, address,
                  tokenId, getProp o "hashFunctionId"]⟩, ans⟩ :: rest ∧
            ∀ e ∈ rest, e.localStoreStatus = none))) := by
  generalize hout : create S content options [] = out
  unfold create at hout
  rw [ho] at hout
  cases h1 : S.validationService.validateObjectType [content] with
  | error e =>
    rw [h1] at hout
    simp only [Run.lift_error_bind] at hout
    subst hout
    left
    simp
  | ok u =>
    rw [h1] at hout
    simp only [Run.lift_ok_bind] at hout
    cases h2 : normalizeContent content with
    | error e =>
      rw [h2] at hout
      simp only [Run.lift_error_bind] at hout
      subst hout
      left
      simp
    | ok jsonContent =>
      rw [h2] at hout
      simp only [Run.lift_ok_bind] at hout
      generalize S.validationService.validateAssetCreate _ = v4 at hout
      cases v4 with
      | error e =>
        simp only [Run.lift_error_bind] at hout
        subst hout
        left
        simp
      | ok u4 =>
        simp only [Run.lift_ok_bind] at hout
        cases h5 : computeAssertions S jsonContent with
        | error e =>
          rw [h5] at hout
          simp only [Run.lift_error_bind] at hout
          subst hout
          left
          simp
        | ok a =>
          rw [h5] at hout
          simp only [Run.lift_ok_bind] at hout
          rw [Run.call_bind] at hout
          generalize S.env _ _ = q6 at hout
          cases q6 with
          | error e =>
            subst hout
            exact Or.inl (Event.beforeStore_append (by simp)
              (Event.beforeStore_of_method (by simp) (by simp)))
          | ok address =>
            simp only [] at hout
            have ht0 : ∀ e ∈ ([] : List Event) ++
                [⟨⟨.getContractAddress, [.str "ContentAssetStorage", getProp o "blockchain"]⟩,
                  .ok address⟩], e.beforeStore :=
              Event.beforeStore_append (by simp)
                (Event.beforeStore_of_method (by simp) (by simp))
            have hg0 : (⟨⟨.getContractAddress,
                [.str "ContentAssetStorage", getProp o "blockchain"]⟩, .ok address⟩ : Event) ∈
                ([] : List Event) ++ [⟨⟨.getContractAddress,
                  [.str "ContentAssetStorage", getProp o "blockchain"]⟩, .ok address⟩] := by
              simp
            generalize ([] : List Event) ++ [_] = t0 at hout ht0 hg0
            rw [Run.bind_apply] at hout
            obtain ⟨l, hl, hlm⟩ := tokenAmountInWei_trace S (getProp o "tokenAmount")
              (getProp o "endpoint") (getProp o "port") (getProp o "authToken")
              (getProp o "blockchain") (getProp o "epochsNum") address
              (getProp o "hashFunctionId") a t0
            generalize tokenAmountInWei S _ _ _ _ _ _ _ _ _ _ = m at hout hl
            obtain ⟨t1, res⟩ := m
            simp only at hl
            have ht1 : ∀ e ∈ t1, e.beforeStore := by
              subst hl
              intro e he
              rcases List.mem_append.mp he with he | he
              · exact ht0 e he
              · exact Event.beforeStore_of_method (by simp [hlm e he]) (by simp [hlm e he])
            have hg1 : (⟨⟨.getContractAddress,
                [.str "ContentAssetStorage", getProp o "blockchain"]⟩, .ok address⟩ : Event) ∈
                t1 := by
              subst hl
              exact List.mem_append_left _ hg0
            cases res with
            | error e =>
              simp only at hout
              subst hout
              exact Or.inl ht1
            | ok amount =>
              simp only at hout
              rcases mintStorePublish_shape S (getProp o "blockchain") (getProp o "endpoint")
                (getProp o "port") (getProp o "authToken") (getProp o "maxNumberOfRetries")
                (getProp o "frequency") (getProp o "epochsNum") (getProp o "hashFunctionId")
                (getProp o "scoreFunctionId") (getProp o "immutable") address amount a t1 ht1
                with h | ⟨pre, opId, pargs, r, s, name, tokenId, hpre, hsub, hm1, hm2, hname, hp,
                  hs, h⟩
              · rw [hout] at h
                exact Or.inl h
              · rw [hout] at h
                exact Or.inr ⟨jsonContent, a, pre, opId, pargs, r, s, name, address, tokenId,
                  rfl, h5, hpre, hsub _ hg1, hm1, hm2, hname, hp, hs, h⟩

end DKG

namespace DKG
open AssetOperationsManager

theorem computeAssertions_ok {S : Services} {jsonContent : JSVal} {a : Assertions}
    (h : computeAssertions S jsonContent = .ok a) :
    a.publicGraph = publicGraph S jsonContent a.privateAssertionId ∧
      S.formatAssertion a.publicGraph = .ok a.publicAssertion ∧
      S.calculateRoot a.publicAssertion = .ok a.publicAssertionId ∧
      (privateSupplied S jsonContent = true →
        ∃ id, S.formatAssertion (getProp jsonContent "private") = .ok a.privateAssertion ∧
          S.calculateRoot a.privateAssertion = .ok id ∧ a.privateAssertionId = .str id) ∧
      (privateSupplied S jsonContent = false →
        a.privateAssertion = .undefined ∧ a.privateAssertionId = .undefined) := by
  unfold computeAssertions at h
  cases hp : privateSupplied S jsonContent with
  | false =>
    simp only [hp, Bool.false_eq_true, if_false, bind, Except.bind, pure, Except.pure] at h
    cases h1 : S.formatAssertion (publicGraph S jsonContent .undefined) with
    | error e => simp [h1] at h
    | ok pa =>
      simp only [h1] at h
      cases h2 : S.calculateRoot pa with
      | error e => simp [h2] at h
      | ok id =>
        simp only [h2, Except.ok.injEq] at h
        subst h
        simp [h1, h2]
  | true =>
    simp only [hp, if_true, bind, Except.bind, pure, Except.pure] at h
    cases h3 : S.formatAssertion (getProp jsonContent "private") with
    | error e => simp [h3] at h
    | ok priv =>
      simp only [h3] at h
      cases h4 : S.calculateRoot priv with
      | error e => simp [h4] at h
      | ok pid =>
        simp only [h4] at h
        cases h1 : S.formatAssertion (publicGraph S jsonContent (.str pid)) with
        | error e => simp [h1] at h
        | ok pa =>
          simp only [h1] at h
          cases h2 : S.calculateRoot pa with
          | error e => simp [h2] at h
          | ok id =>
            simp only [h2, Except.ok.injEq] at h
            subst h
            simp [h1, h2, h4]

theorem Event.poll_localStoreStatus {pargs : List JSVal} {r s : JSVal}
    (hp : strictEqStr (arg pargs 3) OPERATIONS_LOCAL_STORE = true)
    (hs : getPropE r "status" = .ok s) :
    (⟨⟨.getOperationResult, pargs⟩, .ok r⟩ : Event).localStoreStatus = some s := by
  simp [Event.localStoreStatus, hp, hs]

theorem Event.poll_not_publishPoll {pargs : List JSVal} {ans : JSResult JSVal}
    (hp : strictEqStr (arg pargs 3) OPERATIONS_LOCAL_STORE = true) :
    (⟨⟨.getOperationResult, pargs⟩, ans⟩ : Event).isPublishPoll = false := by
  unfold strictEqStr at hp
  split at hp
  · next t ht =>
    have : t = OPERATIONS_LOCAL_STORE := by simpa using hp
    subst this
    simp [Event.isPublishPoll, ht, strictEqStr, OPERATIONS_PUBLISH, OPERATIONS_LOCAL_STORE]
  · simp at hp

/-- A run of `create` whose local-store poll answers `FAILED`: the calls stop at
that poll. -/
theorem create_failed_store_run :
    (create (sampleServices acceptAll (sampleEnv .undefined .undefined
        (.obj [("status", .str OPERATION_STATUSES_FAILED)])))
      sampleContent sampleCreateOptions []).trace.map (fun e => e.call.method) =
      [.getContractAddress, .getBidSuggestion, .createAsset, .localStore, .getOperationResult] :=
  rfl

/-- A run of `create` whose local-store poll answers `COMPLETED`: publish, its
poll and the completion hook follow. -/
theorem create_completed_store_run :
    (create (sampleServices acceptAll (sampleEnv .undefined .undefined
        (.obj [("status", .str "COMPLETED")])))
      sampleContent sampleCreateOptions []).trace.map (fun e => e.call.method) =
      [.getContractAddress, .getBidSuggestion, .createAsset, .localStore, .getOperationResult,
        .publish, .getOperationResult, .afterHook] :=
  rfl

end DKG

namespace DKG
open AssetOperationsManager

theorem lookupField_of_hasKey_false {k : String} {fs : List (String × JSVal)}
    (h : hasKey k fs = false) : lookupField k fs = .undefined := by
  induction fs with
  | nil => rfl
  | cons f fs ih =>
    obtain ⟨k', v⟩ := f
    simp only [hasKey, List.any_cons, Bool.or_eq_false_iff, beq_eq_false_iff_ne] at h
    unfold lookupField
    rw [if_neg h.1]
    exact ih (by simpa [hasKey] using h.2)

/-- C2 (counterexample): a content whose public part already carries the linking
predicate, with no private content: the public graph that `create`
canonicalizes has a statement with the linking predicate. -/
theorem publicGraph_link_without_private :
    privateSupplied (sampleServices acceptAll (sampleEnv .undefined .undefined .undefined))
        (.obj [("public", .obj [(PRIVATE_ASSERTION_PREDICATE, .str "fake")])]) = false ∧
      (computeAssertions (sampleServices acceptAll (sampleEnv .undefined .undefined .undefined))
        (.obj [("public", .obj [(PRIVATE_ASSERTION_PREDICATE, .str "fake")])])).map
          (fun a => linkCount PRIVATE_ASSERTION_PREDICATE a.publicGraph) = .ok 1 :=
  ⟨rfl, rfl⟩

/-- C2 (amended): `create` adds to the public graph exactly one linking node when
private content is supplied, whose only property is the linking predicate with
the value `calculateRoot(formatAssertion(private content))`, and none when no
private content is supplied. The statements with the linking predicate in the
public graph are that node and those the public content itself carries: exactly
one, respectively zero, when the public content does not use the predicate. -/
theorem computeAssertions_linking (S : Services) (jsonContent : JSVal) (a : Assertions)
    (h : computeAssertions S jsonContent = .ok a) :
    linkCount PRIVATE_ASSERTION_PREDICATE a.publicGraph =
        (if publicSupplied S jsonContent then
          linkCount PRIVATE_ASSERTION_PREDICATE (getProp jsonContent "public") else 0) +
        (if privateSupplied S jsonContent then 1 else 0) ∧
      (privateSupplied S jsonContent = true →
        (S.formatAssertion (getProp jsonContent "private") >>= S.calculateRoot).map JSVal.str
            = .ok a.privateAssertionId ∧
          a.publicGraph = .obj [("@graph", .arr [
            if publicSupplied S jsonContent then getProp jsonContent "public" else .null,
            .obj [(PRIVATE_ASSERTION_PREDICATE, a.privateAssertionId)]])]) ∧
      (privateSupplied S jsonContent = false →
        a.publicGraph = .obj [("@graph", .arr [
          if publicSupplied S jsonContent then getProp jsonContent "public" else .null,
          .null])]) ∧
      S.formatAssertion a.publicGraph = .ok a.publicAssertion := by
  obtain ⟨hg, hf, -, hyes, hno⟩ := computeAssertions_ok h
  cases hp : privateSupplied S jsonContent with
  | true =>
    obtain ⟨id, h1, h2, h3⟩ := hyes hp
    refine ⟨?_, fun _ => ⟨?_, ?_⟩, fun hc => (by cases hc), hf⟩
    · rw [hg, h3]
      unfold publicGraph
      rw [hp]
      cases publicSupplied S jsonContent <;>
        simp [linkCount, linkCountElems, linkCountFields,
          show ¬ "@graph" = PRIVATE_ASSERTION_PREDICATE by decide]
    · simp [h1, h2, h3, bind, Except.bind, Except.map]
    · rw [hg]
      unfold publicGraph
      rw [hp]
      simp
  | false =>
    refine ⟨?_, fun hc => (by cases hc), fun _ => ?_, hf⟩
    · rw [hg]
      unfold publicGraph
      rw [hp]
      cases publicSupplied S jsonContent <;>
        simp [linkCount, linkCountElems, linkCountFields,
          show ¬ "@graph" = PRIVATE_ASSERTION_PREDICATE by decide]
    · rw [hg]
      unfold publicGraph
      rw [hp]
      simp

/-- C3: for a content object without `public` and `private` keys, `create(c)` and
`create({public: c})` validate the same normalized content and are the same
computation: same assertions, same calls with the same arguments, same result.
The first step of `create` hands the content as given to `validateObjectType`
of the injected validation service; the two runs agree when that check gives
the same verdict on the two objects. -/
theorem create_legacy_shorthand (S : Services) (fs : List (String × JSVal)) (options : JSVal)
    (hpub : hasKey "public" fs = false) (hpriv : hasKey "private" fs = false)
    (hv : S.validationService.validateObjectType [.obj fs] =
      S.validationService.validateObjectType [.obj [("public", .obj fs)]]) :
    normalizeContent (.obj fs) = .ok (.obj [("public", .obj fs)]) ∧
      normalizeContent (.obj [("public", .obj fs)]) = .ok (.obj [("public", .obj fs)]) ∧
      create S (.obj fs) options = create S (.obj [("public", .obj fs)]) options := by
  have h1 : normalizeContent (.obj fs) = .ok (.obj [("public", .obj fs)]) := by
    simp [normalizeContent, getPropE, isNullish, getProp, lookupField_of_hasKey_false hpub,
      lookupField_of_hasKey_false hpriv, truthy, bind, Except.bind]
  have h2 : normalizeContent (.obj [("public", .obj fs)]) = .ok (.obj [("public", .obj fs)]) := by
    simp [normalizeContent, getPropE, isNullish, getProp, lookupField, truthy, bind, Except.bind]
  refine ⟨h1, h2, ?_⟩
  unfold create
  rw [hv, h1, h2]

end DKG

namespace DKG
open AssetOperationsManager

/-! ## Properties of `get` -/

theorem deliveredAssertion_append (t l : List Event) :
    deliveredAssertion (t ++ l) = (deliveredAssertion t).or (deliveredAssertion l) := by
  unfold deliveredAssertion
  induction t with
  | nil => simp
  | cons e t ih =>
    simp only [List.cons_append, List.findSome?_cons]
    cases Event.delivered e <;> simp [ih]

theorem onChainId_append_of_none (t l : List Event)
    (h : ∀ e ∈ l, e.chainId = none) : onChainId (t ++ l) = onChainId t := by
  unfold onChainId
  have hl : l.findSome? Event.chainId = none := by
    induction l with
    | nil => rfl
    | cons e l ih =>
      simp only [List.findSome?_cons, h e (List.mem_cons_self _ _)]
      exact ih fun e he => h e (List.mem_cons_of_mem _ he)
  induction t with
  | nil => simp [hl]
  | cons e t ih =>
    simp only [List.cons_append, List.findSome?_cons]
    cases Event.chainId e <;> simp [ih]

theorem submitGet_shape (S : Services)
    (UAL blockchain endpoint port authToken state hashFunctionId tokenId : JSVal) :
    ∃ pre res, submitGet S UAL blockchain endpoint port authToken state hashFunctionId tokenId []
        = ⟨pre, res⟩ ∧
      (∀ e ∈ pre, ¬ e.isQueryStep) ∧ deliveredAssertion pre = none ∧
      ∀ ids, res = .ok ids → onChainId pre = ids.1 := by
  unfold submitGet
  cases strictEqStr state ASSERTION_STATES_LATEST with
  | false =>
    refine ⟨[], .ok (.undefined, .undefined), rfl, by simp, rfl, ?_⟩
    intro ids h
    cases h
    rfl
  | true =>
    simp only [if_true]
    rw [Run.call_bind]
    generalize S.env _ _ = q1
    cases q1 with
    | error e =>
      refine ⟨_, _, rfl, ?_, ?_, ?_⟩
      · simp [Event.isQueryStep]
      · simp [deliveredAssertion, Event.delivered]
      · intro ids h
        cases h
    | ok id =>
      simp only []
      rw [Run.call_bind]
      generalize S.env _ _ = q2
      cases q2 with
      | error e =>
        refine ⟨_, _, rfl, ?_, ?_, ?_⟩
        · simp [Event.isQueryStep]
        · simp [deliveredAssertion, Event.delivered]
        · intro ids h
          cases h
      | ok opId =>
        refine ⟨_, _, rfl, ?_, ?_, ?_⟩
        · simp [Event.isQueryStep]
        · simp [deliveredAssertion, Event.delivered]
        · intro ids h
          cases h
          simp [onChainId, Event.chainId]

theorem pollPublic_shape (S : Services)
    (endpoint port authToken maxNumberOfRetries frequency validate publicAssertionId
      getPublicOperationId : JSVal) (t : List Event) :
    ∃ x res, pollPublic S endpoint port authToken maxNumberOfRetries frequency validate
        publicAssertionId getPublicOperationId t = ⟨t ++ [x], res⟩ ∧
      ¬ x.isQueryStep ∧ x.chainId = none ∧
      ((x.delivered = none ∧ ∃ err, res = .error err) ∨
        ∃ f : Fetched, x.delivered = some f.publicAssertion ∧
          f.publicAssertionId = publicAssertionId ∧
          res = integrityResult S validate f) := by
  unfold pollPublic
  rw [Run.call_bind]
  have hq : ∀ ans, ¬ (⟨⟨.getOperationResult, [endpoint, port, authToken, .str OPERATIONS_GET,
      maxNumberOfRetries, frequency, getPublicOperationId]⟩, ans⟩ : Event).isQueryStep := by
    intro ans
    simp [Event.isQueryStep, arg, strictEqStr, OPERATIONS_GET, OPERATIONS_QUERY]
  generalize S.env _ _ = q1
  cases q1 with
  | error e =>
    exact ⟨_, _, rfl, hq _, by simp [Event.chainId], Or.inl ⟨by simp [Event.delivered], e, rfl⟩⟩
  | ok r =>
    simp only []
    cases hd : getPropE r "data" with
    | error e =>
      simp only [Run.lift_error_bind]
      exact ⟨_, _, rfl, hq _, by simp [Event.chainId],
        Or.inl ⟨by simp [Event.delivered, hd, bind, Except.bind], e, rfl⟩⟩
    | ok d =>
      simp only [Run.lift_ok_bind]
      cases ha : getPropE d "assertion" with
      | error e =>
        simp only [Run.lift_error_bind]
        exact ⟨_, _, rfl, hq _, by simp [Event.chainId],
          Or.inl ⟨by simp [Event.delivered, hd, ha, bind, Except.bind], e, rfl⟩⟩
      | ok pa =>
        simp only [Run.lift_ok_bind]
        have hdel : (⟨⟨.getOperationResult, [endpoint, port, authToken, .str OPERATIONS_GET,
            maxNumberOfRetries, frequency, getPublicOperationId]⟩, .ok r⟩ : Event).delivered
            = some pa := by
          simp [Event.delivered, hd, ha, bind, Except.bind, arg, strictEqStr]
        cases hv : isTrue validate with
        | false =>
          simp only [Bool.false_eq_true, if_false]
          exact ⟨_, _, rfl, hq _, by simp [Event.chainId],
            Or.inr ⟨⟨publicAssertionId, getPublicOperationId, r, pa⟩, hdel, rfl,
              by simp [integrityResult, hv]⟩⟩
        | true =>
          simp only [if_true]
          cases hr : S.calculateRoot pa with
          | error e =>
            simp only [Run.lift_error_bind]
            exact ⟨_, _, rfl, hq _, by simp [Event.chainId],
              Or.inr ⟨⟨publicAssertionId, getPublicOperationId, r, pa⟩, hdel, rfl,
                by simp [integrityResult, hv, hr]⟩⟩
          | ok root =>
            simp only [Run.lift_ok_bind]
            cases hm : strictEqStr publicAssertionId root with
            | false =>
              exact ⟨_, _, rfl, hq _, by simp [Event.chainId],
                Or.inr ⟨⟨publicAssertionId, getPublicOperationId, r, pa⟩, hdel, rfl,
                  by simp [integrityResult, hv, hr, hm]⟩⟩
            | true =>
              exact ⟨_, _, rfl, hq _, by simp [Event.chainId],
                Or.inr ⟨⟨publicAssertionId, getPublicOperationId, r, pa⟩, hdel, rfl,
                  by simp [integrityResult, hv, hr, hm]⟩⟩

end DKG

namespace DKG
open AssetOperationsManager

theorem deliveredAssertion_singleton (x : Event) : deliveredAssertion [x] = x.delivered := by
  unfold deliveredAssertion
  simp only [List.findSome?_cons, List.findSome?_nil]
  cases Event.delivered x <;> rfl

theorem fetchPublic_shape (S : Services)
    (UAL blockchain endpoint port authToken maxNumberOfRetries frequency state validate
      hashFunctionId tokenId : JSVal) :
    ∃ pre res, fetchPublic S UAL blockchain endpoint port authToken maxNumberOfRetries frequency
        state validate hashFunctionId tokenId [] = ⟨pre, res⟩ ∧
      (∀ e ∈ pre, ¬ e.isQueryStep) ∧
      ((deliveredAssertion pre = none ∧ ∃ err, res = .error err) ∨
        ∃ f : Fetched, deliveredAssertion pre = some f.publicAssertion ∧
          onChainId pre = f.publicAssertionId ∧
          res = integrityResult S validate f) := by
  obtain ⟨pre0, res0, h0, hq0, hd0, hid⟩ :=
    submitGet_shape S UAL blockchain endpoint port authToken state hashFunctionId tokenId
  unfold fetchPublic
  rw [Run.bind_apply, h0]
  cases res0 with
  | error e => exact ⟨pre0, .error e, rfl, hq0, Or.inl ⟨hd0, e, rfl⟩⟩
  | ok ids =>
    obtain ⟨x, res, hp, hxq, hxc, hcase⟩ := pollPublic_shape S endpoint port authToken
      maxNumberOfRetries frequency validate ids.1 ids.2 pre0
    refine ⟨pre0 ++ [x], res, hp, ?_, ?_⟩
    · intro e he
      rcases List.mem_append.mp he with he | he
      · exact hq0 e he
      · rw [List.mem_singleton.mp he]
        exact hxq
    · have hdel : deliveredAssertion (pre0 ++ [x]) = x.delivered := by
        rw [deliveredAssertion_append, hd0, deliveredAssertion_singleton]
        rfl
      have hch : onChainId (pre0 ++ [x]) = ids.1 := by
        rw [onChainId_append_of_none]
        · exact hid ids rfl
        · intro e he
          rw [List.mem_singleton.mp he]
          exact hxc
      rcases hcase with ⟨hn, herr⟩ | ⟨f, hf, hfid, hres⟩
      · exact Or.inl ⟨by rw [hdel, hn], herr⟩
      · exact Or.inr ⟨f, by rw [hdel, hf], by rw [hch, hfid], hres⟩

theorem privateSteps_shape (S : Services)
    (UAL endpoint port authToken maxNumberOfRetries frequency contentType validate outputFormat
      publicAssertion : JSVal) (c : ContentObj) (t : List Event) :
    (∃ res, privateSteps S UAL endpoint port authToken maxNumberOfRetries frequency contentType
          validate outputFormat publicAssertion c t = ⟨t, res⟩ ∧
        ((∃ err, firstIncluding PRIVATE_ASSERTION_PREDICATE publicAssertion = .error err ∧
            res = .error err) ∨
          (∃ link, firstIncluding PRIVATE_ASSERTION_PREDICATE publicAssertion = .ok link ∧
            truthy link = false ∧ res = .ok (noPrivateSection UAL contentType c)) ∨
          (∃ link err, firstIncluding PRIVATE_ASSERTION_PREDICATE publicAssertion = .ok link ∧
            truthy link = true ∧ matchQuoted link = .error err ∧ res = .error err))) ∨
    ∃ link id, firstIncluding PRIVATE_ASSERTION_PREDICATE publicAssertion = .ok link ∧
      truthy link = true ∧ matchQuoted link = .ok id ∧
      ((∃ err, privateSteps S UAL endpoint port authToken maxNumberOfRetries frequency
            contentType validate outputFormat publicAssertion c t =
          ⟨t ++ [⟨⟨.query, [endpoint, port, authToken, .str (privateQueryString id),
            .str QUERY_TYPES_CONSTRUCT]⟩, .error err⟩], .error err⟩) ∨
        ∃ qid pans, privateSteps S UAL endpoint port authToken maxNumberOfRetries frequency
            contentType validate outputFormat publicAssertion c t =
          ⟨t ++ [⟨⟨.query, [endpoint, port, authToken, .str (privateQueryString id),
              .str QUERY_TYPES_CONSTRUCT]⟩, .ok qid⟩,
            ⟨⟨.getOperationResult, [endpoint, port, authToken, .str OPERATIONS_QUERY,
              maxNumberOfRetries, frequency, qid]⟩, pans⟩],
            match pans with
            | .ok qr => privateSection S validate outputFormat id qid qr c
            | .error err => .error err⟩) := by
  unfold privateSteps
  cases hl : firstIncluding PRIVATE_ASSERTION_PREDICATE publicAssertion with
  | error err =>
    simp only [Run.lift_error_bind]
    exact Or.inl ⟨_, rfl, Or.inl ⟨err, rfl, rfl⟩⟩
  | ok link =>
    simp only [Run.lift_ok_bind]
    cases ht : truthy link with
    | false =>
      simp only [Bool.false_eq_true, if_false, Run.pure_apply]
      exact Or.inl ⟨_, rfl, Or.inr (Or.inl ⟨link, rfl, ht, rfl⟩)⟩
    | true =>
      simp only [if_true]
      cases hm : matchQuoted link with
      | error err =>
        simp only [Run.lift_error_bind]
        exact Or.inl ⟨_, rfl, Or.inr (Or.inr ⟨link, err, rfl, ht, hm, rfl⟩)⟩
      | ok id =>
        simp only [Run.lift_ok_bind]
        refine Or.inr ⟨link, id, rfl, ht, hm, ?_⟩
        rw [Run.call_bind]
        generalize S.env _ _ = q1
        cases q1 with
        | error err => exact Or.inl ⟨err, rfl⟩
        | ok qid =>
          simp only []
          rw [Run.call_bind]
          generalize S.env _ _ = q2
          refine Or.inr ⟨qid, q2, ?_⟩
          cases q2 with
          | error err => simp only [List.append_assoc]; rfl
          | ok qr => simp only [Run.lift_apply, List.append_assoc]; rfl

end DKG

namespace DKG
open AssetOperationsManager

theorem assembleContent_eq (S : Services)
    (UAL endpoint port authToken maxNumberOfRetries frequency contentType validate
      outputFormat : JSVal) (f : Fetched) (t : List Event) :
    assembleContent S UAL endpoint port authToken maxNumberOfRetries frequency contentType
        validate outputFormat f t =
      if strictEqStr contentType CONTENT_TYPES_PUBLIC then
        ⟨t, .ok (publicSection S contentType outputFormat f).2.toJS⟩
      else
        ⟨(privateSteps S UAL endpoint port authToken maxNumberOfRetries frequency contentType
            validate outputFormat (publicSection S contentType outputFormat f).1
            (publicSection S contentType outputFormat f).2 t).trace,
          (privateSteps S UAL endpoint port authToken maxNumberOfRetries frequency contentType
            validate outputFormat (publicSection S contentType outputFormat f).1
            (publicSection S contentType outputFormat f).2 t).result.map ContentObj.toJS⟩ := by
  unfold assembleContent
  cases strictEqStr contentType CONTENT_TYPES_PUBLIC with
  | true => rfl
  | false =>
    simp only [Bool.not_false, if_true, Bool.false_eq_true, if_false]
    rw [Run.bind_apply]
    generalize privateSteps S UAL endpoint port authToken maxNumberOfRetries frequency contentType
      validate outputFormat _ _ t = m
    obtain ⟨tr, res⟩ := m
    cases res <;> rfl

theorem privateSteps_trace (S : Services)
    (UAL endpoint port authToken maxNumberOfRetries frequency contentType validate outputFormat
      publicAssertion : JSVal) (c : ContentObj) (t : List Event) :
    ∃ l, (privateSteps S UAL endpoint port authToken maxNumberOfRetries frequency contentType
        validate outputFormat publicAssertion c t).trace = t ++ l ∧ ∀ e ∈ l, e.isQueryStep := by
  rcases privateSteps_shape S UAL endpoint port authToken maxNumberOfRetries frequency
      contentType validate outputFormat publicAssertion c t with
    ⟨res, h, -⟩ | ⟨link, id, -, -, -, ⟨err, h⟩ | ⟨qid, pans, h⟩⟩
  · exact ⟨[], by rw [h, List.append_nil], by simp⟩
  · refine ⟨_, by rw [h], ?_⟩
    simp [Event.isQueryStep]
  · refine ⟨_, by rw [h], ?_⟩
    simp [Event.isQueryStep, arg, strictEqStr]

theorem assembleContent_trace (S : Services)
    (UAL endpoint port authToken maxNumberOfRetries frequency contentType validate
      outputFormat : JSVal) (f : Fetched) (t : List Event) :
    ∃ l, (assembleContent S UAL endpoint port authToken maxNumberOfRetries frequency contentType
        validate outputFormat f t).trace = t ++ l ∧ ∀ e ∈ l, e.isQueryStep := by
  rw [assembleContent_eq]
  split
  · exact ⟨[], by simp, by simp⟩
  · exact privateSteps_trace S UAL endpoint port authToken maxNumberOfRetries frequency
      contentType validate outputFormat _ _ t

theorem get_shape (S : Services) (UAL options : JSVal) :
    ((get S UAL options []).trace = [] ∧ ∃ err, (get S UAL options []).result = .error err) ∨
    ∃ o resolved pre fres,
      (S.getAssetGetArguments options >>= destructure) = .ok o ∧
      fetchPublic S UAL (getProp o "blockchain") (getProp o "endpoint") (getProp o "port")
        (getProp o "authToken") (getProp o "maxNumberOfRetries") (getProp o "frequency")
        (getProp o "state") (getProp o "validate") (getProp o "hashFunctionId")
        (getProp resolved "tokenId") [] = ⟨pre, fres⟩ ∧
      get S UAL options [] =
        match fres with
        | .error e => ⟨pre, .error e⟩
        | .ok f => assembleContent S UAL (getProp o "endpoint") (getProp o "port")
            (getProp o "authToken") (getProp o "maxNumberOfRetries") (getProp o "frequency")
            (getProp o "contentType") (getProp o "validate") (getProp o "outputFormat") f pre := by
  generalize hout : AssetOperationsManager.get S UAL options [] = out
  unfold AssetOperationsManager.get at hout
  cases ho : (S.getAssetGetArguments options >>= destructure) with
  | error e =>
    rw [ho] at hout
    simp only [Run.lift_error_bind] at hout
    subst hout
    exact Or.inl ⟨rfl, e, rfl⟩
  | ok o =>
    rw [ho] at hout
    simp only [Run.lift_ok_bind] at hout
    generalize S.validationService.validateAssetGet _ = v at hout
    cases v with
    | error e =>
      simp only [Run.lift_error_bind] at hout
      subst hout
      exact Or.inl ⟨rfl, e, rfl⟩
    | ok u =>
      simp only [Run.lift_ok_bind] at hout
      cases hr : (S.resolveUAL UAL >>= destructure) with
      | error e =>
        rw [hr] at hout
        simp only [Run.lift_error_bind] at hout
        subst hout
        exact Or.inl ⟨rfl, e, rfl⟩
      | ok resolved =>
        rw [hr] at hout
        simp only [Run.lift_ok_bind] at hout
        rw [Run.bind_apply] at hout
        rcases hm : fetchPublic S UAL (getProp o "blockchain") (getProp o "endpoint")
          (getProp o "port") (getProp o "authToken") (getProp o "maxNumberOfRetries")
          (getProp o "frequency") (getProp o "state") (getProp o "validate")
          (getProp o "hashFunctionId") (getProp resolved "tokenId") [] with ⟨pre, fres⟩
        rw [hm] at hout
        refine Or.inr ⟨o, resolved, pre, fres, rfl, hm, ?_⟩
        subst hout
        cases fres <;> rfl

theorem Event.delivered_of_isQueryStep {e : Event} (h : e.isQueryStep) : e.delivered = none := by
  rcases h with h | ⟨h1, h2⟩
  · simp [Event.delivered, h]
  · unfold strictEqStr at h2
    split at h2
    · next t ht =>
      have : t = OPERATIONS_QUERY := by simpa using h2
      subst this
      simp [Event.delivered, ht, strictEqStr, OPERATIONS_GET, OPERATIONS_QUERY]
    · simp at h2

theorem Event.chainId_of_isQueryStep {e : Event} (h : e.isQueryStep) : e.chainId = none := by
  rcases h with h | ⟨h1, h2⟩
  · simp [Event.chainId, h]
  · simp [Event.chainId, h1]

theorem deliveredAssertion_append_queries (t l : List Event) (h : ∀ e ∈ l, e.isQueryStep) :
    deliveredAssertion (t ++ l) = deliveredAssertion t := by
  rw [deliveredAssertion_append]
  have hl : deliveredAssertion l = none := by
    unfold deliveredAssertion
    induction l with
    | nil => rfl
    | cons e l ih =>
      simp only [List.findSome?_cons,
        Event.delivered_of_isQueryStep (h e (List.mem_cons_self _ _))]
      exact ih fun e he => h e (List.mem_cons_of_mem _ he)
  rw [hl]
  cases deliveredAssertion t <;> rfl

end DKG

namespace DKG
open AssetOperationsManager

theorem strictEqStr_eq_true {v : JSVal} {s : String} (h : strictEqStr v s = true) :
    v = .str s := by
  unfold strictEqStr at h
  split at h
  · next t =>
    have : t = s := by simpa using h
    rw [this]
  · simp at h

theorem get_cases (S : Services) (UAL options : JSVal) :
    (deliveredAssertion (get S UAL options []).trace = none ∧
      (∃ err, (get S UAL options []).result = .error err) ∧
      ∀ e ∈ (get S UAL options []).trace, ¬ e.isQueryStep) ∨
    ∃ o f pre,
      (S.getAssetGetArguments options >>= destructure) = .ok o ∧
      deliveredAssertion (get S UAL options []).trace = some f.publicAssertion ∧
      onChainId (get S UAL options []).trace = f.publicAssertionId ∧
      (∀ e ∈ pre, ¬ e.isQueryStep) ∧
      get S UAL options [] =
        match integrityResult S (getProp o "validate") f with
        | .error e => ⟨pre, .error e⟩
        | .ok f => assembleContent S UAL (getProp o "endpoint") (getProp o "port")
            (getProp o "authToken") (getProp o "maxNumberOfRetries") (getProp o "frequency")
            (getProp o "contentType") (getProp o "validate") (getProp o "outputFormat") f pre := by
  rcases get_shape S UAL options with ⟨ht, err, he⟩ | ⟨o, resolved, pre, fres, ho, hf, hg⟩
  · left
    rw [ht]
    exact ⟨rfl, ⟨err, he⟩, by simp⟩
  · obtain ⟨pre', res', hf', hq, hcase⟩ := fetchPublic_shape S UAL (getProp o "blockchain")
      (getProp o "endpoint") (getProp o "port") (getProp o "authToken")
      (getProp o "maxNumberOfRetries") (getProp o "frequency") (getProp o "state")
      (getProp o "validate") (getProp o "hashFunctionId") (getProp resolved "tokenId")
    rw [hf] at hf'
    obtain ⟨rfl, rfl⟩ : pre = pre' ∧ fres = res' := by
      cases hf'
      exact ⟨rfl, rfl⟩
    rcases hcase with ⟨hn, err, rfl⟩ | ⟨f, hd, hc, hres⟩
    · left
      simp only at hg
      rw [hg]
      exact ⟨hn, ⟨err, rfl⟩, hq⟩
    · right
      have hres' : fres = integrityResult S (getProp o "validate") f := hres
      refine ⟨o, f, pre, ho, ?_, ?_, hq, by rw [hg, hres']⟩
      · rw [hg]
        cases fres with
        | error e => exact hd
        | ok f' =>
          simp only
          obtain ⟨l, hl, hlq⟩ := assembleContent_trace S UAL (getProp o "endpoint")
            (getProp o "port") (getProp o "authToken") (getProp o "maxNumberOfRetries")
            (getProp o "frequency") (getProp o "contentType") (getProp o "validate")
            (getProp o "outputFormat") f' pre
          rw [hl, deliveredAssertion_append_queries _ _ hlq]
          exact hd
      · rw [hg]
        cases fres with
        | error e => exact hc
        | ok f' =>
          simp only
          obtain ⟨l, hl, hlq⟩ := assembleContent_trace S UAL (getProp o "endpoint")
            (getProp o "port") (getProp o "authToken") (getProp o "maxNumberOfRetries")
            (getProp o "frequency") (getProp o "contentType") (getProp o "validate")
            (getProp o "outputFormat") f' pre
          rw [hl, onChainId_append_of_none _ _
            (fun e he => Event.chainId_of_isQueryStep (hlq e he))]
          exact hc

/-- C4: in every run of `get` with `validate` equal to `true`: when the GET
operation delivered an assertion whose recomputed root differs from the
on-chain assertion id read in the run, `get` throws "Calculated root hashes
don't match!" and so returns no content object; and whenever `get` returns,
the GET operation delivered an assertion whose recomputed root is the on-chain
assertion id read in the run. -/
theorem get_validate_integrity (S : Services) (UAL options o : JSVal)
    (ho : (S.getAssetGetArguments options >>= destructure) = .ok o)
    (hv : isTrue (getProp o "validate") = true) :
    (∀ pa root, deliveredAssertion (get S UAL options []).trace = some pa →
      S.calculateRoot pa = .ok root →
      strictEqStr (onChainId (get S UAL options []).trace) root = false →
      (get S UAL options []).result = .error (.error "Calculated root hashes don't match!")) ∧
    ∀ v, (get S UAL options []).result = .ok v →
      ∃ pa root, deliveredAssertion (get S UAL options []).trace = some pa ∧
        S.calculateRoot pa = .ok root ∧
        onChainId (get S UAL options []).trace = .str root := by
  rcases get_cases S UAL options with ⟨hn, ⟨err, he⟩, -⟩ | ⟨o', f, pre, ho', hd, hc, -, hg⟩
  · refine ⟨?_, ?_⟩
    · intro pa root hpa
      rw [hn] at hpa
      cases hpa
    · intro v hv'
      rw [he] at hv'
      cases hv'
  · rw [ho] at ho'
    cases ho'
    refine ⟨?_, ?_⟩
    · intro pa root hpa hroot hne
      rw [hd] at hpa
      cases hpa
      rw [hc] at hne
      rw [hg]
      simp [integrityResult, hv, hroot, hne, rootMismatch]
    · intro v hres
      rw [hg] at hres
      unfold integrityResult at hres
      rw [hv] at hres
      simp only [if_true] at hres
      cases hroot : S.calculateRoot f.publicAssertion with
      | error e =>
        rw [hroot] at hres
        cases hres
      | ok root =>
        rw [hroot] at hres
        simp only at hres
        cases hm : strictEqStr f.publicAssertionId root with
        | false =>
          rw [hm] at hres
          simp at hres
        | true =>
          exact ⟨f.publicAssertion, root, hd, hroot, by rw [hc]; exact strictEqStr_eq_true hm⟩

end DKG

namespace DKG
open AssetOperationsManager

theorem filterIncludes_strings (stmts : List JSVal) (h : ∀ x ∈ stmts, ∃ s, x = .str s) :
    filterIncludes PRIVATE_ASSERTION_PREDICATE stmts = .ok (stmts.filter isLinkStatement) := by
  induction stmts with
  | nil => rfl
  | cons x xs ih =>
    obtain ⟨s, rfl⟩ := h x (List.mem_cons_self _ _)
    have ih' := ih fun y hy => h y (List.mem_cons_of_mem _ hy)
    unfold filterIncludes
    simp only [elementIncludes, ih', List.filter_cons, isLinkStatement]

theorem firstIncluding_strings (stmts : List JSVal) (h : ∀ x ∈ stmts, ∃ s, x = .str s) :
    firstIncluding PRIVATE_ASSERTION_PREDICATE (.arr stmts) =
      .ok ((stmts.find? isLinkStatement).getD .undefined) := by
  unfold firstIncluding
  simp only [filterIncludes_strings stmts h]
  congr 1
  induction stmts with
  | nil => rfl
  | cons x xs ih =>
    simp only [List.filter_cons, List.find?_cons]
    cases isLinkStatement x with
    | true => rfl
    | false => exact ih fun y hy => h y (List.mem_cons_of_mem _ hy)

theorem find?_isLinkStatement_none (stmts : List JSVal)
    (h : ∀ x ∈ stmts, ∃ s, x = .str s ∧ jsIncludes s PRIVATE_ASSERTION_PREDICATE = false) :
    stmts.find? isLinkStatement = none := by
  rw [List.find?_eq_none]
  intro x hx
  obtain ⟨s, rfl, hs⟩ := h x hx
  simp [isLinkStatement, hs]

theorem truthy_of_isLinkStatement {x : JSVal} (h : isLinkStatement x = true) :
    truthy x = true := by
  cases x with
  | str s =>
    simp only [truthy, bne_iff_ne, ne_eq]
    rintro rfl
    revert h
    decide
  | _ => simp [isLinkStatement] at h

theorem integrityResult_ok (S : Services) (validate : JSVal) (f : Fetched)
    (h : isTrue validate = false ∨
      ∃ root, S.calculateRoot f.publicAssertion = .ok root ∧ f.publicAssertionId = .str root) :
    integrityResult S validate f = .ok (if isTrue validate then f.rooted S else f) := by
  unfold integrityResult
  rcases h with h | ⟨root, hr, hid⟩
  · simp [h]
  · cases isTrue validate with
    | false => simp
    | true => simp [hr, hid, strictEqStr]

theorem mem_rootOrder (S : Services) (b : Bool) (stmts : List JSVal) (x : JSVal) :
    x ∈ (if b then S.rootOrder stmts else stmts) ↔ x ∈ stmts := by
  cases b with
  | false => simp
  | true => simpa using (S.rootOrder_perm stmts).mem_iff

theorem scanned_assertion (S : Services) (validate : JSVal) (f : Fetched) (stmts : List JSVal)
    (hpa : f.publicAssertion = .arr stmts) :
    (if isTrue validate then f.rooted S else f).publicAssertion =
      .arr (if isTrue validate then S.rootOrder stmts else stmts) := by
  cases isTrue validate with
  | false => simpa using hpa
  | true => simp [Fetched.rooted, hpa, Services.rootSorted]

theorem private_ne_public {ct : JSVal} (h : strictEqStr ct CONTENT_TYPES_PRIVATE = true) :
    strictEqStr ct CONTENT_TYPES_PUBLIC = false := by
  rw [strictEqStr_eq_true h]
  decide

theorem not_query_of_not_isQueryStep {e : Event} (h : ¬ e.isQueryStep) :
    e.call.method ≠ .query := fun hm => h (Or.inl hm)

/-- C6 (counterexample): with `contentType` PRIVATE and `validate` true, the GET
operation delivers an assertion without linking statement whose root differs
from the on-chain assertion id: `get` throws the integrity error instead of
returning the content object with the "no private data" descriptor. -/
theorem get_private_without_link_throws :
    deliveredAssertion (get (sampleServices acceptAll (sampleEnv (.str "0xother")
          (.obj [("status", .str "COMPLETED"),
            ("data", .obj [("assertion", .arr [.str "_:b <urn:p> \"o\" ."])])]) .undefined))
        sampleUAL (sampleGetOptions (.str CONTENT_TYPES_PRIVATE) (.bool true) (.str GET_OUTPUT_FORMATS_N_QUADS)) []).trace
      = some (.arr [.str "_:b <urn:p> \"o\" ."]) ∧
    jsIncludes "_:b <urn:p> \"o\" ." PRIVATE_ASSERTION_PREDICATE = false ∧
    (get (sampleServices acceptAll (sampleEnv (.str "0xother")
          (.obj [("status", .str "COMPLETED"),
            ("data", .obj [("assertion", .arr [.str "_:b <urn:p> \"o\" ."])])]) .undefined))
        sampleUAL (sampleGetOptions (.str CONTENT_TYPES_PRIVATE) (.bool true) (.str GET_OUTPUT_FORMATS_N_QUADS)) []).result
      = .error (.error "Calculated root hashes don't match!") :=
  ⟨rfl, rfl, rfl⟩

/-- C6 (amended): in every run of `get` with `contentType` PRIVATE in which the GET
operation delivered an assertion, an array of strings none of which contains
the linking predicate, and the integrity check did not fail (`validate` is not
`true`, or the recomputed root is the on-chain assertion id read in the run),
`get` issues no query and returns the content object that has no private
section and whose `operation.queryPrivate.data` is the error descriptor
"Node doesn't have private data of <UAL>". -/
theorem get_private_without_link (S : Services) (UAL options o : JSVal) (stmts : List JSVal)
    (ho : (S.getAssetGetArguments options >>= destructure) = .ok o)
    (hct : strictEqStr (getProp o "contentType") CONTENT_TYPES_PRIVATE = true)
    (hd : deliveredAssertion (get S UAL options []).trace = some (.arr stmts))
    (hno : ∀ x ∈ stmts, ∃ s, x = .str s ∧ jsIncludes s PRIVATE_ASSERTION_PREDICATE = false)
    (hint : isTrue (getProp o "validate") = false ∨
      ∃ root, S.calculateRoot (.arr stmts) = .ok root ∧
        onChainId (get S UAL options []).trace = .str root) :
    (∀ e ∈ (get S UAL options []).trace, e.call.method ≠ .query) ∧
      (get S UAL options []).result =
        .ok (.obj [("operation", .obj [("queryPrivate", .obj [("data", .obj [
          ("errorType", .str "DKG_CLIENT_ERROR"),
          ("errorMessage",
            .str ("Node doesn't have private data of " ++ toStringJS UAL))])])])]) := by
  rcases get_cases S UAL options with ⟨hn, -, -⟩ | ⟨o', f, pre, ho', hdel, hc, hq, hg⟩
  · rw [hn] at hd
    cases hd
  · rw [ho] at ho'
    cases ho'
    rw [hdel] at hd
    have hpa : f.publicAssertion = .arr stmts := Option.some.inj hd
    have hok := integrityResult_ok S (getProp o "validate") f (by
      rcases hint with h | ⟨root, hr, hid⟩
      · exact Or.inl h
      · exact Or.inr ⟨root, by rw [hpa]; exact hr, by rw [← hc]; exact hid⟩)
    have hscan := scanned_assertion S (getProp o "validate") f stmts hpa
    have hno2 : ∀ x ∈ (if isTrue (getProp o "validate") then S.rootOrder stmts else stmts),
        ∃ s, x = .str s ∧ jsIncludes s PRIVATE_ASSERTION_PREDICATE = false := fun x hx =>
      hno x ((mem_rootOrder S _ stmts x).mp hx)
    generalize (if isTrue (getProp o "validate") then f.rooted S else f) = f2 at hok hscan
    generalize (if isTrue (getProp o "validate") then S.rootOrder stmts else stmts) = stmts2
      at hscan hno2
    rw [hok] at hg
    simp only at hg
    rw [assembleContent_eq, private_ne_public hct] at hg
    simp only [Bool.false_eq_true, if_false] at hg
    have hps : publicSection S (getProp o "contentType") (getProp o "outputFormat") f2 =
        (f2.publicAssertion, ⟨[], []⟩) := by
      simp [publicSection, hct]
    rw [hps] at hg
    simp only at hg
    have hsteps : privateSteps S UAL (getProp o "endpoint") (getProp o "port")
        (getProp o "authToken") (getProp o "maxNumberOfRetries") (getProp o "frequency")
        (getProp o "contentType") (getProp o "validate") (getProp o "outputFormat")
        f2.publicAssertion ⟨[], []⟩ pre =
        ⟨pre, .ok (noPrivateSection UAL (getProp o "contentType") ⟨[], []⟩)⟩ := by
      unfold privateSteps
      rw [hscan, firstIncluding_strings stmts2 (fun x hx => (hno2 x hx).imp fun s h => h.1),
        find?_isLinkStatement_none stmts2 hno2]
      rfl
    rw [hsteps] at hg
    rw [hg]
    refine ⟨fun e he => not_query_of_not_isQueryStep (hq e he), ?_⟩
    simp [noPrivateSection, hct, ContentObj.toJS, Except.map]

end DKG

namespace DKG
open AssetOperationsManager

theorem privateSection_ok (S : Services) (validate outputFormat : JSVal) (id : String)
    (qid qr nq ppa : JSVal) (c : ContentObj)
    (hdata : getPropE qr "data" = .ok nq)
    (hnq : S.toNQuads nq "application/n-quads" = .ok ppa)
    (hint : isTrue validate = false ∨ S.calculateRoot ppa = .ok id) :
    privateSection S validate outputFormat id qid qr c =
      .ok ⟨c.operation ++ [("queryPrivate",
          S.getOperationStatusObject (convertAssertion S "privateAssertion" outputFormat
            (if isTrue validate then S.rootSorted ppa else ppa) qr).2 qid)],
        c.sections ++ [("private", (convertAssertion S "privateAssertion" outputFormat
            (if isTrue validate then S.rootSorted ppa else ppa) qr).1),
          ("privateAssertionId", .str id)]⟩ := by
  unfold privateSection
  rcases hint with h | h
  · simp [hdata, hnq, h, bind, Except.bind, pure, Except.pure]
  · cases isTrue validate <;>
      simp [hdata, hnq, h, bind, Except.bind, pure, Except.pure]

theorem privateSteps_run (S : Services)
    (UAL endpoint port authToken maxNumberOfRetries frequency contentType validate outputFormat
      publicAssertion link qid qr : JSVal) (id : String) (c : ContentObj) (t : List Event)
    (hfirst : firstIncluding PRIVATE_ASSERTION_PREDICATE publicAssertion = .ok link)
    (hlink : truthy link = true)
    (hlit : matchQuoted link = .ok id)
    (hqa : S.env t ⟨.query, [endpoint, port, authToken, .str (privateQueryString id),
      .str QUERY_TYPES_CONSTRUCT]⟩ = .ok qid)
    (hpa : S.env (t ++ [⟨⟨.query, [endpoint, port, authToken, .str (privateQueryString id),
        .str QUERY_TYPES_CONSTRUCT]⟩, .ok qid⟩])
      ⟨.getOperationResult, [endpoint, port, authToken, .str OPERATIONS_QUERY,
        maxNumberOfRetries, frequency, qid]⟩ = .ok qr) :
    privateSteps S UAL endpoint port authToken maxNumberOfRetries frequency contentType validate
        outputFormat publicAssertion c t =
      ⟨t ++ [⟨⟨.query, [endpoint, port, authToken, .str (privateQueryString id),
          .str QUERY_TYPES_CONSTRUCT]⟩, .ok qid⟩,
        ⟨⟨.getOperationResult, [endpoint, port, authToken, .str OPERATIONS_QUERY,
          maxNumberOfRetries, frequency, qid]⟩, .ok qr⟩],
        privateSection S validate outputFormat id qid qr c⟩ := by
  unfold privateSteps
  rw [hfirst]
  simp only [Run.lift_ok_bind, hlink, if_true]
  rw [hlit]
  simp only [Run.lift_ok_bind]
  rw [Run.call_bind, hqa]
  simp only []
  rw [Run.call_bind, hpa]
  simp only [Run.lift_apply, List.append_assoc]
  rfl

theorem filter_query_eq_nil (pre : List Event) (h : ∀ e ∈ pre, ¬ e.isQueryStep) :
    pre.filter (fun e => decide (e.call.method = .query)) = [] := by
  rw [List.filter_eq_nil_iff]
  intro e he
  simpa using not_query_of_not_isQueryStep (h e he)

/-- C5 (counterexample): the GET operation delivers an assertion whose only
statement carries the linking predicate. With `contentType` ALL, `get` throws
a `TypeError` for both output formats: at line 305 the variable
`publicAssertion` holds the converted assertion, not the statements. With
`contentType` PRIVATE and `validate` true, `get` throws the integrity error
when the root of the queried private assertion is not the linked id. -/
theorem get_with_link_throws :
    (get (sampleServices acceptAll (sampleEnv .undefined
          (.obj [("status", .str "COMPLETED"), ("data", .obj [("assertion", .arr [.str
            "_:b <https://ontology.origintrail.io/dkg/1.0#privateAssertionID> \"0xpriv\" ."])])])
          (.obj [("status", .str "COMPLETED"), ("data", .arr [.str "0xpriv"])])))
        sampleUAL (sampleGetOptions (.str CONTENT_TYPES_ALL) (.bool false) (.str GET_OUTPUT_FORMATS_N_QUADS)) []).result
      = .error (.typeError "publicAssertion.filter is not a function") ∧
    (get (sampleServices acceptAll (sampleEnv .undefined
          (.obj [("status", .str "COMPLETED"), ("data", .obj [("assertion", .arr [.str
            "_:b <https://ontology.origintrail.io/dkg/1.0#privateAssertionID> \"0xpriv\" ."])])])
          (.obj [("status", .str "COMPLETED"), ("data", .arr [.str "0xpriv"])])))
        sampleUAL (sampleGetOptions (.str CONTENT_TYPES_ALL) (.bool false) (.str GET_OUTPUT_FORMATS_JSON_LD)) []).result
      = .error (.typeError "element.includes is not a function") ∧
    (get (sampleServices acceptAll (sampleEnv
          (.str "_:b <https://ontology.origintrail.io/dkg/1.0#privateAssertionID> \"0xpriv\" .")
          (.obj [("status", .str "COMPLETED"), ("data", .obj [("assertion", .arr [.str
            "_:b <https://ontology.origintrail.io/dkg/1.0#privateAssertionID> \"0xpriv\" ."])])])
          (.obj [("status", .str "COMPLETED"), ("data", .arr [.str "0xother"])])))
        sampleUAL (sampleGetOptions (.str CONTENT_TYPES_PRIVATE) (.bool true) (.str GET_OUTPUT_FORMATS_N_QUADS)) []).result
      = .error (.error "Calculated root hashes don't match!") ∧
    isLinkStatement (.str
      "_:b <https://ontology.origintrail.io/dkg/1.0#privateAssertionID> \"0xpriv\" .") = true :=
  ⟨rfl, rfl, rfl, rfl⟩

end DKG

namespace DKG
open AssetOperationsManager

/-- C5 (amended): in every run of `get` with `contentType` PRIVATE in which the GET
operation delivered an array of strings and the integrity check of the public
assertion did not fail. The statements are scanned in the order in which they
were delivered when `validate` is not `true`, and in the order in which
`calculateRoot` left them when it is. When the first scanned statement that
contains the linking predicate carries a quoted literal `id`, the node answers
the query for the graph `<assertion:id>` and the poll of that QUERY operation,
the data of the result converts to N-Quads, and (`validate` being `true`)
their root is `id`: `get` issues exactly one query, a CONSTRUCT query scoped
to the graph `<assertion:id>`, followed by the poll of the QUERY operation,
and returns the content object with the private section, `privateAssertionId`
equal to `id` and the status record `operation.queryPrivate`, without public
section. -/
theorem get_private_with_link (S : Services) (UAL options o : JSVal) (stmts : List JSVal)
    (link id : String) (qid qr nq ppa : JSVal)
    (ho : (S.getAssetGetArguments options >>= destructure) = .ok o)
    (hct : strictEqStr (getProp o "contentType") CONTENT_TYPES_PRIVATE = true)
    (hd : deliveredAssertion (get S UAL options []).trace = some (.arr stmts))
    (hall : ∀ x ∈ stmts, ∃ s, x = .str s)
    (hfind : (if isTrue (getProp o "validate") then S.rootOrder stmts else stmts).find?
      isLinkStatement = some (.str link))
    (hlit : matchQuoted (.str link) = .ok id)
    (hint : isTrue (getProp o "validate") = false ∨
      ∃ root, S.calculateRoot (.arr stmts) = .ok root ∧
        onChainId (get S UAL options []).trace = .str root)
    (hqa : ∀ t, S.env t ⟨.query, [getProp o "endpoint", getProp o "port", getProp o "authToken",
      .str (privateQueryString id), .str QUERY_TYPES_CONSTRUCT]⟩ = .ok qid)
    (hpa : ∀ t, S.env t ⟨.getOperationResult, [getProp o "endpoint", getProp o "port",
      getProp o "authToken", .str OPERATIONS_QUERY, getProp o "maxNumberOfRetries",
      getProp o "frequency", qid]⟩ = .ok qr)
    (hdata : getPropE qr "data" = .ok nq)
    (hnq : S.toNQuads nq "application/n-quads" = .ok ppa)
    (hpint : isTrue (getProp o "validate") = false ∨ S.calculateRoot ppa = .ok id) :
    (∃ pre, (∀ e ∈ pre, ¬ e.isQueryStep) ∧
      (get S UAL options []).trace = pre ++
        [⟨⟨.query, [getProp o "endpoint", getProp o "port", getProp o "authToken",
          .str (privateQueryString id), .str QUERY_TYPES_CONSTRUCT]⟩, .ok qid⟩,
        ⟨⟨.getOperationResult, [getProp o "endpoint", getProp o "port",
          getProp o "authToken", .str OPERATIONS_QUERY, getProp o "maxNumberOfRetries",
          getProp o "frequency", qid]⟩, .ok qr⟩]) ∧
      (get S UAL options []).trace.filter (fun e => decide (e.call.method = .query)) =
        [⟨⟨.query, [getProp o "endpoint", getProp o "port", getProp o "authToken",
          .str (privateQueryString id), .str QUERY_TYPES_CONSTRUCT]⟩, .ok qid⟩] ∧
      (get S UAL options []).result =
        .ok (.obj [
          ("operation", .obj [("queryPrivate", S.getOperationStatusObject
            (convertAssertion S "privateAssertion" (getProp o "outputFormat")
              (if isTrue (getProp o "validate") then S.rootSorted ppa else ppa) qr).2 qid)]),
          ("private", (convertAssertion S "privateAssertion" (getProp o "outputFormat")
            (if isTrue (getProp o "validate") then S.rootSorted ppa else ppa) qr).1),
          ("privateAssertionId", .str id)]) := by
  rcases get_cases S UAL options with ⟨hn, -, -⟩ | ⟨o', f, pre, ho', hdel, hc, hq, hg⟩
  · rw [hn] at hd
    cases hd
  · rw [ho] at ho'
    cases ho'
    rw [hdel] at hd
    have hpub : f.publicAssertion = .arr stmts := Option.some.inj hd
    have hok := integrityResult_ok S (getProp o "validate") f (by
      rcases hint with h | ⟨root, hr, hid⟩
      · exact Or.inl h
      · exact Or.inr ⟨root, by rw [hpub]; exact hr, by rw [← hc]; exact hid⟩)
    have hscan := scanned_assertion S (getProp o "validate") f stmts hpub
    have hall2 : ∀ x ∈ (if isTrue (getProp o "validate") then S.rootOrder stmts else stmts),
        ∃ s, x = .str s := fun x hx => hall x ((mem_rootOrder S _ stmts x).mp hx)
    generalize (if isTrue (getProp o "validate") then f.rooted S else f) = f2 at hok hscan
    generalize (if isTrue (getProp o "validate") then S.rootOrder stmts else stmts) = stmts2
      at hscan hall2 hfind
    rw [hok] at hg
    simp only at hg
    rw [assembleContent_eq, private_ne_public hct] at hg
    simp only [Bool.false_eq_true, if_false] at hg
    have hps : publicSection S (getProp o "contentType") (getProp o "outputFormat") f2 =
        (f2.publicAssertion, ⟨[], []⟩) := by
      simp [publicSection, hct]
    rw [hps] at hg
    simp only at hg
    have hfirst : firstIncluding PRIVATE_ASSERTION_PREDICATE f2.publicAssertion =
        .ok (.str link) := by
      rw [hscan, firstIncluding_strings stmts2 hall2, hfind]
      rfl
    have hlink : truthy (.str link) = true :=
      truthy_of_isLinkStatement (by simpa using List.find?_some hfind)
    rw [privateSteps_run S UAL (getProp o "endpoint") (getProp o "port") (getProp o "authToken")
      (getProp o "maxNumberOfRetries") (getProp o "frequency") (getProp o "contentType")
      (getProp o "validate") (getProp o "outputFormat") f2.publicAssertion (.str link) qid qr id
      ⟨[], []⟩ pre hfirst hlink hlit (hqa _) (hpa _)] at hg
    simp only [privateSection_ok S (getProp o "validate") (getProp o "outputFormat") id _ qr
      nq ppa ⟨[], []⟩ hdata hnq hpint] at hg
    rw [hg]
    refine ⟨⟨pre, hq, rfl⟩, ?_, ?_⟩
    · simp only [List.filter_append, filter_query_eq_nil pre hq, List.nil_append]
      simp [List.filter]
    · simp [ContentObj.toJS, Except.map]

end DKG

namespace DKG
open AssetOperationsManager

/-! ## The theorems with hypotheses at concrete runs -/

/-- C2 (witness): for a content with a public and a private part the stand-ins give
`sampleAssertions`, whose public graph has exactly one linking statement. -/
theorem computeAssertions_linking_witness :
    computeAssertions (sampleServices acceptAll (sampleEnv .undefined .undefined .undefined))
        sampleContent = .ok sampleAssertions ∧
      linkCount PRIVATE_ASSERTION_PREDICATE sampleAssertions.publicGraph = 1 :=
  ⟨rfl, (computeAssertions_linking
    (sampleServices acceptAll (sampleEnv .undefined .undefined .undefined))
    sampleContent sampleAssertions rfl).1.trans rfl⟩

/-- C3 (witness): the content `{"name": "x"}` has neither key, the validation
service that accepts everything gives the same verdict on both shapes, and the
two calls of `create` are the same computation. -/
theorem create_legacy_shorthand_witness :
    (hasKey "public" [("name", JSVal.str "x")] = false ∧
      hasKey "private" [("name", JSVal.str "x")] = false) ∧
    create (sampleServices acceptAll (sampleEnv .undefined .undefined .undefined))
        (.obj [("name", .str "x")]) sampleCreateOptions =
      create (sampleServices acceptAll (sampleEnv .undefined .undefined .undefined))
        (.obj [("public", .obj [("name", .str "x")])]) sampleCreateOptions :=
  ⟨⟨rfl, rfl⟩, (create_legacy_shorthand
    (sampleServices acceptAll (sampleEnv .undefined .undefined .undefined))
    [("name", .str "x")] sampleCreateOptions rfl rfl rfl).2.2⟩

/-- C4 (witness): `validate` is `true`, the on-chain id is `0xother`, the
delivered assertion has another root: `get` throws the integrity error. -/
theorem get_validate_integrity_witness :
    isTrue (getProp (sampleGetOptions (.str CONTENT_TYPES_ALL) (.bool true) (.str GET_OUTPUT_FORMATS_N_QUADS)) "validate")
        = true ∧
      (get (sampleServices acceptAll (sampleEnv (.str "0xother")
          (sampleGetResult [.str "_:b <urn:p> <urn:o> ."]) .undefined))
        sampleUAL (sampleGetOptions (.str CONTENT_TYPES_ALL) (.bool true) (.str GET_OUTPUT_FORMATS_N_QUADS)) []).result
        = .error (.error "Calculated root hashes don't match!") :=
  ⟨rfl, (get_validate_integrity
    (sampleServices acceptAll (sampleEnv (.str "0xother")
      (sampleGetResult [.str "_:b <urn:p> <urn:o> ."]) .undefined))
    sampleUAL (sampleGetOptions (.str CONTENT_TYPES_ALL) (.bool true) (.str GET_OUTPUT_FORMATS_N_QUADS))
    (sampleGetOptions (.str CONTENT_TYPES_ALL) (.bool true) (.str GET_OUTPUT_FORMATS_N_QUADS)) rfl rfl).1
    (.arr [.str "_:b <urn:p> <urn:o> ."]) "_:b <urn:p> <urn:o> ." rfl rfl rfl⟩

/-- C6 (witness): `contentType` is PRIVATE, `validate` is `true`, the delivered
assertion has the on-chain root and no linking statement: `get` returns the
content object with the "no private data" descriptor. -/
theorem get_private_without_link_witness :
    strictEqStr (getProp (sampleGetOptions (.str CONTENT_TYPES_PRIVATE) (.bool true) (.str GET_OUTPUT_FORMATS_N_QUADS))
        "contentType") CONTENT_TYPES_PRIVATE = true ∧
      (get (sampleServices acceptAll (sampleEnv (.str "_:b <urn:p> <urn:o> .")
          (sampleGetResult [.str "_:b <urn:p> <urn:o> ."]) .undefined))
        sampleUAL (sampleGetOptions (.str CONTENT_TYPES_PRIVATE) (.bool true) (.str GET_OUTPUT_FORMATS_N_QUADS)) []).result
        = .ok (.obj [("operation", .obj [("queryPrivate", .obj [("data", .obj [
          ("errorType", .str "DKG_CLIENT_ERROR"),
          ("errorMessage",
            .str ("Node doesn't have private data of " ++ toStringJS sampleUAL))])])])]) :=
  ⟨rfl, (get_private_without_link
    (sampleServices acceptAll (sampleEnv (.str "_:b <urn:p> <urn:o> .")
      (sampleGetResult [.str "_:b <urn:p> <urn:o> ."]) .undefined))
    sampleUAL (sampleGetOptions (.str CONTENT_TYPES_PRIVATE) (.bool true) (.str GET_OUTPUT_FORMATS_N_QUADS))
    (sampleGetOptions (.str CONTENT_TYPES_PRIVATE) (.bool true) (.str GET_OUTPUT_FORMATS_N_QUADS))
    [.str "_:b <urn:p> <urn:o> ."] rfl rfl rfl
    (fun _ hx => (List.mem_singleton.mp hx) ▸ ⟨_, rfl, rfl⟩)
    (Or.inr ⟨"_:b <urn:p> <urn:o> .", rfl, rfl⟩)).2⟩

/-- C5 (witness): `contentType` is PRIVATE, `validate` is `true`, the GET operation
delivers the statement that links `0xbbb` followed by the one that links
`0xaaa`, with the on-chain root. The check of the root leaves the statements
sorted, so the scan finds the link to `0xaaa`: `get` issues the one query for
`<assertion:0xaaa>`, the node answers it and its poll with statements whose
root is `0xaaa`, and `get` returns the private section paired with `0xaaa` and
the status record. -/
theorem get_private_with_link_witness :
    (sampleRootOrder [.str (sampleLinkTo "0xbbb"), .str (sampleLinkTo "0xaaa")]).find?
        isLinkStatement = some (.str (sampleLinkTo "0xaaa")) ∧
      matchQuoted (.str (sampleLinkTo "0xaaa")) = .ok "0xaaa" ∧
      (get (sampleServices acceptAll (sampleEnv
            (.str (sampleLinkTo "0xaaa" ++ "|" ++ sampleLinkTo "0xbbb"))
            (sampleGetResult [.str (sampleLinkTo "0xbbb"), .str (sampleLinkTo "0xaaa")])
            (sampleQueryResult [.str "0xaaa"])))
          sampleUAL (sampleGetOptions (.str CONTENT_TYPES_PRIVATE) (.bool true)
            (.str GET_OUTPUT_FORMATS_N_QUADS)) []).trace.filter
          (fun e => decide (e.call.method = .query)) =
        [⟨⟨.query, [.str "http://localhost", .num (.int 8900), .undefined,
          .str (privateQueryString "0xaaa"), .str QUERY_TYPES_CONSTRUCT]⟩,
          .ok (.str "op-query")⟩] ∧
      (get (sampleServices acceptAll (sampleEnv
            (.str (sampleLinkTo "0xaaa" ++ "|" ++ sampleLinkTo "0xbbb"))
            (sampleGetResult [.str (sampleLinkTo "0xbbb"), .str (sampleLinkTo "0xaaa")])
            (sampleQueryResult [.str "0xaaa"])))
          sampleUAL (sampleGetOptions (.str CONTENT_TYPES_PRIVATE) (.bool true)
            (.str GET_OUTPUT_FORMATS_N_QUADS)) []).result
        = .ok (.obj [
          ("operation", .obj [("queryPrivate", .obj [("operationId", .str "op-query"),
            ("status", .str "COMPLETED"), ("data", .arr [.str "0xaaa"])])]),
          ("private", .str "0xaaa"),
          ("privateAssertionId", .str "0xaaa")]) :=
  (fun h => ⟨rfl, rfl, h.2.1.trans rfl, h.2.2.trans rfl⟩)
    (get_private_with_link
      (sampleServices acceptAll (sampleEnv
        (.str (sampleLinkTo "0xaaa" ++ "|" ++ sampleLinkTo "0xbbb"))
        (sampleGetResult [.str (sampleLinkTo "0xbbb"), .str (sampleLinkTo "0xaaa")])
        (sampleQueryResult [.str "0xaaa"])))
      sampleUAL
      (sampleGetOptions (.str CONTENT_TYPES_PRIVATE) (.bool true)
        (.str GET_OUTPUT_FORMATS_N_QUADS))
      (sampleGetOptions (.str CONTENT_TYPES_PRIVATE) (.bool true)
        (.str GET_OUTPUT_FORMATS_N_QUADS))
      [.str (sampleLinkTo "0xbbb"), .str (sampleLinkTo "0xaaa")] (sampleLinkTo "0xaaa") "0xaaa"
      (.str "op-query") (sampleQueryResult [.str "0xaaa"]) (.arr [.str "0xaaa"])
      (.arr [.str "0xaaa"])
      rfl rfl rfl
      (fun x hx => by
        simp only [List.mem_cons, List.mem_singleton, List.not_mem_nil, or_false] at hx
        rcases hx with rfl | rfl <;> exact ⟨_, rfl⟩)
      rfl rfl
      (Or.inr ⟨sampleLinkTo "0xaaa" ++ "|" ++ sampleLinkTo "0xbbb", rfl, rfl⟩)
      (fun _ => rfl) (fun _ => rfl)
      rfl rfl (Or.inr rfl))

end DKG

namespace DKG
open ValidationService

/-! ## Properties of `validateContent` -/

theorem validateContent_obj_eq (L : ContentLimits) (fs : List (String × JSVal)) :
    validateContent L (.obj fs) =
      if ¬ (((objectKeys (.obj fs)).length = 1 ∨ (objectKeys (.obj fs)).length = 2) ∧
          ("public" ∈ objectKeys (.obj fs) ∨ "private" ∈ objectKeys (.obj fs))) then
        .error (.error "content keys can only be \"public\", \"private\" or both.")
      else if truthy (lookupField "public" fs) = false ∧
          truthy (lookupField "private" fs) = false then
        .error (.error "Public or private content must be defined")
      else if L.byteLength (.obj fs) > L.MAX_FILE_SIZE then
        .error (.error ("File size limit is " ++ L.limitInMB ++ "MB."))
      else .ok () := by
  simp only [validateContent, validateRequiredParam, isNullish, bind, Except.bind, getProp]
  simp only [Bool.false_eq_true, if_false]
  by_cases h1 : (objectKeys (.obj fs)).length = 1 <;>
    by_cases h2 : (objectKeys (.obj fs)).length = 2 <;>
    by_cases hp : "public" ∈ objectKeys (.obj fs) <;>
    by_cases hq : "private" ∈ objectKeys (.obj fs) <;>
    by_cases hpub : truthy (lookupField "public" fs) = true <;>
    by_cases hpriv : truthy (lookupField "private" fs) = true <;>
    simp [h1, h2, hp, hq, hpub, hpriv]

/-- C11 (counterexample): a content object with the keys "public" and "foo" is
accepted, and so is a content object whose only part is an empty object. -/
theorem validateContent_accepts_foreign_key_and_empty_part :
    validateContent sampleLimits
        (.obj [("public", .obj [("name", .str "x")]), ("foo", .num (.int 1))]) = .ok () ∧
      validateContent sampleLimits (.obj [("public", .obj [])]) = .ok () :=
  ⟨rfl, rfl⟩

/-- C11 (amended): `validateContent` accepts a content object only if it has one
or two keys, at least one of them "public" or "private", and at least one of
`content.public`, `content.private` is truthy (an empty object is truthy). It
rejects with 'content keys can only be "public", "private" or both.' every
content object without keys, with more than two keys, or with neither key;
it rejects every content object whose public and private parts are both absent
or falsy; and it accepts every content object whose keys are "public",
"private" or both, with a truthy part, within the size limit. A content object
with two keys of which one is foreign is not covered. -/
theorem validateContent_spec (L : ContentLimits) (fs : List (String × JSVal)) :
    (validateContent L (.obj fs) = .ok () →
      ((objectKeys (.obj fs)).length = 1 ∨ (objectKeys (.obj fs)).length = 2) ∧
        ("public" ∈ objectKeys (.obj fs) ∨ "private" ∈ objectKeys (.obj fs)) ∧
        (truthy (lookupField "public" fs) = true ∨ truthy (lookupField "private" fs) = true) ∧
        L.byteLength (.obj fs) ≤ L.MAX_FILE_SIZE) ∧
    ((objectKeys (.obj fs)).length = 0 ∨ 2 < (objectKeys (.obj fs)).length ∨
        ("public" ∉ objectKeys (.obj fs) ∧ "private" ∉ objectKeys (.obj fs)) →
      validateContent L (.obj fs) =
        .error (.error "content keys can only be \"public\", \"private\" or both.")) ∧
    (truthy (lookupField "public" fs) = false → truthy (lookupField "private" fs) = false →
      validateContent L (.obj fs) =
          .error (.error "content keys can only be \"public\", \"private\" or both.") ∨
        validateContent L (.obj fs) =
          .error (.error "Public or private content must be defined")) ∧
    (objectKeys (.obj fs) = ["public"] ∨ objectKeys (.obj fs) = ["private"] ∨
        objectKeys (.obj fs) = ["public", "private"] ∨
        objectKeys (.obj fs) = ["private", "public"] →
      truthy (lookupField "public" fs) = true ∨ truthy (lookupField "private" fs) = true →
      L.byteLength (.obj fs) ≤ L.MAX_FILE_SIZE →
      validateContent L (.obj fs) = .ok ()) := by
  rw [validateContent_obj_eq]
  refine ⟨?_, ?_, ?_, ?_⟩
  · intro h
    split at h
    · cases h
    · next hk =>
      split at h
      · cases h
      · next ht =>
        split at h
        · cases h
        · next hs =>
          have hk' := Classical.not_not.mp hk
          refine ⟨hk'.1, hk'.2, ?_, Nat.le_of_not_lt hs⟩
          by_cases hp : truthy (lookupField "public" fs) = true
          · exact Or.inl hp
          · right
            by_contra hq
            exact ht ⟨by simpa using hp, by simpa using hq⟩
  · intro h
    rw [if_pos]
    rintro ⟨hl, hm⟩
    rcases h with h | h | ⟨h1, h2⟩
    · omega
    · omega
    · rcases hm with hm | hm
      · exact h1 hm
      · exact h2 hm
  · intro hp hq
    split
    · exact Or.inl rfl
    · right
      rw [if_pos ⟨hp, hq⟩]
  · intro hk ht hs
    have hkeys : ((objectKeys (.obj fs)).length = 1 ∨ (objectKeys (.obj fs)).length = 2) ∧
        ("public" ∈ objectKeys (.obj fs) ∨ "private" ∈ objectKeys (.obj fs)) := by
      rcases hk with hk | hk | hk | hk <;> rw [hk] <;> simp
    rw [if_neg (not_not.mpr hkeys), if_neg, if_neg (Nat.not_lt.mpr hs)]
    rintro ⟨hp, hq⟩
    rcases ht with ht | ht
    · rw [hp] at ht
      cases ht
    · rw [hq] at ht
      cases ht

/-- C11 (witness): the content `{"public": {"name": "x"}}` has the single key
"public", its public part is truthy and it is within the size limit:
`validateContent` accepts it. -/
theorem validateContent_spec_witness :
    objectKeys (.obj [("public", .obj [("name", .str "x")])]) = ["public"] ∧
      truthy (lookupField "public" [("public", .obj [("name", .str "x")])]) = true ∧
      sampleLimits.byteLength (.obj [("public", .obj [("name", .str "x")])]) ≤
        sampleLimits.MAX_FILE_SIZE ∧
      validateContent sampleLimits (.obj [("public", .obj [("name", .str "x")])]) = .ok () :=
  ⟨rfl, rfl, by decide,
    (validateContent_spec sampleLimits [("public", .obj [("name", .str "x")])]).2.2.2
      (Or.inl rfl) (Or.inl rfl) (by decide)⟩

end DKG

namespace DKG
open AssetOperationsManager

/-! ## Validation precedes every call -/

/-- C13: in `create`, `get`, `transfer` and `getOwner`, when the validation service
rejects the input (a validation method the manager calls throws), the call
fails with that error and the run holds no call at all: no call to the node
API service and no call to the blockchain service has been issued. -/
theorem rejected_input_issues_no_call (S : Services) :
    (∀ content options e,
      S.validationService.validateObjectType [content] = .error e →
      create S content options [] = ⟨[], .error e⟩) ∧
    (∀ content options jsonContent o e,
      S.validationService.validateObjectType [content] = .ok () →
      normalizeContent content = .ok jsonContent →
      (S.getAssetCreateArguments options >>= destructure) = .ok o →
      S.validationService.validateAssetCreate
        [jsonContent, getProp o "blockchain", getProp o "endpoint", getProp o "port",
          getProp o "maxNumberOfRetries", getProp o "frequency", getProp o "epochsNum",
          getProp o "hashFunctionId", getProp o "scoreFunctionId", getProp o "immutable",
          getProp o "tokenAmount", getProp o "authToken"] = .error e →
      create S content options [] = ⟨[], .error e⟩) ∧
    (∀ UAL options o e,
      (S.getAssetGetArguments options >>= destructure) = .ok o →
      S.validationService.validateAssetGet
        [UAL, getProp o "blockchain", getProp o "endpoint", getProp o "port",
          getProp o "maxNumberOfRetries", getProp o "frequency", getProp o "state",
          getProp o "contentType", getProp o "hashFunctionId", getProp o "validate",
          getProp o "outputFormat", getProp o "authToken"] = .error e →
      get S UAL options [] = ⟨[], .error e⟩) ∧
    (∀ UAL newOwner options blockchain e,
      S.getBlockchain options = .ok blockchain →
      S.validationService.validateAssetTransfer [UAL, newOwner, blockchain] = .error e →
      transfer S UAL newOwner options [] = ⟨[], .error e⟩) ∧
    (∀ UAL options blockchain e,
      S.getBlockchain options = .ok blockchain →
      S.validationService.validateAssetGetOwner [UAL, blockchain] = .error e →
      getOwner S UAL options [] = ⟨[], .error e⟩) := by
  refine ⟨?_, ?_, ?_, ?_, ?_⟩
  · intro content options e h
    unfold create
    rw [h]
    rfl
  · intro content options jsonContent o e h1 h2 h3 h4
    unfold create
    rw [h1, h2, h3]
    simp only [Run.lift_ok_bind]
    rw [h4]
    rfl
  · intro UAL options o e h1 h2
    unfold AssetOperationsManager.get
    rw [h1]
    simp only [Run.lift_ok_bind]
    rw [h2]
    rfl
  · intro UAL newOwner options blockchain e h1 h2
    unfold transfer
    rw [h1]
    simp only [Run.lift_ok_bind]
    rw [h2]
    rfl
  · intro UAL options blockchain e h1 h2
    unfold getOwner
    rw [h1]
    simp only [Run.lift_ok_bind]
    rw [h2]
    rfl

/-- C13 (witness): wired to the `ValidationService` of the sources, `get` on an
input whose every field is valid is rejected by the validation service, and
the run holds no call. -/
theorem rejected_input_issues_no_call_witness :
    get (sampleServices (wiredValidationService true)
        (sampleEnv .undefined .undefined .undefined)) sampleUAL
      (sampleGetOptions (.str CONTENT_TYPES_ALL) (.bool true) (.str GET_OUTPUT_FORMATS_JSON_LD))
      [] = ⟨[], .error (.error "validate must be of type boolean.")⟩ :=
  (rejected_input_issues_no_call (sampleServices (wiredValidationService true)
    (sampleEnv .undefined .undefined .undefined))).2.2.1 sampleUAL
    (sampleGetOptions (.str CONTENT_TYPES_ALL) (.bool true) (.str GET_OUTPUT_FORMATS_JSON_LD))
    (sampleGetOptions (.str CONTENT_TYPES_ALL) (.bool true) (.str GET_OUTPUT_FORMATS_JSON_LD))
    (.error "validate must be of type boolean.") rfl rfl

end DKG


namespace DKG
open AssetOperationsManager

/-! ## The calls of `create`, in order -/

theorem Run.addsOnly_pure {α : Type} (P : Event → Prop) (a : α) :
    Run.addsOnly P (pure a : Run α) := fun t => ⟨[], by simp, by simp⟩

theorem Run.addsOnly_lift {α : Type} (P : Event → Prop) (r : JSResult α) :
    Run.addsOnly P (Run.lift r) := fun t => ⟨[], by simp, by simp⟩

theorem Run.addsOnly_call (P : Event → Prop) (env : Env) (m : Method) (args : List JSVal)
    (h : ∀ ans, P ⟨⟨m, args⟩, ans⟩) : Run.addsOnly P (Run.call env m args) := fun t =>
  ⟨[⟨⟨m, args⟩, env t ⟨m, args⟩⟩], rfl, by
    intro e he
    rw [List.mem_singleton.mp he]
    exact h _⟩

theorem Run.addsOnly_bind {α β : Type} (P : Event → Prop) (m : Run α) (f : α → Run β)
    (hm : Run.addsOnly P m) (hf : ∀ a, Run.addsOnly P (f a)) : Run.addsOnly P (m >>= f) := by
  intro t
  obtain ⟨l, hl, hP⟩ := hm t
  rw [Run.bind_apply]
  rcases hmt : m t with ⟨t', res⟩
  rw [hmt] at hl
  simp only at hl
  subst hl
  cases res with
  | error e => exact ⟨l, rfl, hP⟩
  | ok a =>
    obtain ⟨l', hl', hP'⟩ := hf a (t ++ l)
    refine ⟨l ++ l', by simp only [hl', List.append_assoc], ?_⟩
    intro e he
    rcases List.mem_append.mp he with he | he
    · exact hP e he
    · exact hP' e he

theorem publishSteps_addsOnly (S : Services)
    (endpoint port authToken maxNumberOfRetries frequency hashFunctionId name address tokenId
      UAL : JSVal) (a : Assertions) :
    Run.addsOnly Event.afterMint
      (publishSteps S endpoint port authToken maxNumberOfRetries frequency hashFunctionId name
        address tokenId UAL a) := by
  unfold publishSteps
  apply Run.addsOnly_bind
  · exact Run.addsOnly_call _ _ _ _ (fun _ => by simp [Event.afterMint])
  · intro operationId
    apply Run.addsOnly_bind
    · exact Run.addsOnly_call _ _ _ _ (fun _ => by simp [Event.afterMint])
    · intro operationResult
      apply Run.addsOnly_bind
      · exact Run.addsOnly_call _ _ _ _ (fun _ => by simp [Event.afterMint])
      · intro _
        exact Run.addsOnly_pure _ _

theorem mintStorePublish_trace (S : Services)
    (blockchain endpoint port authToken maxNumberOfRetries frequency epochsNum hashFunctionId
      scoreFunctionId immutable address amount : JSVal) (a : Assertions) (t : List Event) :
    ∃ cans rest,
      (mintStorePublish S blockchain endpoint port authToken maxNumberOfRetries frequency
        epochsNum hashFunctionId scoreFunctionId immutable address amount a t).trace =
          t ++ ⟨⟨.createAsset,
            [createAssetParams S epochsNum scoreFunctionId immutable amount a, blockchain]⟩,
            cans⟩ :: rest ∧
      ∀ e ∈ rest, e.afterMint := by
  unfold mintStorePublish
  rw [Run.call_bind]
  generalize S.env _ _ = q
  cases q with
  | error e => exact ⟨_, [], rfl, by simp⟩
  | ok tokenId =>
    simp only []
    generalize hK : (Run.lift (getPropE blockchain "name") >>= _) = K
    have hadds : Run.addsOnly Event.afterMint K := by
      rw [← hK]
      apply Run.addsOnly_bind
      · exact Run.addsOnly_lift _ _
      · intro name
        apply Run.addsOnly_bind
        · exact Run.addsOnly_call _ _ _ _ (fun _ => by simp [Event.afterMint])
        · intro operationId
          apply Run.addsOnly_bind
          · exact Run.addsOnly_call _ _ _ _ (fun _ => by simp [Event.afterMint])
          · intro operationResult
            apply Run.addsOnly_bind
            · exact Run.addsOnly_lift _ _
            · intro ual
              apply Run.addsOnly_bind
              · exact Run.addsOnly_lift _ _
              · intro status
                split
                · exact Run.addsOnly_pure _ _
                · exact publishSteps_addsOnly _ _ _ _ _ _ _ _ _ _ _ _
    obtain ⟨l, hl, hP⟩ := hadds (t ++ [⟨⟨.createAsset, _⟩, .ok tokenId⟩])
    refine ⟨.ok tokenId, l, ?_, hP⟩
    rw [hl, List.append_assoc]
    rfl

theorem chainTag_of_name {blockchain : JSVal} {n : String}
    (h : getProp blockchain "name" = .str n) :
    chainTag blockchain = .ok (if jsStartsWith n "otp" then .str "otp" else .str n) ∧
      getPropE blockchain "name" = .ok (.str n) := by
  have hne : getPropE blockchain "name" = .ok (.str n) := by
    cases blockchain <;> simp_all [getPropE, getProp]
  exact ⟨by simp [chainTag, hne, bind, Except.bind], hne⟩

theorem tokenAmountInWei_cases (S : Services)
    (tokenAmount endpoint port authToken blockchain epochsNum address hashFunctionId : JSVal)
    (a : Assertions) (t : List Event) :
    (isNullish tokenAmount = false ∧
      tokenAmountInWei S tokenAmount endpoint port authToken blockchain epochsNum address
        hashFunctionId a t = ⟨t, .ok tokenAmount⟩) ∨
    (isNullish tokenAmount = true ∧
      ((∃ err, chainTag blockchain = .error err ∧
          tokenAmountInWei S tokenAmount endpoint port authToken blockchain epochsNum
            address hashFunctionId a t = ⟨t, .error err⟩) ∨
        ∃ tag, chainTag blockchain = .ok tag ∧
          tokenAmountInWei S tokenAmount endpoint port authToken blockchain epochsNum address
            hashFunctionId a t =
          ⟨t ++ [⟨⟨.getBidSuggestion, [endpoint, port, authToken, tag, epochsNum,
              S.getAssertionSizeInBytes (S.rootSorted a.publicAssertion), address,
              .str a.publicAssertionId, hashFunctionId]⟩,
            S.env t ⟨.getBidSuggestion, [endpoint, port, authToken, tag, epochsNum,
              S.getAssertionSizeInBytes (S.rootSorted a.publicAssertion), address,
              .str a.publicAssertionId, hashFunctionId]⟩⟩],
            S.env t ⟨.getBidSuggestion, [endpoint, port, authToken, tag, epochsNum,
              S.getAssertionSizeInBytes (S.rootSorted a.publicAssertion), address,
              .str a.publicAssertionId, hashFunctionId]⟩⟩)) := by
  unfold tokenAmountInWei
  cases hn : isNullish tokenAmount with
  | false => exact Or.inl ⟨rfl, rfl⟩
  | true =>
    refine Or.inr ⟨rfl, ?_⟩
    simp only [if_true]
    cases hc : chainTag blockchain with
    | error err => exact Or.inl ⟨err, rfl, rfl⟩
    | ok tag => exact Or.inr ⟨tag, rfl, rfl⟩

end DKG

namespace DKG
open AssetOperationsManager

theorem create_reaches_cost (S : Services) (content options o jsonContent : JSVal)
    (a : Assertions) (address : JSVal)
    (ho : (S.getAssetCreateArguments options >>= destructure) = .ok o)
    (hv1 : S.validationService.validateObjectType [content] = .ok ())
    (hn : normalizeContent content = .ok jsonContent)
    (hv2 : S.validationService.validateAssetCreate
      [jsonContent, getProp o "blockchain", getProp o "endpoint", getProp o "port",
        getProp o "maxNumberOfRetries", getProp o "frequency", getProp o "epochsNum",
        getProp o "hashFunctionId", getProp o "scoreFunctionId", getProp o "immutable",
        getProp o "tokenAmount", getProp o "authToken"] = .ok ())
    (ha : computeAssertions S jsonContent = .ok a)
    (hg : S.env [] ⟨.getContractAddress, [.str "ContentAssetStorage", getProp o "blockchain"]⟩
      = .ok address) :
    create S content options [] =
      (tokenAmountInWei S (getProp o "tokenAmount") (getProp o "endpoint") (getProp o "port")
          (getProp o "authToken") (getProp o "blockchain") (getProp o "epochsNum") address
          (getProp o "hashFunctionId") a >>= fun amount =>
        mintStorePublish S (getProp o "blockchain") (getProp o "endpoint") (getProp o "port")
          (getProp o "authToken") (getProp o "maxNumberOfRetries") (getProp o "frequency")
          (getProp o "epochsNum") (getProp o "hashFunctionId") (getProp o "scoreFunctionId")
          (getProp o "immutable") address amount a)
        [⟨⟨.getContractAddress, [.str "ContentAssetStorage", getProp o "blockchain"]⟩,
          .ok address⟩] := by
  unfold create
  rw [hv1]
  simp only [Run.lift_ok_bind]
  rw [hn]
  simp only [Run.lift_ok_bind]
  rw [ho]
  simp only [Run.lift_ok_bind]
  rw [hv2]
  simp only [Run.lift_ok_bind]
  rw [ha]
  simp only [Run.lift_ok_bind]
  rw [Run.call_bind, hg]
  rfl

theorem create_cost_shape (S : Services) (content options o : JSVal)
    (ho : (S.getAssetCreateArguments options >>= destructure) = .ok o) :
    (∀ e ∈ (create S content options []).trace,
        e.call.method ≠ .getBidSuggestion ∧ e.call.method ≠ .createAsset ∧
          e.call.method ≠ .publish ∧ ∀ v, e.answer ≠ .ok v) ∨
    ∃ jsonContent a address,
      normalizeContent content = .ok jsonContent ∧
      computeAssertions S jsonContent = .ok a ∧
      create S content options [] =
        (tokenAmountInWei S (getProp o "tokenAmount") (getProp o "endpoint") (getProp o "port")
            (getProp o "authToken") (getProp o "blockchain") (getProp o "epochsNum") address
            (getProp o "hashFunctionId") a >>= fun amount =>
          mintStorePublish S (getProp o "blockchain") (getProp o "endpoint") (getProp o "port")
            (getProp o "authToken") (getProp o "maxNumberOfRetries") (getProp o "frequency")
            (getProp o "epochsNum") (getProp o "hashFunctionId") (getProp o "scoreFunctionId")
            (getProp o "immutable") address amount a)
          [⟨⟨.getContractAddress, [.str "ContentAssetStorage", getProp o "blockchain"]⟩,
            .ok address⟩] := by
  cases h1 : S.validationService.validateObjectType [content] with
  | error e =>
    left
    unfold create
    rw [h1]
    simp
  | ok u =>
    cases h2 : normalizeContent content with
    | error e =>
      left
      unfold create
      rw [h1]
      simp only [Run.lift_ok_bind]
      rw [h2]
      simp
    | ok jsonContent =>
      cases h4 : S.validationService.validateAssetCreate
        [jsonContent, getProp o "blockchain", getProp o "endpoint", getProp o "port",
          getProp o "maxNumberOfRetries", getProp o "frequency", getProp o "epochsNum",
          getProp o "hashFunctionId", getProp o "scoreFunctionId", getProp o "immutable",
          getProp o "tokenAmount", getProp o "authToken"] with
      | error e =>
        left
        unfold create
        rw [h1]
        simp only [Run.lift_ok_bind]
        rw [h2]
        simp only [Run.lift_ok_bind]
        rw [ho]
        simp only [Run.lift_ok_bind]
        rw [h4]
        simp
      | ok u4 =>
        cases h5 : computeAssertions S jsonContent with
        | error e =>
          left
          unfold create
          rw [h1]
          simp only [Run.lift_ok_bind]
          rw [h2]
          simp only [Run.lift_ok_bind]
          rw [ho]
          simp only [Run.lift_ok_bind]
          rw [h4]
          simp only [Run.lift_ok_bind]
          rw [h5]
          simp
        | ok a =>
          cases h6 : S.env [] ⟨.getContractAddress,
            [.str "ContentAssetStorage", getProp o "blockchain"]⟩ with
          | error e =>
            left
            unfold create
            rw [h1]
            simp only [Run.lift_ok_bind]
            rw [h2]
            simp only [Run.lift_ok_bind]
            rw [ho]
            simp only [Run.lift_ok_bind]
            rw [h4]
            simp only [Run.lift_ok_bind]
            rw [h5]
            simp only [Run.lift_ok_bind]
            rw [Run.call_bind, h6]
            simp
          | ok address =>
            exact Or.inr ⟨jsonContent, a, address, rfl, h5,
              create_reaches_cost S content options o jsonContent a address ho h1 h2 h4 h5 h6⟩

end DKG

namespace DKG
open AssetOperationsManager

theorem create_cost_cases (S : Services) (content options o : JSVal)
    (ho : (S.getAssetCreateArguments options >>= destructure) = .ok o) :
    (∀ e ∈ (create S content options []).trace,
        e.call.method ≠ .getBidSuggestion ∧ e.call.method ≠ .createAsset ∧
          e.call.method ≠ .publish ∧ ∀ v, e.answer ≠ .ok v) ∨
    (isNullish (getProp o "tokenAmount") = true ∧ ∃ address err,
      chainTag (getProp o "blockchain") = .error err ∧
      create S content options [] =
        ⟨[⟨⟨.getContractAddress, [.str "ContentAssetStorage", getProp o "blockchain"]⟩,
          .ok address⟩], .error err⟩) ∨
    (isNullish (getProp o "tokenAmount") = false ∧ ∃ jsonContent a address cans rest,
      normalizeContent content = .ok jsonContent ∧
      computeAssertions S jsonContent = .ok a ∧
      (create S content options []).trace =
        ⟨⟨.getContractAddress, [.str "ContentAssetStorage", getProp o "blockchain"]⟩,
          .ok address⟩ ::
        ⟨⟨.createAsset, [createAssetParams S (getProp o "epochsNum")
          (getProp o "scoreFunctionId") (getProp o "immutable") (getProp o "tokenAmount") a,
          getProp o "blockchain"]⟩, cans⟩ :: rest ∧
      ∀ e ∈ rest, e.afterMint) ∨
    (isNullish (getProp o "tokenAmount") = true ∧ ∃ jsonContent a address tag err,
      normalizeContent content = .ok jsonContent ∧
      computeAssertions S jsonContent = .ok a ∧
      chainTag (getProp o "blockchain") = .ok tag ∧
      create S content options [] =
        ⟨[⟨⟨.getContractAddress, [.str "ContentAssetStorage", getProp o "blockchain"]⟩,
            .ok address⟩,
          ⟨⟨.getBidSuggestion, [getProp o "endpoint", getProp o "port", getProp o "authToken",
            tag, getProp o "epochsNum",
            S.getAssertionSizeInBytes (S.rootSorted a.publicAssertion), address,
            .str a.publicAssertionId, getProp o "hashFunctionId"]⟩, .error err⟩],
          .error err⟩) ∨
    (isNullish (getProp o "tokenAmount") = true ∧
      ∃ jsonContent a address tag amount cans rest,
      normalizeContent content = .ok jsonContent ∧
      computeAssertions S jsonContent = .ok a ∧
      chainTag (getProp o "blockchain") = .ok tag ∧
      (create S content options []).trace =
        ⟨⟨.getContractAddress, [.str "ContentAssetStorage", getProp o "blockchain"]⟩,
          .ok address⟩ ::
        ⟨⟨.getBidSuggestion, [getProp o "endpoint", getProp o "port", getProp o "authToken",
          tag, getProp o "epochsNum",
          S.getAssertionSizeInBytes (S.rootSorted a.publicAssertion), address,
          .str a.publicAssertionId, getProp o "hashFunctionId"]⟩, .ok amount⟩ ::
        ⟨⟨.createAsset, [createAssetParams S (getProp o "epochsNum")
          (getProp o "scoreFunctionId") (getProp o "immutable") amount a,
          getProp o "blockchain"]⟩, cans⟩ :: rest ∧
      ∀ e ∈ rest, e.afterMint) := by
  rcases create_cost_shape S content options o ho with h | ⟨jsonContent, a, address, hn, ha, hc⟩
  · exact Or.inl h
  · right
    rw [hc, Run.bind_apply]
    rcases tokenAmountInWei_cases S (getProp o "tokenAmount") (getProp o "endpoint")
        (getProp o "port") (getProp o "authToken") (getProp o "blockchain")
        (getProp o "epochsNum") address (getProp o "hashFunctionId") a
        [⟨⟨.getContractAddress, [.str "ContentAssetStorage", getProp o "blockchain"]⟩,
          .ok address⟩] with
      ⟨hs, ht⟩ | ⟨hs, ⟨err, hct, ht⟩ | ⟨tag, htag, ht⟩⟩
    · right
      left
      rw [ht]
      simp only []
      obtain ⟨cans, rest, hT, hrest⟩ := mintStorePublish_trace S
        (getProp o "blockchain") (getProp o "endpoint") (getProp o "port")
        (getProp o "authToken") (getProp o "maxNumberOfRetries") (getProp o "frequency")
        (getProp o "epochsNum") (getProp o "hashFunctionId") (getProp o "scoreFunctionId")
        (getProp o "immutable") address (getProp o "tokenAmount") a
        [⟨⟨.getContractAddress, [.str "ContentAssetStorage", getProp o "blockchain"]⟩,
          .ok address⟩]
      exact ⟨hs, jsonContent, a, address, cans, rest, hn, ha, hT, hrest⟩
    · left
      rw [ht]
      exact ⟨hs, address, err, hct, rfl⟩
    · right
      right
      rw [ht]
      generalize S.env _ _ = ans
      cases ans with
      | error err =>
        left
        exact ⟨hs, jsonContent, a, address, tag, err, hn, ha, htag, rfl⟩
      | ok amount =>
        right
        simp only []
        obtain ⟨cans, rest, hT, hrest⟩ := mintStorePublish_trace S
          (getProp o "blockchain") (getProp o "endpoint") (getProp o "port")
          (getProp o "authToken") (getProp o "maxNumberOfRetries") (getProp o "frequency")
          (getProp o "epochsNum") (getProp o "hashFunctionId") (getProp o "scoreFunctionId")
          (getProp o "immutable") address amount a
          ([⟨⟨.getContractAddress, [.str "ContentAssetStorage", getProp o "blockchain"]⟩,
            .ok address⟩] ++
            [⟨⟨.getBidSuggestion, [getProp o "endpoint", getProp o "port",
              getProp o "authToken", tag, getProp o "epochsNum",
              S.getAssertionSizeInBytes (S.rootSorted a.publicAssertion), address,
              .str a.publicAssertionId, getProp o "hashFunctionId"]⟩, .ok amount⟩])
        exact ⟨hs, jsonContent, a, address, tag, amount, cans, rest, hn, ha, htag, hT, hrest⟩

theorem Event.afterMint_ne {e : Event} (h : e.afterMint) :
    e.call.method ≠ .getBidSuggestion ∧ e.call.method ≠ .createAsset ∧
      e.call.method ≠ .getContractAddress := by
  rcases h with h | h | h | h <;> simp [h]

end DKG

namespace DKG
open AssetOperationsManager

theorem createAssetParams_tokenAmount (S : Services)
    (epochsNum scoreFunctionId immutable amount : JSVal) (a : Assertions) :
    getProp (createAssetParams S epochsNum scoreFunctionId immutable amount a) "tokenAmount"
      = amount := by
  simp [createAssetParams, getProp, lookupField]

/-- C12: in every run of `create` whose options resolve to `o`.
When `o.tokenAmount` is neither `null` nor `undefined`: no `getBidSuggestion`
call is made and every `createAsset` call receives exactly `o.tokenAmount` as
`tokenAmount`.
When `o.tokenAmount` is `null` or `undefined`: a `getBidSuggestion` call is the
only one of the run, comes right after the answered `getContractAddress` call,
and has the arguments endpoint, port, authToken, chain tag, `epochsNum`, the
size in bytes of the public assertion, the address answered by
`getContractAddress`, the public assertion id and `hashFunctionId`; when it is
answered with an error, `create` throws that error and no call follows; a
`createAsset` call is the only one of the run, comes right after the answered
`getBidSuggestion` call, and receives the answer as `tokenAmount`.
And the calls are made: when the validation service accepts the input, the
assertions are computed and `getContractAddress` is answered, a run with a
supplied `tokenAmount` continues with the `createAsset` call that carries it,
and a run without one, on a blockchain whose name is a string, continues with
the `getBidSuggestion` call, followed by the `createAsset` call that carries
the estimate when the node answers. -/
theorem create_token_amount (S : Services) (content options o : JSVal)
    (ho : (S.getAssetCreateArguments options >>= destructure) = .ok o) :
    (isNullish (getProp o "tokenAmount") = false →
      (∀ e ∈ (create S content options []).trace, e.call.method ≠ .getBidSuggestion) ∧
      (∀ e ∈ (create S content options []).trace, e.call.method = .createAsset →
        getProp (arg e.call.args 0) "tokenAmount" = getProp o "tokenAmount")) ∧
    (isNullish (getProp o "tokenAmount") = true →
      (∀ e ∈ (create S content options []).trace, e.call.method = .getBidSuggestion →
        ∃ jsonContent a address tag post,
          normalizeContent content = .ok jsonContent ∧
          computeAssertions S jsonContent = .ok a ∧
          chainTag (getProp o "blockchain") = .ok tag ∧
          e.call.args = [getProp o "endpoint", getProp o "port", getProp o "authToken", tag,
            getProp o "epochsNum", S.getAssertionSizeInBytes (S.rootSorted a.publicAssertion),
            address, .str a.publicAssertionId, getProp o "hashFunctionId"] ∧
          (create S content options []).trace =
            ⟨⟨.getContractAddress, [.str "ContentAssetStorage", getProp o "blockchain"]⟩,
              .ok address⟩ :: e :: post ∧
          (∀ e2 ∈ post, e2.call.method ≠ .getBidSuggestion) ∧
          ∀ err, e.answer = .error err →
            (create S content options []).result = .error err ∧ post = []) ∧
      (∀ e ∈ (create S content options []).trace, e.call.method = .createAsset →
        ∃ address bidArgs amount post,
          (create S content options []).trace =
            ⟨⟨.getContractAddress, [.str "ContentAssetStorage", getProp o "blockchain"]⟩,
              .ok address⟩ :: ⟨⟨.getBidSuggestion, bidArgs⟩, .ok amount⟩ :: e :: post ∧
          (∀ e2 ∈ post, e2.call.method ≠ .createAsset) ∧
          getProp (arg e.call.args 0) "tokenAmount" = amount)) ∧
    (∀ jsonContent a address,
      S.validationService.validateObjectType [content] = .ok () →
      normalizeContent content = .ok jsonContent →
      S.validationService.validateAssetCreate
        [jsonContent, getProp o "blockchain", getProp o "endpoint", getProp o "port",
          getProp o "maxNumberOfRetries", getProp o "frequency", getProp o "epochsNum",
          getProp o "hashFunctionId", getProp o "scoreFunctionId", getProp o "immutable",
          getProp o "tokenAmount", getProp o "authToken"] = .ok () →
      computeAssertions S jsonContent = .ok a →
      S.env [] ⟨.getContractAddress, [.str "ContentAssetStorage", getProp o "blockchain"]⟩
        = .ok address →
      (isNullish (getProp o "tokenAmount") = false →
        ∃ cans rest,
          (create S content options []).trace =
            ⟨⟨.getContractAddress, [.str "ContentAssetStorage", getProp o "blockchain"]⟩,
              .ok address⟩ ::
            ⟨⟨.createAsset, [createAssetParams S (getProp o "epochsNum")
              (getProp o "scoreFunctionId") (getProp o "immutable") (getProp o "tokenAmount")
              a, getProp o "blockchain"]⟩, cans⟩ :: rest ∧
          getProp (createAssetParams S (getProp o "epochsNum") (getProp o "scoreFunctionId")
            (getProp o "immutable") (getProp o "tokenAmount") a) "tokenAmount"
            = getProp o "tokenAmount" ∧
          ∀ e ∈ rest, e.call.method ≠ .createAsset ∧ e.call.method ≠ .getBidSuggestion) ∧
      (isNullish (getProp o "tokenAmount") = true →
        ∀ tag, chainTag (getProp o "blockchain") = .ok tag →
        ∃ post,
          (create S content options []).trace =
            ⟨⟨.getContractAddress, [.str "ContentAssetStorage", getProp o "blockchain"]⟩,
              .ok address⟩ ::
            ⟨⟨.getBidSuggestion, [getProp o "endpoint", getProp o "port",
              getProp o "authToken", tag, getProp o "epochsNum",
              S.getAssertionSizeInBytes (S.rootSorted a.publicAssertion), address,
              .str a.publicAssertionId, getProp o "hashFunctionId"]⟩,
              S.env [⟨⟨.getContractAddress,
                  [.str "ContentAssetStorage", getProp o "blockchain"]⟩, .ok address⟩]
                ⟨.getBidSuggestion, [getProp o "endpoint", getProp o "port",
                  getProp o "authToken", tag, getProp o "epochsNum",
                  S.getAssertionSizeInBytes (S.rootSorted a.publicAssertion), address,
                  .str a.publicAssertionId, getProp o "hashFunctionId"]⟩⟩ :: post ∧
          (∀ err,
            S.env [⟨⟨.getContractAddress,
                [.str "ContentAssetStorage", getProp o "blockchain"]⟩, .ok address⟩]
              ⟨.getBidSuggestion, [getProp o "endpoint", getProp o "port",
                getProp o "authToken", tag, getProp o "epochsNum",
                S.getAssertionSizeInBytes (S.rootSorted a.publicAssertion), address,
                .str a.publicAssertionId, getProp o "hashFunctionId"]⟩ = .error err →
            (create S content options []).result = .error err ∧ post = []) ∧
          ∀ amount,
            S.env [⟨⟨.getContractAddress,
                [.str "ContentAssetStorage", getProp o "blockchain"]⟩, .ok address⟩]
              ⟨.getBidSuggestion, [getProp o "endpoint", getProp o "port",
                getProp o "authToken", tag, getProp o "epochsNum",
                S.getAssertionSizeInBytes (S.rootSorted a.publicAssertion), address,
                .str a.publicAssertionId, getProp o "hashFunctionId"]⟩ = .ok amount →
            ∃ cans rest,
              post = ⟨⟨.createAsset, [createAssetParams S (getProp o "epochsNum")
                (getProp o "scoreFunctionId") (getProp o "immutable") amount a,
                getProp o "blockchain"]⟩, cans⟩ :: rest ∧
              getProp (createAssetParams S (getProp o "epochsNum")
                (getProp o "scoreFunctionId") (getProp o "immutable") amount a) "tokenAmount"
                = amount ∧
              ∀ e ∈ rest, e.call.method ≠ .createAsset ∧
                e.call.method ≠ .getBidSuggestion)) := by
  refine ⟨?_, ?_, ?_⟩
  · intro hsup
    rcases create_cost_cases S content options o ho with
      hA | ⟨hs, -⟩ | ⟨-, jsonContent, a, address, cans, rest, hn, ha, hT, hrest⟩ |
      ⟨hs, -⟩ | ⟨hs, -⟩
    · exact ⟨fun e he => (hA e he).1, fun e he hm => absurd hm (hA e he).2.1⟩
    · rw [hs] at hsup
      cases hsup
    · refine ⟨?_, ?_⟩
      · intro e he hm
        rw [hT] at he
        simp only [List.mem_cons] at he
        rcases he with rfl | rfl | he
        · cases hm
        · cases hm
        · exact (Event.afterMint_ne (hrest e he)).1 hm
      · intro e he hm
        rw [hT] at he
        simp only [List.mem_cons] at he
        rcases he with rfl | rfl | he
        · cases hm
        · exact createAssetParams_tokenAmount _ _ _ _ _ _
        · exact absurd hm (Event.afterMint_ne (hrest e he)).2.1
    · rw [hs] at hsup
      cases hsup
    · rw [hs] at hsup
      cases hsup
  · intro hnul
    rcases create_cost_cases S content options o ho with
      hA | ⟨-, address, err, hct, hc⟩ | ⟨hs, -⟩ |
      ⟨-, jsonContent, a, address, tag, err, hn, ha, hct, hc⟩ |
      ⟨-, jsonContent, a, address, tag, amount, cans, rest, hn, ha, hct, hT, hrest⟩
    · exact ⟨fun e he hm => absurd hm (hA e he).1, fun e he hm => absurd hm (hA e he).2.1⟩
    · refine ⟨?_, ?_⟩
      · intro e he hm
        rw [hc, List.mem_singleton] at he
        subst he
        cases hm
      · intro e he hm
        rw [hc, List.mem_singleton] at he
        subst he
        cases hm
    · rw [hs] at hnul
      cases hnul
    · refine ⟨?_, ?_⟩
      · intro e he hm
        rw [hc] at he
        simp only [List.mem_cons, List.mem_singleton, List.not_mem_nil, or_false] at he
        rcases he with rfl | rfl
        · cases hm
        · refine ⟨jsonContent, a, address, tag, [], hn, ha, hct, rfl, by rw [hc], by simp, ?_⟩
          intro err2 herr
          rw [hc]
          cases herr
          exact ⟨rfl, rfl⟩
      · intro e he hm
        rw [hc] at he
        simp only [List.mem_cons, List.mem_singleton, List.not_mem_nil, or_false] at he
        rcases he with rfl | rfl
        · cases hm
        · cases hm
    · refine ⟨?_, ?_⟩
      · intro e he hm
        rw [hT] at he
        simp only [List.mem_cons] at he
        rcases he with rfl | rfl | rfl | he
        · cases hm
        · refine ⟨jsonContent, a, address, tag, _, hn, ha, hct, rfl, hT, ?_, ?_⟩
          · intro e2 he2
            simp only [List.mem_cons] at he2
            rcases he2 with rfl | he2
            · simp
            · exact (Event.afterMint_ne (hrest e2 he2)).1
          · intro err2 herr
            cases herr
        · cases hm
        · exact absurd hm (Event.afterMint_ne (hrest e he)).1
      · intro e he hm
        rw [hT] at he
        simp only [List.mem_cons] at he
        rcases he with rfl | rfl | rfl | he
        · cases hm
        · cases hm
        · exact ⟨address, _, amount, rest, hT,
            fun e2 he2 => (Event.afterMint_ne (hrest e2 he2)).2.1,
            createAssetParams_tokenAmount _ _ _ _ _ _⟩
        · exact absurd hm (Event.afterMint_ne (hrest e he)).2.1
  · intro jsonContent a address hv1 hn hv2 ha hg
    have hc := create_reaches_cost S content options o jsonContent a address ho hv1 hn hv2 ha hg
    refine ⟨fun hs => ?_, fun hs tag htag => ?_⟩
    · rcases tokenAmountInWei_cases S (getProp o "tokenAmount") (getProp o "endpoint")
          (getProp o "port") (getProp o "authToken") (getProp o "blockchain")
          (getProp o "epochsNum") address (getProp o "hashFunctionId") a
          [⟨⟨.getContractAddress, [.str "ContentAssetStorage", getProp o "blockchain"]⟩,
            .ok address⟩] with
        ⟨-, ht⟩ | ⟨hs', -⟩
      · rw [hc, Run.bind_apply, ht]
        simp only []
        obtain ⟨cans, rest, hT, hrest⟩ := mintStorePublish_trace S
          (getProp o "blockchain") (getProp o "endpoint") (getProp o "port")
          (getProp o "authToken") (getProp o "maxNumberOfRetries") (getProp o "frequency")
          (getProp o "epochsNum") (getProp o "hashFunctionId") (getProp o "scoreFunctionId")
          (getProp o "immutable") address (getProp o "tokenAmount") a
          [⟨⟨.getContractAddress, [.str "ContentAssetStorage", getProp o "blockchain"]⟩,
            .ok address⟩]
        exact ⟨cans, rest, hT, createAssetParams_tokenAmount _ _ _ _ _ _, fun e he =>
          ⟨(Event.afterMint_ne (hrest e he)).2.1, (Event.afterMint_ne (hrest e he)).1⟩⟩
      · rw [hs] at hs'
        cases hs'
    · rcases tokenAmountInWei_cases S (getProp o "tokenAmount") (getProp o "endpoint")
          (getProp o "port") (getProp o "authToken") (getProp o "blockchain")
          (getProp o "epochsNum") address (getProp o "hashFunctionId") a
          [⟨⟨.getContractAddress, [.str "ContentAssetStorage", getProp o "blockchain"]⟩,
            .ok address⟩] with
        ⟨hs', -⟩ | ⟨-, ⟨err, hct, -⟩ | ⟨tag2, htag2, ht⟩⟩
      · rw [hs] at hs'
        cases hs'
      · rw [htag] at hct
        cases hct
      · rw [htag] at htag2
        cases htag2
        rw [hc, Run.bind_apply, ht]
        generalize S.env _ _ = ans
        cases ans with
        | error err =>
          refine ⟨[], rfl, fun err2 h => ?_, fun amount h => by cases h⟩
          cases h
          exact ⟨rfl, rfl⟩
        | ok amount =>
          simp only []
          obtain ⟨cans, rest, hT, hrest⟩ := mintStorePublish_trace S
            (getProp o "blockchain") (getProp o "endpoint") (getProp o "port")
            (getProp o "authToken") (getProp o "maxNumberOfRetries") (getProp o "frequency")
            (getProp o "epochsNum") (getProp o "hashFunctionId") (getProp o "scoreFunctionId")
            (getProp o "immutable") address amount a
            ([⟨⟨.getContractAddress, [.str "ContentAssetStorage", getProp o "blockchain"]⟩,
              .ok address⟩] ++
              [⟨⟨.getBidSuggestion, [getProp o "endpoint", getProp o "port",
                getProp o "authToken", tag, getProp o "epochsNum",
                S.getAssertionSizeInBytes (S.rootSorted a.publicAssertion), address,
                .str a.publicAssertionId, getProp o "hashFunctionId"]⟩, .ok amount⟩])
          refine ⟨_ :: rest, hT, fun err h => (by cases h), fun amount2 h => ?_⟩
          cases h
          exact ⟨cans, rest, rfl, createAssetParams_tokenAmount _ _ _ _ _ _, fun e he =>
            ⟨(Event.afterMint_ne (hrest e he)).2.1, (Event.afterMint_ne (hrest e he)).1⟩⟩

end DKG

namespace DKG
open AssetOperationsManager

/-- C12 (witness): on the sample content, with a validation service that accepts
and collaborators that answer. With `tokenAmount` 0 in the options, the run
goes from `getContractAddress` straight to a `createAsset` call that carries
0. With no `tokenAmount`, the `getBidSuggestion` call follows
`getContractAddress`, is answered `"100"`, and the `createAsset` call that
follows it carries `"100"`. -/
theorem create_token_amount_witness :
    (isNullish (getProp (sampleCreateOptionsFor sampleBlockchain (.num (.int 0)))
        "tokenAmount") = false ∧
      ∃ cans rest,
        (create (sampleServices acceptAll (sampleEnv .undefined .undefined
            (.obj [("status", .str "COMPLETED")]))) sampleContent
          (sampleCreateOptionsFor sampleBlockchain (.num (.int 0))) []).trace =
          ⟨⟨.getContractAddress, [.str "ContentAssetStorage", sampleBlockchain]⟩,
            .ok (.str "0xstorage")⟩ ::
          ⟨⟨.createAsset, [createAssetParams (sampleServices acceptAll (sampleEnv .undefined
              .undefined (.obj [("status", .str "COMPLETED")]))) (.num (.int 2))
              (.num (.int 1)) (.bool false) (.num (.int 0)) sampleAssertions,
            sampleBlockchain]⟩, cans⟩ :: rest ∧
        getProp (createAssetParams (sampleServices acceptAll (sampleEnv .undefined
            .undefined (.obj [("status", .str "COMPLETED")]))) (.num (.int 2))
            (.num (.int 1)) (.bool false) (.num (.int 0)) sampleAssertions) "tokenAmount"
          = .num (.int 0)) ∧
    (isNullish (getProp sampleCreateOptions "tokenAmount") = true ∧
      ∃ cans rest,
        (create (sampleServices acceptAll (sampleEnv .undefined .undefined
            (.obj [("status", .str "COMPLETED")]))) sampleContent sampleCreateOptions
          []).trace =
          ⟨⟨.getContractAddress, [.str "ContentAssetStorage", sampleBlockchain]⟩,
            .ok (.str "0xstorage")⟩ ::
          ⟨⟨.getBidSuggestion, [.str "http://localhost", .num (.int 8900), .undefined,
            .str "otp", .num (.int 2), .num (.int 2), .str "0xstorage",
            .str sampleAssertions.publicAssertionId, .num (.int 1)]⟩, .ok (.str "100")⟩ ::
          ⟨⟨.createAsset, [createAssetParams (sampleServices acceptAll (sampleEnv .undefined
              .undefined (.obj [("status", .str "COMPLETED")]))) (.num (.int 2))
              (.num (.int 1)) (.bool false) (.str "100") sampleAssertions,
            sampleBlockchain]⟩, cans⟩ :: rest ∧
        getProp (createAssetParams (sampleServices acceptAll (sampleEnv .undefined
            .undefined (.obj [("status", .str "COMPLETED")]))) (.num (.int 2))
            (.num (.int 1)) (.bool false) (.str "100") sampleAssertions) "tokenAmount"
          = .str "100") := by
  refine ⟨⟨rfl, ?_⟩, ⟨rfl, ?_⟩⟩
  · obtain ⟨cans, rest, hT, hp, -⟩ :=
      ((create_token_amount (sampleServices acceptAll (sampleEnv .undefined .undefined
          (.obj [("status", .str "COMPLETED")]))) sampleContent
        (sampleCreateOptionsFor sampleBlockchain (.num (.int 0)))
        (sampleCreateOptionsFor sampleBlockchain (.num (.int 0))) rfl).2.2
        sampleContent sampleAssertions (.str "0xstorage") rfl rfl rfl rfl rfl).1 rfl
    exact ⟨cans, rest, hT, hp⟩
  · obtain ⟨post, hT, -, hok⟩ :=
      ((create_token_amount (sampleServices acceptAll (sampleEnv .undefined .undefined
          (.obj [("status", .str "COMPLETED")]))) sampleContent sampleCreateOptions
        sampleCreateOptions rfl).2.2
        sampleContent sampleAssertions (.str "0xstorage") rfl rfl rfl rfl rfl).2 rfl
        (.str "otp") rfl
    obtain ⟨cans, rest, hpost, hp, -⟩ := hok (.str "100") rfl
    subst hpost
    exact ⟨cans, rest, hT, hp⟩

end DKG

namespace DKG
open AssetOperationsManager

/-! ## Publishing after the local store -/

theorem create_answers_unique (S : Services) (content options o : JSVal)
    (ho : (S.getAssetCreateArguments options >>= destructure) = .ok o) :
    ∀ e1 ∈ (create S content options []).trace, ∀ e2 ∈ (create S content options []).trace,
      ∀ v1 v2, e1.answer = .ok v1 → e2.answer = .ok v2 →
      e1.call.method = e2.call.method →
      e1.call.method = .getContractAddress ∨ e1.call.method = .createAsset → v1 = v2 := by
  intro e1 he1 e2 he2 v1 v2 ha1 ha2 hmm hm
  rcases create_cost_cases S content options o ho with
    hA | ⟨-, address, err, -, hc⟩ | ⟨-, jsonContent, a, address, cans, rest, -, -, hT, hrest⟩ |
    ⟨-, jsonContent, a, address, tag, err, -, -, -, hc⟩ |
    ⟨-, jsonContent, a, address, tag, amount, cans, rest, -, -, -, hT, hrest⟩
  · exact absurd ha1 ((hA e1 he1).2.2.2 v1)
  · rw [hc, List.mem_singleton] at he1 he2
    subst he1 he2
    cases ha1
    cases ha2
    rfl
  · have hr := fun e he => Event.afterMint_ne (hrest e he)
    rw [hT] at he1 he2
    simp only [List.mem_cons] at he1 he2
    rcases he1 with rfl | rfl | he1 <;> rcases he2 with rfl | rfl | he2
    · cases ha1
      cases ha2
      rfl
    · cases hmm
    · exact absurd hmm.symm (hr e2 he2).2.2
    · cases hmm
    · rw [ha1] at ha2
      cases ha2
      rfl
    · exact absurd hmm.symm (hr e2 he2).2.1
    · exact absurd hmm (hr e1 he1).2.2
    · exact absurd hmm (hr e1 he1).2.1
    · rcases hm with hm | hm
      · exact absurd hm (hr e1 he1).2.2
      · exact absurd hm (hr e1 he1).2.1
  · rw [hc] at he1 he2
    simp only [List.mem_cons, List.mem_singleton, List.not_mem_nil, or_false] at he1 he2
    rcases he1 with rfl | rfl <;> rcases he2 with rfl | rfl
    · cases ha1
      cases ha2
      rfl
    · cases hmm
    · cases hmm
    · cases ha1
  · have hr := fun e he => Event.afterMint_ne (hrest e he)
    rw [hT] at he1 he2
    simp only [List.mem_cons] at he1 he2
    rcases he1 with rfl | rfl | rfl | he1 <;> rcases he2 with rfl | rfl | rfl | he2
    · cases ha1
      cases ha2
      rfl
    · cases hmm
    · cases hmm
    · exact absurd hmm.symm (hr e2 he2).2.2
    · cases hmm
    · rcases hm with hm | hm <;> cases hm
    · cases hmm
    · rcases hm with hm | hm <;> cases hm
    · cases hmm
    · cases hmm
    · rw [ha1] at ha2
      cases ha2
      rfl
    · exact absurd hmm.symm (hr e2 he2).2.1
    · exact absurd hmm (hr e1 he1).2.2
    · rcases hm with hm | hm
      · exact absurd hm (hr e1 he1).2.2
      · exact absurd hm (hr e1 he1).2.1
    · exact absurd hmm (hr e1 he1).2.1
    · rcases hm with hm | hm
      · exact absurd hm (hr e1 he1).2.2
      · exact absurd hm (hr e1 he1).2.1

theorem getProp_of_getPropE {v x : JSVal} {k : String} (h : getPropE v k = .ok x) :
    x = getProp v k := by
  cases v <;> simp_all [getPropE]

theorem mintStorePublish_run (S : Services)
    (blockchain endpoint port authToken maxNumberOfRetries frequency epochsNum hashFunctionId
      scoreFunctionId immutable address amount name tokenId opId r s ual : JSVal)
    (a : Assertions) (t : List Event)
    (hname : getPropE blockchain "name" = .ok name)
    (hca : ∀ t args, S.env t ⟨.createAsset, args⟩ = .ok tokenId)
    (hls : ∀ t args, S.env t ⟨.localStore, args⟩ = .ok opId)
    (hpoll : ∀ t args, strictEqStr (arg args 3) OPERATIONS_LOCAL_STORE = true →
      S.env t ⟨.getOperationResult, args⟩ = .ok r)
    (hs : getPropE r "status" = .ok s)
    (hu : S.deriveUAL name address tokenId = .ok ual) :
    ∃ l, (∀ e ∈ l, e.call.method ≠ .publish) ∧
      mintStorePublish S blockchain endpoint port authToken maxNumberOfRetries frequency
          epochsNum hashFunctionId scoreFunctionId immutable address amount a t =
        if strictEqStr s OPERATION_STATUSES_FAILED then
          ⟨t ++ l, .ok (.obj [("UAL", ual), ("assertionId", .str a.publicAssertionId),
            ("operation", S.getOperationStatusObject r opId)])⟩
        else
          publishSteps S endpoint port authToken maxNumberOfRetries frequency hashFunctionId
            name address tokenId ual a (t ++ l) := by
  unfold mintStorePublish
  rw [Run.call_bind, hca]
  simp only []
  rw [hname]
  simp only [Run.lift_ok_bind]
  rw [Run.call_bind, hls]
  simp only []
  rw [Run.call_bind, hpoll _ _ (by simp [arg, strictEqStr])]
  simp only []
  rw [hu]
  simp only [Run.lift_ok_bind]
  rw [hs]
  simp only [Run.lift_ok_bind]
  refine ⟨[⟨⟨.createAsset,
      [createAssetParams S epochsNum scoreFunctionId immutable amount a, blockchain]⟩,
      .ok tokenId⟩,
    ⟨⟨.localStore, [endpoint, port, authToken, storedAssertions S name address tokenId a]⟩,
      .ok opId⟩,
    ⟨⟨.getOperationResult, [endpoint, port, authToken, .str OPERATIONS_LOCAL_STORE,
      maxNumberOfRetries, S.DEFAULT_GET_LOCAL_STORE_RESULT_FREQUENCY, opId]⟩, .ok r⟩], ?_, ?_⟩
  · simp
  · simp only [List.append_assoc, List.singleton_append, List.cons_append, List.nil_append]
    cases strictEqStr s OPERATION_STATUSES_FAILED <;> rfl

end DKG

namespace DKG
open AssetOperationsManager

theorem status_event_eq_poll {pre tl : List Event} {poll e : Event} {s : JSVal}
    (hpre : ∀ e ∈ pre, e.beforeStore) (htl : ∀ e ∈ tl, e.localStoreStatus = none)
    (he : e ∈ pre ++ poll :: tl) (hs : e.localStoreStatus = some s) : e = poll := by
  rcases List.mem_append.mp he with he | he
  · rw [(hpre e he).2.2] at hs
    cases hs
  · rcases List.mem_cons.mp he with he | he
    · exact he
    · rw [htl e he] at hs
      cases hs

theorem sampleEnv_localStorePoll (chainId getResult otherResult : JSVal) (t : List Event)
    (args : List JSVal) (h : strictEqStr (arg args 3) OPERATIONS_LOCAL_STORE = true) :
    sampleEnv chainId getResult otherResult t ⟨.getOperationResult, args⟩ = .ok otherResult := by
  have h3 := strictEqStr_eq_true h
  simp [sampleEnv, h3, strictEqStr, OPERATIONS_GET, OPERATIONS_LOCAL_STORE]

/-- C1 (counterexample): on a blockchain object whose `name` is the number 5, with a
supplied `tokenAmount`, the poll of the LOCAL_STORE operation is answered with
the status `COMPLETED`, which is not `FAILED`; `deriveUAL` then throws, and the
run ends without a publish call. -/
theorem create_stored_without_publish :
    (create (sampleServices acceptAll (sampleEnv .undefined .undefined
          (.obj [("status", .str "COMPLETED")]))) sampleContent
        (sampleCreateOptionsFor numberNamedBlockchain (.num (.int 0))) []).trace.map
        (fun e => e.call.method) =
      [.getContractAddress, .createAsset, .localStore, .getOperationResult] ∧
    (create (sampleServices acceptAll (sampleEnv .undefined .undefined
          (.obj [("status", .str "COMPLETED")]))) sampleContent
        (sampleCreateOptionsFor numberNamedBlockchain (.num (.int 0))) []).trace.filterMap
        Event.localStoreStatus = [.str "COMPLETED"] ∧
    strictEqStr (.str "COMPLETED") OPERATION_STATUSES_FAILED = false ∧
    (create (sampleServices acceptAll (sampleEnv .undefined .undefined
          (.obj [("status", .str "COMPLETED")]))) sampleContent
        (sampleCreateOptionsFor numberNamedBlockchain (.num (.int 0))) []).result =
      .error (.typeError "blockchain.toLowerCase is not a function") :=
  ⟨rfl, rfl, rfl, rfl⟩

end DKG

namespace DKG
open AssetOperationsManager

/-- C1 (amended): in every run of `create` whose options resolve to `o`.
A publish call is issued exactly when the poll of the LOCAL_STORE operation
delivered a status other than `FAILED` and `deriveUAL`, called on the chain
name, the contract address answered in the run and the token id answered in the
run, did not throw.
When the delivered status is `FAILED`, the run has no publish call and no poll
of a PUBLISH operation, and its result is the error thrown by `deriveUAL`, or
else `{UAL, assertionId, operation}` where `UAL` is the derived one,
`assertionId` is `calculateRoot` of the canonicalized public graph and
`operation` is the status object of the local-store result and operation id.
And the calls are made: when the validation service accepts the input, the
assertions are computed, the chain name is a string, the collaborators answer
(the address, the estimate if one is needed, the token id, the operation id and
the result `r` of the LOCAL_STORE poll, with a readable status) and `deriveUAL`
returns, the run with status `FAILED` returns that object without a publish
call, and the run with any other status makes the publish call, with the
public assertion id, the public assertion, the chain name, the address and the
token id. -/
theorem create_publish_iff (S : Services) (content options o : JSVal)
    (ho : (S.getAssetCreateArguments options >>= destructure) = .ok o) :
    ((∃ e ∈ (create S content options []).trace, e.call.method = .publish) ↔
      ∃ e ∈ (create S content options []).trace, ∃ s, e.localStoreStatus = some s ∧
        strictEqStr s OPERATION_STATUSES_FAILED = false ∧
        ∃ address tokenId ual,
          (∃ e1 ∈ (create S content options []).trace,
            e1.call.method = .getContractAddress ∧ e1.answer = .ok address) ∧
          (∃ e2 ∈ (create S content options []).trace,
            e2.call.method = .createAsset ∧ e2.answer = .ok tokenId) ∧
          S.deriveUAL (getProp (getProp o "blockchain") "name") address tokenId = .ok ual) ∧
    (∀ e ∈ (create S content options []).trace, ∀ s, e.localStoreStatus = some s →
      strictEqStr s OPERATION_STATUSES_FAILED = true →
      (∀ e2 ∈ (create S content options []).trace,
        e2.call.method ≠ .publish ∧ e2.isPublishPoll = false) ∧
      ∃ jsonContent a r opId address tokenId,
        normalizeContent content = .ok jsonContent ∧
        computeAssertions S jsonContent = .ok a ∧
        S.formatAssertion (publicGraph S jsonContent a.privateAssertionId)
          = .ok a.publicAssertion ∧
        S.calculateRoot a.publicAssertion = .ok a.publicAssertionId ∧
        e.answer = .ok r ∧
        (∃ largs, (⟨⟨.localStore, largs⟩, .ok opId⟩ : Event) ∈
          (create S content options []).trace) ∧
        (⟨⟨.getContractAddress, [.str "ContentAssetStorage", getProp o "blockchain"]⟩,
          .ok address⟩ : Event) ∈ (create S content options []).trace ∧
        (∃ margs, (⟨⟨.createAsset, margs⟩, .ok tokenId⟩ : Event) ∈
          (create S content options []).trace) ∧
        (create S content options []).result =
          (S.deriveUAL (getProp (getProp o "blockchain") "name") address tokenId).map
            fun ual => .obj [("UAL", ual), ("assertionId", .str a.publicAssertionId),
              ("operation", S.getOperationStatusObject r opId)]) ∧
    (∀ jsonContent a n address tokenId opId r s ual,
      S.validationService.validateObjectType [content] = .ok () →
      normalizeContent content = .ok jsonContent →
      S.validationService.validateAssetCreate
        [jsonContent, getProp o "blockchain", getProp o "endpoint", getProp o "port",
          getProp o "maxNumberOfRetries", getProp o "frequency", getProp o "epochsNum",
          getProp o "hashFunctionId", getProp o "scoreFunctionId", getProp o "immutable",
          getProp o "tokenAmount", getProp o "authToken"] = .ok () →
      computeAssertions S jsonContent = .ok a →
      getProp (getProp o "blockchain") "name" = .str n →
      (∀ t args, S.env t ⟨.getContractAddress, args⟩ = .ok address) →
      (isNullish (getProp o "tokenAmount") = true →
        ∀ t args, ∃ v, S.env t ⟨.getBidSuggestion, args⟩ = .ok v) →
      (∀ t args, S.env t ⟨.createAsset, args⟩ = .ok tokenId) →
      (∀ t args, S.env t ⟨.localStore, args⟩ = .ok opId) →
      (∀ t args, strictEqStr (arg args 3) OPERATIONS_LOCAL_STORE = true →
        S.env t ⟨.getOperationResult, args⟩ = .ok r) →
      getPropE r "status" = .ok s →
      S.deriveUAL (.str n) address tokenId = .ok ual →
      (strictEqStr s OPERATION_STATUSES_FAILED = true →
        (create S content options []).result =
          .ok (.obj [("UAL", ual), ("assertionId", .str a.publicAssertionId),
            ("operation", S.getOperationStatusObject r opId)]) ∧
        ∀ e ∈ (create S content options []).trace, e.call.method ≠ .publish) ∧
      (strictEqStr s OPERATION_STATUSES_FAILED = false →
        ∃ e ∈ (create S content options []).trace,
          e.call = ⟨.publish, [getProp o "endpoint", getProp o "port", getProp o "authToken",
            .str a.publicAssertionId, S.rootSorted a.publicAssertion, .str n, address,
            tokenId, getProp o "hashFunctionId"]⟩)) := by
  refine ⟨?_, ?_, ?_⟩
  · rcases create_shape S content options o ho with
      hA | ⟨jsonContent, a, pre, opId, pargs, r, s, name, address, tokenId, hn, ha, hpre, hgca,
        ⟨margs, hca⟩, ⟨largs, hls⟩, hname, hp, hs, hcase⟩
    · constructor
      · rintro ⟨e, he, hpub⟩
        exact absurd hpub (hA e he).1
      · rintro ⟨e, he, s, hs, -⟩
        rw [(hA e he).2.2] at hs
        cases hs
    · have hpoll := Event.poll_localStoreStatus hp hs
      have hnm := getProp_of_getPropE hname
      subst hnm
      have huniq := create_answers_unique S content options o ho
      rcases hcase with ⟨err, hu, hc⟩ | ⟨ual, hu, ⟨hfail, hc⟩ | ⟨hfail, ans, rest, htr, hrest⟩⟩
      · have hT : (create S content options []).trace =
            pre ++ ⟨⟨.getOperationResult, pargs⟩, .ok r⟩ :: [] := by rw [hc]
        have hsub : ∀ e ∈ pre, e ∈ (create S content options []).trace := fun e he => by
          rw [hT]
          exact List.mem_append_left _ he
        constructor
        · rintro ⟨e, he, hpub⟩
          rw [hT] at he
          rcases List.mem_append.mp he with he | he
          · exact absurd hpub (hpre e he).1
          · rw [List.mem_singleton.mp he] at hpub
            cases hpub
        · rintro ⟨e, he, s2, hs2, -, address2, tokenId2, ual2, ⟨e1, he1, hm1, ha1⟩,
            ⟨e2, he2, hm2, ha2⟩, hd⟩
          have h1 : address2 = address :=
            huniq e1 he1 _ (hsub _ hgca) address2 address ha1 rfl hm1 (Or.inl hm1)
          have h2 : tokenId2 = tokenId :=
            huniq e2 he2 _ (hsub _ hca) tokenId2 tokenId ha2 rfl hm2 (Or.inr hm2)
          subst h1 h2
          rw [hu] at hd
          cases hd
      · have hT : (create S content options []).trace =
            pre ++ ⟨⟨.getOperationResult, pargs⟩, .ok r⟩ :: [] := by rw [hc]
        constructor
        · rintro ⟨e, he, hpub⟩
          rw [hT] at he
          rcases List.mem_append.mp he with he | he
          · exact absurd hpub (hpre e he).1
          · rw [List.mem_singleton.mp he] at hpub
            cases hpub
        · rintro ⟨e, he, s2, hs2, hnf, -⟩
          rw [hT] at he
          have := status_event_eq_poll hpre (by simp) he hs2
          subst this
          rw [hpoll] at hs2
          cases hs2
          rw [hfail] at hnf
          cases hnf
      · have hsub : ∀ e ∈ pre, e ∈ (create S content options []).trace := fun e he => by
          rw [htr]
          exact List.mem_append_left _ he
        constructor
        · intro _
          refine ⟨_, by rw [htr]; exact List.mem_append_right _ (List.mem_cons_self _ _), s,
            hpoll, hfail, address, tokenId, ual, ⟨_, hsub _ hgca, rfl, rfl⟩,
            ⟨_, hsub _ hca, rfl, rfl⟩, hu⟩
        · intro _
          exact ⟨_, by
            rw [htr]
            exact List.mem_append_right _ (List.mem_cons_of_mem _ (List.mem_cons_self _ _)),
            rfl⟩
  · intro e he s2 hs2 hf2
    rcases create_shape S content options o ho with
      hA | ⟨jsonContent, a, pre, opId, pargs, r, s, name, address, tokenId, hn, ha, hpre, hgca,
        ⟨margs, hca⟩, ⟨largs, hls⟩, hname, hp, hs, hcase⟩
    · rw [(hA e he).2.2] at hs2
      cases hs2
    · have hpoll := Event.poll_localStoreStatus hp hs
      have hnm := getProp_of_getPropE hname
      subst hnm
      obtain ⟨hg, hf, hr, -, -⟩ := computeAssertions_ok ha
      have hstop : ∀ res, create S content options [] =
          ⟨pre ++ [⟨⟨.getOperationResult, pargs⟩, .ok r⟩], res⟩ →
          (∀ e2 ∈ (create S content options []).trace,
            e2.call.method ≠ .publish ∧ e2.isPublishPoll = false) ∧
          e.answer = .ok r ∧
          (∃ largs, (⟨⟨.localStore, largs⟩, .ok opId⟩ : Event) ∈
            (create S content options []).trace) ∧
          (⟨⟨.getContractAddress, [.str "ContentAssetStorage", getProp o "blockchain"]⟩,
            .ok address⟩ : Event) ∈ (create S content options []).trace ∧
          (∃ margs, (⟨⟨.createAsset, margs⟩, .ok tokenId⟩ : Event) ∈
            (create S content options []).trace) ∧
          (create S content options []).result = res := by
        intro res hc
        have hT : (create S content options []).trace =
            pre ++ ⟨⟨.getOperationResult, pargs⟩, .ok r⟩ :: [] := by rw [hc]
        have hsub : ∀ e ∈ pre, e ∈ (create S content options []).trace := fun e he => by
          rw [hT]
          exact List.mem_append_left _ he
        refine ⟨?_, ?_, ⟨largs, hsub _ hls⟩, hsub _ hgca, ⟨margs, hsub _ hca⟩, by rw [hc]⟩
        · intro e2 he2
          rw [hT] at he2
          rcases List.mem_append.mp he2 with he2 | he2
          · exact ⟨(hpre e2 he2).1, (hpre e2 he2).2.1⟩
          · rw [List.mem_singleton.mp he2]
            exact ⟨by simp, Event.poll_not_publishPoll hp⟩
        · rw [hT] at he
          have := status_event_eq_poll hpre (by simp) he hs2
          subst this
          rfl
      rcases hcase with ⟨err, hu, hc⟩ | ⟨ual, hu, ⟨hfail, hc⟩ | ⟨hfail, ans, rest, htr, hrest⟩⟩
      · obtain ⟨h1, h2, h3, h4, h5, h6⟩ := hstop _ hc
        exact ⟨h1, jsonContent, a, r, opId, address, tokenId, hn, ha, hg ▸ hf, hr, h2, h3, h4,
          h5, by rw [h6, hu]; rfl⟩
      · obtain ⟨h1, h2, h3, h4, h5, h6⟩ := hstop _ hc
        exact ⟨h1, jsonContent, a, r, opId, address, tokenId, hn, ha, hg ▸ hf, hr, h2, h3, h4,
          h5, by rw [h6, hu]; rfl⟩
      · exfalso
        rw [htr] at he
        have := status_event_eq_poll hpre (fun e2 he2 => by
          rcases List.mem_cons.mp he2 with he2 | he2
          · rw [he2]
            simp [Event.localStoreStatus]
          · exact hrest e2 he2) he hs2
        subst this
        rw [hpoll] at hs2
        cases hs2
        rw [hfail] at hf2
        cases hf2
  · intro jsonContent a n address tokenId opId r s ual hv1 hn hv2 ha hname hgca hbid hca hls
      hpoll hs hu
    obtain ⟨htag, hne⟩ := chainTag_of_name hname
    have hc := create_reaches_cost S content options o jsonContent a address ho hv1 hn hv2 ha
      (hgca [] _)
    have hstep : ∃ l amount, (∀ e ∈ l, e.call.method ≠ .publish) ∧
        tokenAmountInWei S (getProp o "tokenAmount") (getProp o "endpoint") (getProp o "port")
          (getProp o "authToken") (getProp o "blockchain") (getProp o "epochsNum") address
          (getProp o "hashFunctionId") a
          [⟨⟨.getContractAddress, [.str "ContentAssetStorage", getProp o "blockchain"]⟩,
            .ok address⟩] =
        ⟨[⟨⟨.getContractAddress, [.str "ContentAssetStorage", getProp o "blockchain"]⟩,
            .ok address⟩] ++ l, .ok amount⟩ := by
      rcases tokenAmountInWei_cases S (getProp o "tokenAmount") (getProp o "endpoint")
          (getProp o "port") (getProp o "authToken") (getProp o "blockchain")
          (getProp o "epochsNum") address (getProp o "hashFunctionId") a
          [⟨⟨.getContractAddress, [.str "ContentAssetStorage", getProp o "blockchain"]⟩,
            .ok address⟩] with
        ⟨-, ht⟩ | ⟨hs0, ⟨err, hct, -⟩ | ⟨tag, -, ht⟩⟩
      · exact ⟨[], _, by simp, by rw [ht]; rfl⟩
      · rw [htag] at hct
        cases hct
      · obtain ⟨v, hv⟩ := hbid hs0
          [⟨⟨.getContractAddress, [.str "ContentAssetStorage", getProp o "blockchain"]⟩,
            .ok address⟩]
          [getProp o "endpoint", getProp o "port", getProp o "authToken", tag,
            getProp o "epochsNum", S.getAssertionSizeInBytes (S.rootSorted a.publicAssertion),
            address, .str a.publicAssertionId, getProp o "hashFunctionId"]
        rw [hv] at ht
        exact ⟨[_], v, by simp, ht⟩
    obtain ⟨l, amount, hl, ht⟩ := hstep
    obtain ⟨l2, hl2, hrun⟩ := mintStorePublish_run S (getProp o "blockchain")
      (getProp o "endpoint") (getProp o "port") (getProp o "authToken")
      (getProp o "maxNumberOfRetries") (getProp o "frequency") (getProp o "epochsNum")
      (getProp o "hashFunctionId") (getProp o "scoreFunctionId") (getProp o "immutable")
      address amount (.str n) tokenId opId r s ual a
      ([⟨⟨.getContractAddress, [.str "ContentAssetStorage", getProp o "blockchain"]⟩,
        .ok address⟩] ++ l) hne hca hls hpoll hs hu
    have hcreate : create S content options [] =
        if strictEqStr s OPERATION_STATUSES_FAILED then
          ⟨[⟨⟨.getContractAddress, [.str "ContentAssetStorage", getProp o "blockchain"]⟩,
              .ok address⟩] ++ l ++ l2,
            .ok (.obj [("UAL", ual), ("assertionId", .str a.publicAssertionId),
              ("operation", S.getOperationStatusObject r opId)])⟩
        else
          publishSteps S (getProp o "endpoint") (getProp o "port") (getProp o "authToken")
            (getProp o "maxNumberOfRetries") (getProp o "frequency")
            (getProp o "hashFunctionId") (.str n) address tokenId ual a
            ([⟨⟨.getContractAddress, [.str "ContentAssetStorage", getProp o "blockchain"]⟩,
              .ok address⟩] ++ l ++ l2) := by
      rw [hc, Run.bind_apply, ht]
      exact hrun
    refine ⟨fun hf => ?_, fun hf => ?_⟩
    · rw [hcreate, if_pos hf]
      refine ⟨rfl, ?_⟩
      intro e he
      rcases List.mem_append.mp he with he | he
      · rcases List.mem_append.mp he with he | he
        · rw [List.mem_singleton.mp he]
          simp
        · exact hl e he
      · exact hl2 e he
    · rw [hcreate, hf]
      simp only [Bool.false_eq_true, if_false]
      obtain ⟨ans, rest, htr, -⟩ := publishSteps_trace S (getProp o "endpoint")
        (getProp o "port") (getProp o "authToken") (getProp o "maxNumberOfRetries")
        (getProp o "frequency") (getProp o "hashFunctionId") (.str n) address tokenId ual a
        ([⟨⟨.getContractAddress, [.str "ContentAssetStorage", getProp o "blockchain"]⟩,
          .ok address⟩] ++ l ++ l2)
      exact ⟨_, by rw [htr]; exact List.mem_append_right _ (List.mem_cons_self _ _), rfl⟩

end DKG

namespace DKG
open AssetOperationsManager

/-- C1 (witness): on the sample content, with a validation service that accepts
and collaborators that answer. When the poll of the LOCAL_STORE operation is
answered with the status `FAILED`, `create` returns `{UAL, assertionId,
operation}` and makes no publish call; when it is answered with `COMPLETED`,
`create` makes the publish call, with the sorted public assertion. -/
theorem create_publish_iff_witness :
    ((create (sampleServices acceptAll (sampleEnv .undefined .undefined
          (.obj [("status", .str OPERATION_STATUSES_FAILED)])))
        sampleContent sampleCreateOptions []).result =
        .ok (.obj [("UAL", .str "did:dkg:otp/0xstorage/7"),
          ("assertionId", .str sampleAssertions.publicAssertionId),
          ("operation", .obj [("operationId", .str "op-store"),
            ("status", .str OPERATION_STATUSES_FAILED), ("data", .undefined)])]) ∧
      ∀ e ∈ (create (sampleServices acceptAll (sampleEnv .undefined .undefined
          (.obj [("status", .str OPERATION_STATUSES_FAILED)])))
        sampleContent sampleCreateOptions []).trace, e.call.method ≠ .publish) ∧
    ∃ e ∈ (create (sampleServices acceptAll (sampleEnv .undefined .undefined
          (.obj [("status", .str "COMPLETED")])))
        sampleContent sampleCreateOptions []).trace,
      e.call = ⟨.publish, [.str "http://localhost", .num (.int 8900), .undefined,
        .str sampleAssertions.publicAssertionId,
        .arr [.str "_:b <https://ontology.origintrail.io/dkg/1.0#privateAssertionID> _:b <secret> y . .",
          .str "_:b <name> x ."],
        .str "otp", .str "0xstorage", .str "7", .num (.int 1)]⟩ :=
  ⟨((create_publish_iff (sampleServices acceptAll (sampleEnv .undefined .undefined
        (.obj [("status", .str OPERATION_STATUSES_FAILED)])))
      sampleContent sampleCreateOptions sampleCreateOptions rfl).2.2
      sampleContent sampleAssertions "otp" (.str "0xstorage") (.str "7") (.str "op-store")
      (.obj [("status", .str OPERATION_STATUSES_FAILED)]) (.str OPERATION_STATUSES_FAILED)
      (.str "did:dkg:otp/0xstorage/7")
      rfl rfl rfl rfl rfl (fun _ _ => rfl) (fun _ _ _ => ⟨_, rfl⟩) (fun _ _ => rfl)
      (fun _ _ => rfl)
      (fun t args h => sampleEnv_localStorePoll .undefined .undefined
        (.obj [("status", .str OPERATION_STATUSES_FAILED)]) t args h) rfl rfl).1 rfl,
    ((create_publish_iff (sampleServices acceptAll (sampleEnv .undefined .undefined
        (.obj [("status", .str "COMPLETED")])))
      sampleContent sampleCreateOptions sampleCreateOptions rfl).2.2
      sampleContent sampleAssertions "otp" (.str "0xstorage") (.str "7") (.str "op-store")
      (.obj [("status", .str "COMPLETED")]) (.str "COMPLETED")
      (.str "did:dkg:otp/0xstorage/7")
      rfl rfl rfl rfl rfl (fun _ _ => rfl) (fun _ _ _ => ⟨_, rfl⟩) (fun _ _ => rfl)
      (fun _ _ => rfl)
      (fun t args h => sampleEnv_localStorePoll .undefined .undefined
        (.obj [("status", .str "COMPLETED")]) t args h) rfl rfl).2 rfl⟩

end DKG
